import Mathlib

/-!
# hikiko/path_tracer: a shallow embedding of the intersection and integrator core

The C++ sources embedded here are `src/mesh.cc`, `src/light.cc`, `src/object.cc`,
`src/brdf.cc`, `src/rt.cc` and, of `src/scene.cc`, `Scene::intersection`,
`load_mesh` and `load_mesh_data`.

Conventions of the embedding

* `double` is an arbitrary linearly ordered field `K` with a floor function
  (exact arithmetic; `K = ℚ` makes every definition executable and `K = ℝ` is
  the ideal reading).  Rounding, infinities and NaN are outside the model.
* Pointers to objects are indices into an object store (`Scene.heap`).
* `rand()` is the `n`-th element of a fixed stream `rs : ℕ → ℕ`; the state
  records how many elements were consumed.
* Rejection loops (`do ... while`) take a fuel bound and report `Err.outOfFuel`
  when it is exhausted; a failed `assert` reports `Err.assertFailed`.
* Headers that are not part of the sources (`vector.h`, `matrix.h`, `config.h`,
  `camera.h`, `bbox.h`, `kdtree.h`, libm) are either modelled by their standard
  meaning (vector algebra) or taken as parameters in `Env` and `Loader`.
* Text input is taken as `sscanf` splits it: a directive line is the list of
  its numbers in the order in which they are written.
-/

namespace PathTracer

/-! ## Vectors (vector.h) -/

/-- Modelled from the spec: `Vector3` of vector.h (not part of the sources),
"3 floating-point components; used as position, direction, color channel
tuple". -/
structure Vector3 (K : Type) where
  x : K
  y : K
  z : K
deriving DecidableEq

/-- Modelled from the spec: `Color` of color.h (not part of the sources), a
`Vector3` "reused as RGB". -/
abbrev Color (K : Type) := Vector3 K

section Defs

variable {K : Type} [LinearOrderedField K] [FloorRing K]

namespace Vector3

/-- Modelled from the spec: the default constructor `Vector3()` of vector.h,
all components zero (`avg_color` accumulates into a default constructed
colour and `bary_coords` returns one for a zero-area triangle). -/
def zero : Vector3 K := ⟨0, 0, 0⟩

/-- Modelled from the spec: `a + b` of vector.h, the component-wise sum. -/
def add (a b : Vector3 K) : Vector3 K := ⟨a.x + b.x, a.y + b.y, a.z + b.z⟩

/-- Modelled from the spec: `a - b` of vector.h, the component-wise difference. -/
def sub (a b : Vector3 K) : Vector3 K := ⟨a.x - b.x, a.y - b.y, a.z - b.z⟩

/-- Modelled from the spec: `-a` of vector.h, the component-wise negation. -/
def neg (a : Vector3 K) : Vector3 K := ⟨-a.x, -a.y, -a.z⟩

/-- Modelled from the spec: `a * s` and `s * a` of vector.h, scaling by a scalar. -/
def smul (s : K) (a : Vector3 K) : Vector3 K := ⟨s * a.x, s * a.y, s * a.z⟩

/-- Modelled from the spec: `a * b` of vector.h on two colours, the
component-wise product (`ambient·kd`). -/
def mul (a b : Vector3 K) : Vector3 K := ⟨a.x * b.x, a.y * b.y, a.z * b.z⟩

/-- Modelled from the spec: `a / s` of vector.h, division by a scalar. -/
def sdiv (a : Vector3 K) (s : K) : Vector3 K := ⟨a.x / s, a.y / s, a.z / s⟩

end Vector3

/-- Modelled from the spec: `dot(a, b)` of vector.h, the scalar product (the
`n·D` of the spec). -/
def dot (a b : Vector3 K) : K := a.x * b.x + a.y * b.y + a.z * b.z

/-- Modelled from the spec: `cross(a, b)` of vector.h, the vector product. -/
def cross (a b : Vector3 K) : Vector3 K :=
  ⟨a.y * b.z - a.z * b.y, a.z * b.x - a.x * b.z, a.x * b.y - a.y * b.x⟩

/-! ## Pixel subdivision depth (rt.cc) -/

/-- The loop of `calc_subdiv`: `while(pow(4.0, sub) <= rays) sub++;`,
returning the final value of `sub`. -/
def calc_subdiv_loop (rays : Int) (sub : Nat) : Nat :=
  if h : ((4 : Int) ^ sub ≤ rays) then calc_subdiv_loop rays (sub + 1) else sub
termination_by (rays.toNat + 1 - sub)
decreasing_by
  have h1 : (sub : Int) < 4 ^ sub := by exact_mod_cast Nat.lt_pow_self (by norm_num : 1 < 4) sub
  omega

/-- `int calc_subdiv(int rays)`: `sub = 0; while(...) sub++; return sub - 1;`. -/
def calc_subdiv (rays : Int) : Int := (calc_subdiv_loop rays 0 : Int) - 1

/-! ## Rays, materials, intersection records -/

/-- A ray (ray.h): `origin + t * dir`. -/
structure Ray (K : Type) where
  origin : Vector3 K
  dir : Vector3 K

/-- Surface material (material.h), as used by `shade` and the scene loader. -/
structure Material (K : Type) where
  kd : Color K
  ks : Color K
  ke : Color K
  specexp : K
  kr : K

/-- Result of an intersection query (intinfo.h).  `object` is the pointer to
the hit object, an index into the object store, `none` while unset. -/
structure IntInfo (K : Type) where
  t : K
  i_point : Vector3 K
  normal : Vector3 K
  object : Option Nat

/-- Axis-aligned bounding box (bbox.h). -/
structure BBox (K : Type) where
  min : Vector3 K
  max : Vector3 K

/-- The opaque `Matrix4x4` of matrix.h, by its entries. -/
structure Matrix4x4 (K : Type) where
  matrix : Fin 4 → Fin 4 → K

/-- What the sources use but do not define: the constants of config.h and
stdlib.h, libm, and the helpers of vector.h, matrix.h, bbox.h and camera.h
whose bodies are not part of the sources. -/
structure Env (K : Type) where
  /-- Constant `EPSILON` of config.h. -/
  EPSILON : K
  /-- Constant `RAY_MAG` of config.h. -/
  RAY_MAG : K
  /-- Constant `MAX_DEPTH` of config.h. -/
  MAX_DEPTH : Nat
  /-- Constant `RAND_MAX` of stdlib.h. -/
  RAND_MAX : Nat
  /-- Whether config.h defines `USE_BBOX`. -/
  USE_BBOX : Bool
  /-- The libm `sqrt`. -/
  sqrt : K → K
  /-- The libm `pow`. -/
  pow : K → K → K
  /-- The libm `acos`. -/
  acos : K → K
  /-- The libm `cos`. -/
  cos : K → K
  /-- The libm `sin`. -/
  sin : K → K
  /-- The constant `M_PI`. -/
  pi : K
  /-- Function `reflect(l, n)`, declared in rt.cc and defined elsewhere. -/
  reflect : Vector3 K → Vector3 K → Vector3 K
  /-- A default constructed `Matrix4x4`. -/
  mat_default : Matrix4x4 K
  /-- Method `Vector3::transform(const Matrix4x4&)`. -/
  transform : Vector3 K → Matrix4x4 K → Vector3 K
  /-- Method `BBox::intersection(const Ray&)`. -/
  bbox_intersection : BBox K → Ray K → Bool
  /-- Method `Camera::get_primary_ray(x, y)` of the scene camera. -/
  get_primary_ray : K → K → Ray K

/-- The largest finite `double`, `DBL_MAX = 2^1024 - 2^971`. -/
def DBL_MAX : K := 2 ^ 1024 - 2 ^ 971

/-- The literal `1e-8` of mesh.cc. -/
def TINY : K := 1 / 10 ^ 8

/-- Modelled from the spec: `normalize(v)` of vector.h (not part of the
sources), `v / length(v)` with `length(v) = sqrt(dot(v, v))`. -/
def normalize (env : Env K) (v : Vector3 K) : Vector3 K :=
  v.sdiv (env.sqrt (dot v v))

/-! ## Meshes (mesh.h, mesh.cc) -/

/-- Enumeration `MeshPrim`. -/
inductive MeshPrim where
  | MESH_PRIM_TRI
  | MESH_PRIM_QUAD
deriving DecidableEq

/-- The integer value of a `MeshPrim` (`MESH_PRIM_TRI = 3`, `MESH_PRIM_QUAD = 4`). -/
def MeshPrim.toNat : MeshPrim → Nat
  | .MESH_PRIM_TRI => 3
  | .MESH_PRIM_QUAD => 4

/-- A mesh vertex: position and normal. -/
structure Vertex (K : Type) where
  pos : Vector3 K
  norm : Vector3 K

/-- A face: `Vertex v[4]` (fields `v0 .. v3`) and the face normal `norm`. -/
structure Face (K : Type) where
  v0 : Vertex K
  v1 : Vertex K
  v2 : Vertex K
  v3 : Vertex K
  norm : Vector3 K

/-- Array access `face.v[j]` for `j < 4`. -/
def Face.v (f : Face K) : Nat → Vertex K
  | 0 => f.v0
  | 1 => f.v1
  | 2 => f.v2
  | _ => f.v3

/-- Method `Face::calc_normal`: `norm = normalize(cross(b, a))` with
`a = v[1].pos - v[0].pos`, `b = v[2].pos - v[0].pos`. -/
def Face.calc_normal (env : Env K) (f : Face K) : Face K :=
  let a := f.v1.pos.sub f.v0.pos
  let b := f.v2.pos.sub f.v0.pos
  { f with norm := normalize env (cross b a) }

/-- The area of the whole triangle as `bary_coords` computes it:
`fabs(dot(cross(vi, vj), face->norm) / 2.0)`. -/
def bary_area (face : Face K) : K :=
  let vi := face.v1.pos.sub face.v0.pos
  let vj := face.v2.pos.sub face.v0.pos
  |dot (cross vi vj) face.norm / 2|

/-- Function `bary_coords(pt, face)` of mesh.cc. -/
def bary_coords (pt : Vector3 K) (face : Face K) : Vector3 K :=
  let bc : Vector3 K := Vector3.zero
  let area := bary_area face
  if area < TINY then bc
  else
    let pv0 := face.v0.pos.sub pt
    let pv1 := face.v1.pos.sub pt
    let pv2 := face.v2.pos.sub pt
    let a0 := |dot (cross pv1 pv2) face.norm / 2|
    let a1 := |dot (cross pv2 pv0) face.norm / 2|
    let a2 := |dot (cross pv0 pv1) face.norm / 2|
    ⟨a0 / area, a1 / area, a2 / area⟩

/-- The plane parameter of `tri_intersection`:
`t = (dot(n, pointA) - dot(n, ray.origin)) / dot(n, ray.dir)`. -/
def plane_t (face : Face K) (ray : Ray K) : K :=
  (dot face.norm face.v0.pos - dot face.norm ray.origin) / dot face.norm ray.dir

/-- The point `ray.origin + ray.dir * t`. -/
def Ray.at (ray : Ray K) (t : K) : Vector3 K := ray.origin.add (Vector3.smul t ray.dir)

/-- Function `tri_intersection(face, ray, i_info)` of mesh.cc.  The result is
`some inf` when the function returns `true`, `inf` being what it writes into
a fresh `IntInfo` (whose `object` it leaves unset). -/
def tri_intersection (env : Env K) (face : Face K) (ray : Ray K) : Option (IntInfo K) :=
  let normalA := face.v0.norm
  let normalB := face.v1.norm
  let normalC := face.v2.norm
  let n := face.norm
  if n.x = 0 ∧ n.y = 0 ∧ n.z = 0 then none
  else
    let ndir := dot n ray.dir
    if ndir = 0 then none
    else
      let t := plane_t face ray
      if t < env.EPSILON ∨ t > 1 then none
      else
        let point := ray.at t
        let bc := bary_coords point face
        let bc_sum := bc.x + bc.y + bc.z
        if bc_sum < -TINY ∨ bc_sum > 1 + TINY then none
        else
          some
            { t := t
              i_point := point
              normal := normalize env
                (((Vector3.smul bc.x normalA).add (Vector3.smul bc.y normalB)).add
                  (Vector3.smul bc.z normalC))
              object := none }

/-- Function `quad_intersection(face, ray, i_info)` of mesh.cc: the face copy
`tri` is tested first, then the copy with `v[1] = face->v[2]`,
`v[2] = face->v[3]` (the face normal is copied unchanged). -/
def quad_intersection (env : Env K) (face : Face K) (ray : Ray K) : Option (IntInfo K) :=
  let tri := face
  match tri_intersection env tri ray with
  | some inf => some inf
  | none =>
    let tri := { tri with v1 := face.v2, v2 := face.v3 }
    tri_intersection env tri ray

/-- The function pointer `face_intersection` chosen by `Mesh::set_primitive`. -/
def face_intersection (env : Env K) : MeshPrim → Face K → Ray K → Option (IntInfo K)
  | .MESH_PRIM_TRI => tri_intersection env
  | .MESH_PRIM_QUAD => quad_intersection env

/-- The members `prim` and `faces` of `class Mesh`. -/
structure Mesh (K : Type) where
  prim : MeshPrim
  faces : List (Face K)

/-- One iteration of the face loop of `Mesh::intersection`; the state is the
pair `(found, nearest)`. -/
def Mesh.intersection_step (env : Env K) (prim : MeshPrim) (ray : Ray K)
    (acc : Bool × IntInfo K) (face : Face K) : Bool × IntInfo K :=
  match face_intersection env prim face ray with
  | some inf => if inf.t < acc.2.t then (true, inf) else acc
  | none => acc

/-- The default constructed `IntInfo nearest` with `nearest.t = DBL_MAX`. -/
def IntInfo.init : IntInfo K :=
  { t := DBL_MAX, i_point := Vector3.zero, normal := Vector3.zero, object := none }

/-- Method `Mesh::intersection(ray, i_info)`; `self` is the `this` pointer,
`ignore` and `bbox` are the members inherited from `Object`. -/
def Mesh.intersection (env : Env K) (self : Nat) (ignore : Bool) (bbox : BBox K)
    (m : Mesh K) (ray : Ray K) : Option (IntInfo K) :=
  if ignore then none
  else if env.USE_BBOX && !env.bbox_intersection bbox ray then none
  else
    let r := m.faces.foldl (Mesh.intersection_step env m.prim ray) (false, IntInfo.init)
    if !r.1 then none
    else some { r.2 with object := some self }

/-- The update of the box by one vertex position in `Mesh::calc_bbox`. -/
def BBox.extend (b : BBox K) (v : Vector3 K) : BBox K :=
  let mn : Vector3 K :=
    ⟨if v.x < b.min.x then v.x else b.min.x,
     if v.y < b.min.y then v.y else b.min.y,
     if v.z < b.min.z then v.z else b.min.z⟩
  let mx : Vector3 K :=
    ⟨if v.x > b.max.x then v.x else b.max.x,
     if v.y > b.max.y then v.y else b.max.y,
     if v.z > b.max.z then v.z else b.max.z⟩
  ⟨mn, mx⟩

/-- The inner loop of `Mesh::calc_bbox`: `for(int j=0; j<prim; j++)` over
`faces[i].v[j].pos`. -/
def Mesh.calc_bbox_face (prim : MeshPrim) (b : BBox K) (face : Face K) : BBox K :=
  (List.range prim.toNat).foldl (fun acc j => acc.extend (face.v j).pos) b

/-- Method `Mesh::calc_bbox`: the box starts at `max = -DBL_MAX`,
`min = DBL_MAX` and is extended by every vertex of every face. -/
def Mesh.calc_bbox (m : Mesh K) : BBox K :=
  m.faces.foldl (Mesh.calc_bbox_face m.prim)
    ⟨⟨DBL_MAX, DBL_MAX, DBL_MAX⟩, ⟨-DBL_MAX, -DBL_MAX, -DBL_MAX⟩⟩

/-! ## Outcomes, the random stream -/

/-- Ways in which a call does not return a value. -/
inductive Err where
  /-- A failed `assert`. -/
  | assertFailed
  /-- A `do ... while` loop that did not finish within the fuel bound. -/
  | outOfFuel
  /-- An index that is no valid pointer into the object store. -/
  | badPointer
deriving DecidableEq

/-- The expression `(double) rand() / RAND_MAX` for the `i`-th call of `rand()`. -/
def frand (env : Env K) (rs : Nat → Nat) (i : Nat) : K := (rs i : K) / (env.RAND_MAX : K)

/-! ## Sampling of faces and meshes (mesh.cc) -/

/-- The rejection loop of `Face::sample` for triangles: three draws per round,
repeated `while(a + b + c > 1.0)`.  Returns the accepted triple and the number
of `rand()` calls made so far. -/
def Face.sample_tri_loop (env : Env K) (rs : Nat → Nat) : Nat → Nat → Except Err ((K × K × K) × Nat)
  | 0, _ => .error .outOfFuel
  | fuel + 1, calls =>
    let a := frand env rs calls
    let b := frand env rs (calls + 1)
    let c := frand env rs (calls + 2)
    if a + b + c > 1 then Face.sample_tri_loop env rs fuel (calls + 3)
    else .ok ((a, b, c), calls + 3)

/-- Method `Face::sample(prim)`. -/
def Face.sample (env : Env K) (rs : Nat → Nat) (fuel : Nat) (f : Face K) (prim : MeshPrim)
    (calls : Nat) : Except Err (Vector3 K × Nat) :=
  match prim with
  | .MESH_PRIM_TRI =>
    match Face.sample_tri_loop env rs fuel calls with
    | .error e => .error e
    | .ok ((a, b, c), calls) =>
      .ok (((Vector3.smul a f.v0.pos).add (Vector3.smul b f.v1.pos)).add
        (Vector3.smul c f.v2.pos), calls)
  | .MESH_PRIM_QUAD =>
    let edge_a := f.v1.pos.sub f.v0.pos
    let edge_b := f.v2.pos.sub f.v0.pos
    let a := frand env rs calls
    let b := frand env rs (calls + 1)
    .ok (((Vector3.smul a edge_a).add (Vector3.smul b edge_b)).add f.v0.pos, calls + 2)

/-- The face index of `Mesh::sample`:
`(int) ((double) rand() / ((double)RAND_MAX + 1) * (double)faces.size())`. -/
def Mesh.sample_index (env : Env K) (r : Nat) (count : Nat) : Int :=
  ⌊(r : K) / ((env.RAND_MAX : K) + 1) * (count : K)⌋

/-- Method `Mesh::sample`. -/
def Mesh.sample (env : Env K) (rs : Nat → Nat) (fuel : Nat) (m : Mesh K) (calls : Nat) :
    Except Err (Vector3 K × Nat) :=
  let rnd := Mesh.sample_index env (rs calls) m.faces.length
  if rnd < (m.faces.length : Int) then
    match m.faces[rnd.toNat]? with
    | some rnd_face => rnd_face.sample env rs fuel m.prim (calls + 1)
    | none => .error .badPointer
  else .error .assertFailed

/-! ## Objects (object.cc, light.cc) -/

/-- The variants of `Object`.  Meshes and point lights are part of the
sources; every other variant (sphere, plane, sphere flake) is given by its
virtual methods: `intersection` (which may read the `ignore` flag),
`calc_bbox` (the box it computes) and `sample` (reading the random stream from
a position and returning the new position). -/
inductive Shape (K : Type) where
  | mesh (m : Mesh K)
  | pointLight (position : Vector3 K)
  | other (isect : Bool → Ray K → Option (IntInfo K)) (box : BBox K)
      (smpl : (Nat → Nat) → Nat → Vector3 K × Nat)

/-- An object: the members of `class Object` and the variant. -/
structure Object (K : Type) where
  ignore : Bool
  material : Material K
  bbox : BBox K
  shape : Shape K

/-- Method `is_light`: `Object::is_light` and its override in `PointLight`. -/
def Object.is_light (o : Object K) : Bool :=
  match o.shape with
  | .pointLight _ => true
  | _ => decide (o.material.ke.x > 0 ∨ o.material.ke.y > 0 ∨ o.material.ke.z > 0)

/-- The virtual method `intersection`; `self` is the `this` pointer. -/
def Object.intersection (env : Env K) (self : Nat) (o : Object K) (ray : Ray K) :
    Option (IntInfo K) :=
  match o.shape with
  | .mesh m => Mesh.intersection env self o.ignore o.bbox m ray
  | .pointLight _ => none
  | .other isect _ _ => isect o.ignore ray

/-- The virtual method `calc_bbox`, returning the object with its new box. -/
def Object.calc_bbox (o : Object K) : Object K :=
  match o.shape with
  | .mesh m => { o with bbox := m.calc_bbox }
  | .pointLight position => { o with bbox := ⟨position, position⟩ }
  | .other _ box _ => { o with bbox := box }

/-- The virtual method `sample`. -/
def Object.sample (env : Env K) (rs : Nat → Nat) (fuel : Nat) (o : Object K) (calls : Nat) :
    Except Err (Vector3 K × Nat) :=
  match o.shape with
  | .mesh m => m.sample env rs fuel calls
  | .pointLight position => .ok (position, calls)
  | .other _ _ smpl => .ok (smpl rs calls)

/-! ## The scene (scene.cc) -/

/-- The root node of the scene index: one box and a flat list of objects. -/
structure BBoxNode (K : Type) where
  bbox : BBox K
  objects : List Nat

/-- The global `scene`: the object store addressed by the pointers, the
members `objects`, `lights`, `ambient` and `bbroot`. -/
structure Scene (K : Type) where
  heap : List (Object K)
  objects : List Nat
  lights : List Nat
  ambient : Color K
  bbroot : Option (BBoxNode K)

/-- Apply `f` to the object a pointer refers to. -/
def modifyAt (f : Object K → Object K) : List (Object K) → Nat → List (Object K)
  | [], _ => []
  | o :: os, 0 => f o :: os
  | o :: os, i + 1 => o :: modifyAt f os i

/-- The assignment `obj->ignore = b`. -/
def Scene.set_ignore (sc : Scene K) (obj : Nat) (b : Bool) : Scene K :=
  { sc with heap := modifyAt (fun o => { o with ignore := b }) sc.heap obj }

/-- Method `Scene::build_bbtree`: the root box is the cube of half side
`RAY_MAG`; every member of `objects` gets its box computed and is added. -/
def Scene.build_bbtree (env : Env K) (sc : Scene K) : Scene K :=
  let max : Vector3 K := ⟨env.RAY_MAG, env.RAY_MAG, env.RAY_MAG⟩
  let min := max.neg
  { sc with
    heap := sc.objects.foldl (fun h i => modifyAt Object.calc_bbox h i) sc.heap
    bbroot := some ⟨⟨min, max⟩, sc.objects⟩ }

/-- Modelled from the spec: `BBoxNode::intersection` (kdtree.h is not part of
the sources).  "A query first rejects rays that miss the overall bounding
region, then performs ordered linear testing of member objects, retaining the
globally nearest hit and tagging the result with the hit object." -/
def BBoxNode.intersection (env : Env K) (heap : List (Object K)) (node : BBoxNode K)
    (ray : Ray K) : Option (IntInfo K) :=
  if !env.bbox_intersection node.bbox ray then none
  else
    node.objects.foldl
      (fun (best : Option (IntInfo K)) (i : Nat) =>
        match heap[i]? with
        | none => best
        | some o =>
          match Object.intersection env i o ray with
          | none => best
          | some inf =>
            match best with
            | none => some { inf with object := some i }
            | some b => if inf.t < b.t then some { inf with object := some i } else best)
      none

/-- Method `Scene::intersection(ray, inter)`: builds the index on first use,
then queries its root.  Returns the hit (if any) and the scene. -/
def Scene.intersection (env : Env K) (sc : Scene K) (ray : Ray K) :
    Option (IntInfo K) × Scene K :=
  let sc := if sc.bbroot.isNone then sc.build_bbtree env else sc
  match sc.bbroot with
  | some root => (root.intersection env sc.heap ray, sc)
  | none => (none, sc)

/-! ## Reflectance lobes (brdf.cc) -/

/-- Function `phong(indir, outdir, n, specexp)`. -/
def phong (env : Env K) (indir outdir n : Vector3 K) (specexp : K) : K :=
  let refindir := env.reflect indir n
  let s := dot refindir outdir
  if s < 0 then 0 else env.pow s specexp

/-- Function `lambert(indir, n)`. -/
def lambert (indir n : Vector3 K) : K :=
  let d := dot n indir
  if d < 0 then 0 else d

/-- The rejection loop of `sample_lambert`: three draws per round, repeated
`while (magnitude > 1.0)`. -/
def sample_lambert_loop (env : Env K) (rs : Nat → Nat) :
    Nat → Nat → Except Err ((K × K × K × K) × Nat)
  | 0, _ => .error .outOfFuel
  | fuel + 1, calls =>
    let rndx := 2 * (rs calls : K) / (env.RAND_MAX : K) - 1
    let rndy := 2 * (rs (calls + 1) : K) / (env.RAND_MAX : K) - 1
    let rndz := 2 * (rs (calls + 2) : K) / (env.RAND_MAX : K) - 1
    let magnitude := env.sqrt (rndx * rndx + rndy * rndy + rndz * rndz)
    if magnitude > 1 then sample_lambert_loop env rs fuel (calls + 3)
    else .ok ((rndx, rndy, rndz, magnitude), calls + 3)

/-- Function `sample_lambert(n)`. -/
def sample_lambert (env : Env K) (rs : Nat → Nat) (fuel : Nat) (n : Vector3 K) (calls : Nat) :
    Except Err (Vector3 K × Nat) :=
  match sample_lambert_loop env rs fuel calls with
  | .error e => .error e
  | .ok ((rndx, rndy, rndz, magnitude), calls) =>
    let rnd_dir : Vector3 K := ⟨rndx / magnitude, rndy / magnitude, rndz / magnitude⟩
    if dot rnd_dir n < 0 then .ok (rnd_dir.neg, calls) else .ok (rnd_dir, calls)

/-- The assignment `mat.matrix[i][j] = x`. -/
def Matrix4x4.set (m : Matrix4x4 K) (i j : Fin 4) (x : K) : Matrix4x4 K :=
  ⟨fun a b => if a = i ∧ b = j then x else m.matrix a b⟩

/-- Function `sample_phong(outdir, n, specexp)`. -/
def sample_phong (env : Env K) (rs : Nat → Nat) (outdir n : Vector3 K) (specexp : K)
    (calls : Nat) : Vector3 K × Nat :=
  let mat := env.mat_default
  let ldir := normalize env outdir
  let ref := env.reflect ldir n
  let ndotl := dot ldir n
  let mat :=
    if 1 - ndotl > env.EPSILON then
      let basis : Vector3 K × Vector3 K × Vector3 K :=
        if |ndotl| < env.EPSILON then
          let kvec := (normalize env ldir).neg
          let jvec := n
          (cross jvec kvec, jvec, kvec)
        else
          let ivec := normalize env (cross ldir ref)
          (ivec, ref, cross ref ivec)
      let ivec := basis.1
      let jvec := basis.2.1
      let kvec := basis.2.2
      ((((((((mat.set 0 0 ivec.x).set 1 0 ivec.y).set 2 0 ivec.z).set 0 1 jvec.x).set 1 1
        jvec.y).set 2 1 jvec.z).set 0 2 kvec.x).set 1 2 kvec.y).set 2 2 kvec.z
    else mat
  let rnd1 := frand env rs calls
  let rnd2 := frand env rs (calls + 1)
  let phi := env.acos (env.pow rnd1 (1 / (specexp + 1)))
  let theta := 2 * env.pi * rnd2
  let v : Vector3 K :=
    ⟨env.cos theta * env.sin phi, env.cos phi, env.sin theta * env.sin phi⟩
  (env.transform v mat, calls + 2)

/-! ## The integrator and the pixel sampler (rt.cc) -/

/-- The mutable program state: the number of `rand()` calls made so far and
the global `scene`. -/
structure State (K : Type) where
  calls : Nat
  scene : Scene K

/-- The macro `MAX(a, b)` of rt.cc. -/
def MAX (a b : K) : K := if a > b then a else b

/-- One iteration of the light loop of `shade` for the light pointer `light`:
the hit point `p`, the flipped normal `n`, the view vector `v` and the material
`mat` are those of the enclosing call. -/
def shade_light (env : Env K) (rs : Nat → Nat) (fuel : Nat) (p n v : Vector3 K)
    (mat : Material K) (acc : Except Err (Color K × State K)) (light : Nat) :
    Except Err (Color K × State K) :=
  match acc with
  | .error e => .error e
  | .ok (color, st) =>
    let sc := st.scene.set_ignore light true
    match sc.heap[light]? with
    | none => .error .badPointer
    | some lobj =>
      match lobj.sample env rs fuel st.calls with
      | .error e => .error e
      | .ok (smp, calls) =>
        let sray : Ray K := ⟨p, smp.sub p⟩
        let q := sc.intersection env sray
        let color :=
          if q.1.isNone then
            let l := normalize env sray.dir
            let lr := env.reflect l n
            let d := dot n l
            let d := if d < 0 then 0 else d
            let lrdotv := dot lr v
            let lrdotv := if lrdotv < 0 then 0 else lrdotv
            let s := env.pow lrdotv mat.specexp
            let light_color := lobj.material.ke
            color.add (((Vector3.smul d mat.kd).add (Vector3.smul s mat.ks)).mul light_color)
          else color
        .ok (color, { st with calls := calls, scene := q.2.set_ignore light false })

/-- Function `shade(ray, min_info, depth)`; the parameter `tr` stands for the
recursive call `trace(·, depth - 1)`. -/
def shade (env : Env K) (rs : Nat → Nat) (fuel : Nat)
    (tr : Ray K → State K → Except Err (Color K × State K))
    (ray : Ray K) (min_info : IntInfo K) (st : State K) : Except Err (Color K × State K) :=
  let n := min_info.normal
  let n := if dot n ray.dir > 0 then n.neg else n
  let p := min_info.i_point
  let v := normalize env (ray.origin.sub p)
  match min_info.object.bind (fun i => st.scene.heap[i]?) with
  | none => .error .badPointer
  | some obj =>
    let mat := obj.material
    let color := (st.scene.ambient.mul mat.kd).add mat.ke
    match st.scene.lights.foldl (shade_light env rs fuel p n v mat) (.ok (color, st)) with
    | .error e => .error e
    | .ok (color, st) =>
      let avg_spec := (mat.ks.x + mat.ks.y + mat.ks.z) / 3
      let avg_diff := (mat.kd.x + mat.kd.y + mat.kd.z) / 3
      let range := MAX (avg_spec + avg_diff) 1
      let rnd := frand env rs st.calls * range
      let st := { st with calls := st.calls + 1 }
      if rnd < avg_diff then
        match sample_lambert env rs fuel n st.calls with
        | .error e => .error e
        | .ok (newdir, calls) =>
          let u := frand env rs calls
          let st := { st with calls := calls + 1 }
          if u ≤ lambert newdir n then
            let newray : Ray K := ⟨p, Vector3.smul env.RAY_MAG newdir⟩
            match tr newray st with
            | .error e => .error e
            | .ok (c, st) => .ok (color.add ((c.mul mat.kd).sdiv avg_diff), st)
          else .ok (color, st)
      else if rnd < avg_diff + avg_spec then
        let smp := sample_phong env rs ray.dir.neg n mat.specexp st.calls
        let newdir := smp.1
        let pdf_spec := phong env newdir (normalize env ray.dir).neg n mat.specexp
        let u := frand env rs smp.2
        let st := { st with calls := smp.2 + 1 }
        if u ≤ pdf_spec then
          let newray : Ray K := ⟨p, Vector3.smul env.RAY_MAG newdir⟩
          match tr newray st with
          | .error e => .error e
          | .ok (c, st) => .ok (color.add ((c.mul mat.ks).sdiv avg_spec), st)
        else .ok (color, st)
      else .ok (color, st)

/-- Function `trace(ray, depth)`, for a depth that is not negative. -/
def trace (env : Env K) (rs : Nat → Nat) (fuel : Nat) :
    Nat → Ray K → State K → Except Err (Color K × State K)
  | 0, _, st => .ok (Vector3.zero, st)
  | depth + 1, ray, st =>
    let q := st.scene.intersection env ray
    let st := { st with scene := q.2 }
    match q.1 with
    | some min_info => shade env rs fuel (trace env rs fuel depth) ray min_info st
    | none => .ok (Vector3.zero, st)

/-- The clamping of `avg_color`: `c.x = c.x > 1.0 ? 1.0 : c.x` on every channel. -/
def clamp1 (c : Color K) : Color K :=
  ⟨if c.x > 1 then 1 else c.x, if c.y > 1 then 1 else c.y, if c.z > 1 then 1 else c.z⟩

/-- One leaf evaluation of `avg_color`: the coordinates `(x, y)` handed to
`get_primary_ray` and the colour that `trace(ray, MAX_DEPTH)` returned. -/
structure Leaf (K : Type) where
  x : K
  y : K
  traced : Color K

/-- The leaf of `avg_color` (`depth == 0`): the optional jitter, the primary
ray, `trace(ray, MAX_DEPTH)` and the clamping.  Besides the colour and the
state it reports the leaf evaluation it performed. -/
def avg_color_leaf (env : Env K) (rs : Nat → Nat) (fuel : Nat) (rays_ppxl : Int)
    (pxl_width pxl_height x y : K) (st : State K) :
    Except Err (Color K × State K × List (Leaf K)) :=
  let x1 := if rays_ppxl > 1 then
    x + (frand env rs st.calls * pxl_width - pxl_width / 2) else x
  let y1 := if rays_ppxl > 1 then
    y + (frand env rs (st.calls + 1) * pxl_height - pxl_height / 2) else y
  let st := if rays_ppxl > 1 then { st with calls := st.calls + 2 } else st
  let ray := env.get_primary_ray x1 y1
  match trace env rs fuel env.MAX_DEPTH ray st with
  | .error e => .error e
  | .ok (c, st) => .ok (clamp1 c, st, [⟨x1, y1, c⟩])

/-- Function `avg_color(pxl_width, pxl_height, x, y, depth)`, for a depth
that is not negative; `rays_ppxl` is the global of that name.  Besides the
colour and the state it reports, in the order of evaluation, the leaf
evaluations it performed (a record of the run that the program itself never
reads). -/
def avg_color (env : Env K) (rs : Nat → Nat) (fuel : Nat) (rays_ppxl : Int) :
    Nat → K → K → K → K → State K → Except Err (Color K × State K × List (Leaf K))
  | 0, pxl_width, pxl_height, x, y, st =>
    avg_color_leaf env rs fuel rays_ppxl pxl_width pxl_height x y st
  | depth + 1, w, h, x, y, st =>
    let c : Color K := Vector3.zero
    match avg_color env rs fuel rays_ppxl depth (w / 2) (h / 2) (x + w / 4) (y + h / 4) st with
    | .error e => .error e
    | .ok (c1, st, l1) =>
      let c := c.add c1
      match avg_color env rs fuel rays_ppxl depth (w / 2) (h / 2) (x + w / 4) (y - h / 4) st with
      | .error e => .error e
      | .ok (c2, st, l2) =>
        let c := c.add c2
        match avg_color env rs fuel rays_ppxl depth (w / 2) (h / 2) (x - w / 4) (y + h / 4)
            st with
        | .error e => .error e
        | .ok (c3, st, l3) =>
          let c := c.add c3
          match avg_color env rs fuel rays_ppxl depth (w / 2) (h / 2) (x - w / 4) (y - h / 4)
              st with
          | .error e => .error e
          | .ok (c4, st, l4) =>
            let c := c.add c4
            .ok (c.sdiv 4, st, l1 ++ l2 ++ l3 ++ l4)

/-! ## Predicates used in the statements -/

/-- The box `b` contains the point `p`, component by component. -/
def BBox.contains (b : BBox K) (p : Vector3 K) : Prop :=
  (b.min.x ≤ p.x ∧ p.x ≤ b.max.x) ∧ (b.min.y ≤ p.y ∧ p.y ≤ b.max.y) ∧
    (b.min.z ≤ p.z ∧ p.z ≤ b.max.z)

/-- The point with coordinates `(a, b, c)` relative to the vertices of the
face: `a * v0 + b * v1 + c * v2`. -/
def Face.combo (f : Face K) (a b c : K) : Vector3 K :=
  ((Vector3.smul a f.v0.pos).add (Vector3.smul b f.v1.pos)).add (Vector3.smul c f.v2.pos)

/-- The point `p` lies in the plane of the triangle `v0 v1 v2`. -/
def Face.coplanar (f : Face K) (p : Vector3 K) : Prop :=
  ∃ a b c : K, a + b + c = 1 ∧ p = f.combo a b c

/-- The point `p` lies in the closed triangle `v0 v1 v2`. -/
def Face.inside (f : Face K) (p : Vector3 K) : Prop :=
  ∃ a b c : K, 0 ≤ a ∧ 0 ≤ b ∧ 0 ≤ c ∧ a + b + c = 1 ∧ p = f.combo a b c

/-- The sum of the three area ratios, `bc.x + bc.y + bc.z` in `tri_intersection`. -/
def bc_sum (pt : Vector3 K) (face : Face K) : K :=
  (bary_coords pt face).x + (bary_coords pt face).y + (bary_coords pt face).z

/-- The sum of a list of colours. -/
def Vector3.sum (l : List (Vector3 K)) : Vector3 K := l.foldr Vector3.add Vector3.zero

/-- The first constituent triangle `{v0, v1, v2}` of a quad, as a face copy
that keeps the face normal. -/
def Face.tri012 (f : Face K) : Face K := f

/-- The second constituent triangle `{v0, v2, v3}` of a quad, as a face copy
that keeps the face normal. -/
def Face.tri023 (f : Face K) : Face K := { f with v1 := f.v2, v2 := f.v3 }

/-- The record `tri_intersection` writes on a hit. -/
def tri_info (env : Env K) (face : Face K) (ray : Ray K) : IntInfo K :=
  let bc := bary_coords (ray.at (plane_t face ray)) face
  { t := plane_t face ray
    i_point := ray.at (plane_t face ray)
    normal := normalize env
      (((Vector3.smul bc.x face.v0.norm).add (Vector3.smul bc.y face.v1.norm)).add
        (Vector3.smul bc.z face.v2.norm))
    object := none }

/-- The conditions under which `tri_intersection` returns `true`: none of its
four rejections applies. -/
def tri_hits (env : Env K) (face : Face K) (ray : Ray K) : Prop :=
  ¬ (face.norm.x = 0 ∧ face.norm.y = 0 ∧ face.norm.z = 0) ∧ dot face.norm ray.dir ≠ 0 ∧
    env.EPSILON ≤ plane_t face ray ∧ plane_t face ray ≤ 1 ∧
    -TINY ≤ bc_sum (ray.at (plane_t face ray)) face ∧
    bc_sum (ray.at (plane_t face ray)) face ≤ 1 + TINY

/-- The invariant of the face loop of `Mesh::intersection` after the faces
`l`: either nothing was hit and `nearest` is untouched, or `nearest` is the hit
of a face `f` of `l` that is strictly nearer than every hit before it and at
least as near as every hit after it. -/
def Mesh.loop_inv (env : Env K) (prim : MeshPrim) (ray : Ray K) (l : List (Face K))
    (acc : Bool × IntInfo K) : Prop :=
  (acc.1 = false ∧ acc.2 = IntInfo.init ∧ ∀ g ∈ l, face_intersection env prim g ray = none) ∨
    (acc.1 = true ∧ ∃ pre f post, l = pre ++ f :: post ∧
      face_intersection env prim f ray = some acc.2 ∧
      (∀ g ∈ pre, ∀ inf, face_intersection env prim g ray = some inf → acc.2.t < inf.t) ∧
      (∀ g ∈ post, ∀ inf, face_intersection env prim g ray = some inf → acc.2.t ≤ inf.t))

/-! ## The decomposition of `shade` around its recursive call -/

/-- The value `avg_spec` of `shade`: `(ks.x + ks.y + ks.z) / 3`. -/
def avg_spec (mat : Material K) : K := (mat.ks.x + mat.ks.y + mat.ks.z) / 3

/-- The value `avg_diff` of `shade`: `(kd.x + kd.y + kd.z) / 3`. -/
def avg_diff (mat : Material K) : K := (mat.kd.x + mat.kd.y + mat.kd.z) / 3

/-- The value `rnd` of `shade`: `(double)rand() / RAND_MAX * range` with
`range = MAX(avg_spec + avg_diff, 1.0)`, for the `calls`-th draw. -/
def roulette_rnd (env : Env K) (rs : Nat → Nat) (mat : Material K) (calls : Nat) : K :=
  frand env rs calls * MAX (avg_spec mat + avg_diff mat) 1

/-- How far `shade` gets without its recursive call: either it is done with a
colour, or a bounce was accepted and `trace(newray, depth - 1)` is next, after
which `color + traced * weight / avg` is returned (`diffuse` tells the branch:
`weight = kd`, `avg = avg_diff` or `weight = ks`, `avg = avg_spec`). -/
inductive ShadeStep (K : Type) where
  | done (color : Color K) (st : State K)
  | bounce (diffuse : Bool) (color : Color K) (weight : Color K) (avg : K) (newray : Ray K)
      (st : State K)

/-- The russian roulette of `shade` up to the recursive call: `color` and `st`
are the colour and state after the light loop. -/
def shade_roulette (env : Env K) (rs : Nat → Nat) (fuel : Nat) (ray : Ray K)
    (p n : Vector3 K) (mat : Material K) (color : Color K) (st : State K) :
    Except Err (ShadeStep K) :=
  let rnd := roulette_rnd env rs mat st.calls
  let st := { st with calls := st.calls + 1 }
  if rnd < avg_diff mat then
    match sample_lambert env rs fuel n st.calls with
    | .error e => .error e
    | .ok (newdir, calls) =>
      let u := frand env rs calls
      let st := { st with calls := calls + 1 }
      if u ≤ lambert newdir n then
        .ok (.bounce true color mat.kd (avg_diff mat) ⟨p, Vector3.smul env.RAY_MAG newdir⟩ st)
      else .ok (.done color st)
  else if rnd < avg_diff mat + avg_spec mat then
    let smp := sample_phong env rs ray.dir.neg n mat.specexp st.calls
    let newdir := smp.1
    let pdf_spec := phong env newdir (normalize env ray.dir).neg n mat.specexp
    let u := frand env rs smp.2
    let st := { st with calls := smp.2 + 1 }
    if u ≤ pdf_spec then
      .ok (.bounce false color mat.ks (avg_spec mat) ⟨p, Vector3.smul env.RAY_MAG newdir⟩ st)
    else .ok (.done color st)
  else .ok (.done color st)

/-- The flipped shading normal of `shade`. -/
def shade_normal (ray : Ray K) (min_info : IntInfo K) : Vector3 K :=
  if dot min_info.normal ray.dir > 0 then min_info.normal.neg else min_info.normal

/-- The light loop of `shade`, started with `ambient * kd + ke` of the
material `mat` of the hit object. -/
def shade_lights (env : Env K) (rs : Nat → Nat) (fuel : Nat) (ray : Ray K)
    (min_info : IntInfo K) (mat : Material K) (st : State K) : Except Err (Color K × State K) :=
  st.scene.lights.foldl
    (shade_light env rs fuel min_info.i_point (shade_normal ray min_info)
      (normalize env (ray.origin.sub min_info.i_point)) mat)
    (.ok ((st.scene.ambient.mul mat.kd).add mat.ke, st))

/-- The part of `shade` before its recursive call: the material lookup, the
light loop and the russian roulette. -/
def shade_prepare (env : Env K) (rs : Nat → Nat) (fuel : Nat) (ray : Ray K)
    (min_info : IntInfo K) (st : State K) : Except Err (ShadeStep K) :=
  match min_info.object.bind (fun i => st.scene.heap[i]?) with
  | none => .error .badPointer
  | some obj =>
    match shade_lights env rs fuel ray min_info obj.material st with
    | .error e => .error e
    | .ok (color, st) =>
      shade_roulette env rs fuel ray min_info.i_point (shade_normal ray min_info) obj.material
        color st

/-- The part of `shade` from its recursive call on; `tr` stands for
`trace(·, depth - 1)`. -/
def shade_finish (tr : Ray K → State K → Except Err (Color K × State K)) :
    ShadeStep K → Except Err (Color K × State K)
  | .done color st => .ok (color, st)
  | .bounce _ color weight avg newray st =>
    match tr newray st with
    | .error e => .error e
    | .ok (c, st) => .ok (color.add ((c.mul weight).sdiv avg), st)

/-! ## Predicates on scenes used in the statements -/

/-- Every object's `ignore` flag is false. -/
def Scene.all_clear (sc : Scene K) : Prop :=
  ∀ (i : Nat) (o : Object K), sc.heap[i]? = some o → o.ignore = false

/-- Exactly the object that `light` points to has its `ignore` flag set. -/
def Scene.only_ignored (sc : Scene K) (light : Nat) : Prop :=
  ∀ (i : Nat) (o : Object K), sc.heap[i]? = some o → (o.ignore = true ↔ i = light)

/-- The scene `sc'` has the objects of `sc` with the same materials and the
same geometry at the same addresses, and the same `lights`, `objects` and
`ambient`; the `ignore` flags, the bounding boxes and the index may differ. -/
def Scene.frame (sc sc' : Scene K) : Prop :=
  sc'.lights = sc.lights ∧ sc'.objects = sc.objects ∧ sc'.ambient = sc.ambient ∧
    sc'.heap.length = sc.heap.length ∧
    ∀ (i : Nat) (o' : Object K), sc'.heap[i]? = some o' →
      ∃ o : Object K, sc.heap[i]? = some o ∧ o'.material = o.material ∧ o'.shape = o.shape

/-- The scene `sc'` has the `ignore` flags of `sc`. -/
def Scene.same_flags (sc sc' : Scene K) : Prop :=
  ∀ (i : Nat) (o' : Object K), sc'.heap[i]? = some o' →
    ∃ o : Object K, sc.heap[i]? = some o ∧ o'.ignore = o.ignore

/-- Component-wise order on colours: `a ≤ b` in every channel. -/
def Vector3.le (a b : Vector3 K) : Prop := a.x ≤ b.x ∧ a.y ≤ b.y ∧ a.z ≤ b.z

/-- The reflectances `kd`, `ks` and the emission `ke` of a material are
component-wise non-negative. -/
def Material.nonneg (m : Material K) : Prop :=
  Vector3.le Vector3.zero m.kd ∧ Vector3.le Vector3.zero m.ks ∧ Vector3.le Vector3.zero m.ke

/-- The ambient term of the scene and the reflectances and emission of every
object (lights included) are component-wise non-negative. -/
def Scene.nonneg (sc : Scene K) : Prop :=
  Vector3.le Vector3.zero sc.ambient ∧
    ∀ (i : Nat) (o : Object K), sc.heap[i]? = some o → o.material.nonneg


/-! ## Termination and the chain of nested `trace` calls -/

/-- A computation indexed by the bound on the rounds of the rejection loops
terminates: from some bound on, it gives one and the same outcome, and that
outcome is not the exhaustion of the bound. -/
def Settles {α : Type} (f : Nat → Except Err α) : Prop :=
  ∃ (N : Nat) (r : Except Err α), r ≠ .error .outOfFuel ∧ ∀ fuel, N ≤ fuel → f fuel = r

/-- The rejection loops of `Face::sample` and `sample_lambert` terminate for
the random stream `rs`, from every position of the stream. -/
def loops_terminate (env : Env K) (rs : Nat → Nat) : Prop :=
  (∀ calls, ∃ fuel, Face.sample_tri_loop env rs fuel calls ≠ .error .outOfFuel) ∧
    ∀ calls, ∃ fuel, sample_lambert_loop env rs fuel calls ≠ .error .outOfFuel

/-- The run of `trace(ray, depth)` together with the record of its nested
`trace` calls, outermost first: for every call its `depth` argument and whether
it invoked `shade`.  `trace` invokes `shade` when the ray hits, and `shade`
calls `trace(newray, depth - 1)` when the roulette accepted a bounce. -/
def trace_run (env : Env K) (rs : Nat → Nat) (fuel : Nat) :
    Nat → Ray K → State K → Except Err (Color K × State K) × List (Nat × Bool)
  | 0, _, st => (.ok (Vector3.zero, st), [(0, false)])
  | depth + 1, ray, st =>
    let q := st.scene.intersection env ray
    let st := { st with scene := q.2 }
    match q.1 with
    | none => (.ok (Vector3.zero, st), [(depth + 1, false)])
    | some min_info =>
      match shade_prepare env rs fuel ray min_info st with
      | .error e => (.error e, [(depth + 1, true)])
      | .ok (.done color st) => (.ok (color, st), [(depth + 1, true)])
      | .ok (.bounce _ color weight avg newray st) =>
        let sub := trace_run env rs fuel depth newray st
        (match sub.1 with
          | .error e => .error e
          | .ok (c, st) => .ok (color.add ((c.mul weight).sdiv avg), st),
          (depth + 1, true) :: sub.2)

/-- The record of the nested `trace` calls of a run of `trace(ray, depth)`. -/
def trace_chain (env : Env K) (rs : Nat → Nat) (fuel : Nat) (depth : Nat) (ray : Ray K)
    (st : State K) : List (Nat × Bool) :=
  (trace_run env rs fuel depth ray st).2


/-! ## Loading of mesh directives (scene.cc) -/

/-- The macro `DEG_TO_RAD(x)` of scene.cc: `M_PI * (x) / 180.0`. -/
def DEG_TO_RAD (env : Env K) (x : K) : K := env.pi * x / 180

/-- A mesh directive line
`m <datafile> pos(..) rot(..) scale(..) kd(..) ks(..) s(..) kr(..) ke(..)` as the
format string of `load_mesh` splits it: the file name and, for every group,
the numbers inside the parentheses in the order in which they are written. -/
structure MeshDirective (K : Type) where
  fname : String
  pos : K × K × K
  rot : K × K × K × K
  scale : K × K × K
  kd : K × K × K
  ks : K × K × K
  s : K
  kr : K
  ke : K × K × K

/-- The locals of `load_mesh` that its `sscanf` call fills. -/
structure MeshArgs (K : Type) where
  x : K
  y : K
  z : K
  rx : K
  ry : K
  rz : K
  angle : K
  sx : K
  sy : K
  sz : K
  dr : K
  dg : K
  db : K
  sr : K
  sg : K
  sb : K
  specexp : K
  kr : K
  er : K
  eg : K
  eb : K

/-- The `sscanf` call of `load_mesh` on a line that converts completely: the
numbers are stored, in the order in which they are written, through the
pointers `&x, &y, &z, &angle, &rx, &ry, &rz, &sx, &sy, &sz, &dr, &dg, &db, &sr,
&sg, &sb, &specexp, &kr, &er, &eg, &eb`. -/
def scan_mesh (d : MeshDirective K) : MeshArgs K where
  x := d.pos.1
  y := d.pos.2.1
  z := d.pos.2.2
  angle := d.rot.1
  rx := d.rot.2.1
  ry := d.rot.2.2.1
  rz := d.rot.2.2.2
  sx := d.scale.1
  sy := d.scale.2.1
  sz := d.scale.2.2
  dr := d.kd.1
  dg := d.kd.2.1
  db := d.kd.2.2
  sr := d.ks.1
  sg := d.ks.2.1
  sb := d.ks.2.2
  specexp := d.s
  kr := d.kr
  er := d.ke.1
  eg := d.ke.2.1
  eb := d.ke.2.2

/-- A line of a mesh data file after `strip_space`, as the `switch` and the
`sscanf` calls of `load_mesh_data` read it. -/
inductive MeshLine (K : Type) where
  /-- An empty line or a line starting with `#`. -/
  | skip
  /-- A line starting with `v`: its three numbers, `none` when fewer convert. -/
  | v (xyz : Option (K × K × K))
  /-- A line starting with `n`: its three numbers, `none` when fewer convert. -/
  | n (xyz : Option (K × K × K))
  /-- A line starting with `f`: the index pairs `v/n` that convert, and whether
  one more single index converts after them. -/
  | f (idx : List (Int × Int)) (dangling : Bool)
  /-- A line starting with any other character. -/
  | other

/-- A mesh data file: the primitive of its header line `MESH3` or `MESH4`
(`none` when the header is missing or does not convert; a header with another
number is outside the model) and its other lines. -/
structure MeshFile (K : Type) where
  header : Option MeshPrim
  lines : List (MeshLine K)

/-- What `load_mesh` uses and the sources do not define: the method
`Matrix4x4::set_rotation(axis, angle)` of matrix.h (applied to a matrix), the
files that `fopen` finds, a default constructed `Face` and a default
constructed `BBox`. -/
structure Loader (K : Type) where
  set_rotation : Matrix4x4 K → Vector3 K → K → Matrix4x4 K
  fopen : String → Option (MeshFile K)
  face_default : Face K
  bbox_default : BBox K

/-- The locals `verts`, `normals`, `face` of `load_mesh_data` and the faces
added to the mesh so far. -/
structure MeshData (K : Type) where
  verts : List (Vector3 K)
  normals : List (Vector3 K)
  face : Face K
  faces : List (Face K)

/-- The assignments `face.v[i].pos = p; face.v[i].norm = nn` for `i < 4`. -/
def Face.set_v (f : Face K) (i : Nat) (p nn : Vector3 K) : Face K :=
  match i with
  | 0 => { f with v0 := ⟨p, nn⟩ }
  | 1 => { f with v1 := ⟨p, nn⟩ }
  | 2 => { f with v2 := ⟨p, nn⟩ }
  | _ => { f with v3 := ⟨p, nn⟩ }

/-- The loop `for(int i=0; i<prim; i++)` of an `f` line, from index `i` on, over
the index pairs still to be stored: `face.v[i].pos = verts[vidx[i] - 1]`,
`face.v[i].norm = normals[nidx[i] - 1]`. -/
def load_face_loop (verts normals : List (Vector3 K)) :
    List (Int × Int) → Nat → Face K → Except Err (Face K)
  | [], _, face => .ok face
  | (vi, ni) :: rest, i, face =>
    if vi - 1 < 0 ∨ ni - 1 < 0 then .error .badPointer
    else
      match verts[(vi - 1).toNat]?, normals[(ni - 1).toNat]? with
      | some p, some nn => load_face_loop verts normals rest (i + 1) (face.set_v i p nn)
      | _, _ => .error .badPointer

/-- One round of the `while(fgets(...))` loop of `load_mesh_data`; `none` stands
for `goto err`. -/
def load_mesh_line (env : Env K) (prim : MeshPrim) (pos : Vector3 K) (rot : Matrix4x4 K)
    (scale : Vector3 K) (acc : Except Err (Option (MeshData K))) (line : MeshLine K) :
    Except Err (Option (MeshData K)) :=
  match acc with
  | .error e => .error e
  | .ok none => .ok none
  | .ok (some st) =>
    match line with
    | .skip => .ok (some st)
    | .v none => .ok none
    | .v (some (x, y, z)) =>
      let vec : Vector3 K := ⟨x * scale.x, y * scale.y, z * scale.z⟩
      let vec := env.transform vec rot
      .ok (some { st with verts := st.verts ++ [vec.add pos] })
    | .n none => .ok none
    | .n (some (x, y, z)) =>
      let vec : Vector3 K := ⟨x, y, z⟩
      let vec := env.transform vec rot
      .ok (some { st with normals := st.normals ++ [normalize env vec] })
    | .f idx dangling =>
      if 2 * idx.length + (if dangling then 1 else 0) ≠ prim.toNat * 2 then .ok none
      else
        match load_face_loop st.verts st.normals idx 0 st.face with
        | .error e => .error e
        | .ok face =>
          let face := face.calc_normal env
          .ok (some { st with face := face, faces := st.faces ++ [face] })
    | .other => .ok none

/-- Function `load_mesh_data(mesh, fname, pos, rot, scale)`: `none` stands for
the result `false`, otherwise the primitive and the faces of the mesh. -/
def load_mesh_data (env : Env K) (ld : Loader K) (fname : String) (pos : Vector3 K)
    (rot : Matrix4x4 K) (scale : Vector3 K) : Except Err (Option (Mesh K)) :=
  match ld.fopen fname with
  | none => .ok none
  | some file =>
    match file.header with
    | none => .ok none
    | some prim =>
      match file.lines.foldl (load_mesh_line env prim pos rot scale)
          (.ok (some ⟨[], [], ld.face_default, []⟩)) with
      | .error e => .error e
      | .ok none => .ok none
      | .ok (some st) => .ok (some ⟨prim, st.faces⟩)

/-- The local `rot` of `load_mesh` after
`rot.set_rotation(Vector3(rx, ry, rz), DEG_TO_RAD(angle))`. -/
def load_mesh_rot (env : Env K) (ld : Loader K) (d : MeshDirective K) : Matrix4x4 K :=
  let a := scan_mesh d
  ld.set_rotation env.mat_default ⟨a.rx, a.ry, a.rz⟩ (DEG_TO_RAD env a.angle)

/-- Function `load_mesh(line)`: `line` is `none` when `sscanf` converts fewer
than 22 items; the result `none` stands for the null pointer. -/
def load_mesh (env : Env K) (ld : Loader K) (line : Option (MeshDirective K)) :
    Except Err (Option (Object K)) :=
  match line with
  | none => .ok none
  | some d =>
    let a := scan_mesh d
    let pos : Vector3 K := ⟨a.x, a.y, a.z⟩
    let scale : Vector3 K := ⟨a.sx, a.sy, a.sz⟩
    let rot := load_mesh_rot env ld d
    match load_mesh_data env ld d.fname pos rot scale with
    | .error e => .error e
    | .ok none => .ok none
    | .ok (some mesh) =>
      .ok (some ⟨false, ⟨⟨a.dr, a.dg, a.db⟩, ⟨a.sr, a.sg, a.sb⟩, ⟨a.er, a.eg, a.eb⟩,
        a.specexp, a.kr⟩, ld.bbox_default, .mesh mesh⟩)

/-- The position that `load_mesh_data` stores for the line `v x y z`. -/
def loaded_pos (env : Env K) (pos : Vector3 K) (rot : Matrix4x4 K) (scale : Vector3 K)
    (x y z : K) : Vector3 K :=
  (env.transform ⟨x * scale.x, y * scale.y, z * scale.z⟩ rot).add pos

/-- The normal that `load_mesh_data` stores for the line `n x y z`. -/
def loaded_norm (env : Env K) (rot : Matrix4x4 K) (x y z : K) : Vector3 K :=
  normalize env (env.transform ⟨x, y, z⟩ rot)

/-- The point `p` is the stored position of some `v` line of `lines`. -/
def is_loaded_pos (env : Env K) (lines : List (MeshLine K)) (pos : Vector3 K)
    (rot : Matrix4x4 K) (scale : Vector3 K) (p : Vector3 K) : Prop :=
  ∃ x y z : K, MeshLine.v (some (x, y, z)) ∈ lines ∧ p = loaded_pos env pos rot scale x y z

/-- The vector `nn` is the stored normal of some `n` line of `lines`. -/
def is_loaded_norm (env : Env K) (lines : List (MeshLine K)) (rot : Matrix4x4 K)
    (nn : Vector3 K) : Prop :=
  ∃ x y z : K, MeshLine.n (some (x, y, z)) ∈ lines ∧ nn = loaded_norm env rot x y z


/-! ## The sample grid of a pixel -/

/-- The centre of the `i`-th of `2 ^ d` equal cells of the interval
`[c - w / 2, c + w / 2]`. -/
def grid_centre (c w : K) (d i : Nat) : K := c - w / 2 + (2 * (i : K) + 1) * w / 2 ^ (d + 1)


/-- The point `(u, v)` lies in the closed footprint of size `(wc, hc)` centred
at the leaf `e`. -/
def Leaf.covers (wc hc : K) (e : Leaf K) (u v : K) : Prop :=
  |u - e.x| ≤ wc / 2 ∧ |v - e.y| ≤ hc / 2

/-- The open footprints of size `(wc, hc)` centred at the leaves `e` and `e'`
share a point. -/
def Leaf.overlap (wc hc : K) (e e' : Leaf K) : Prop :=
  ∃ u v : K, |u - e.x| < wc / 2 ∧ |v - e.y| < hc / 2 ∧ |u - e'.x| < wc / 2 ∧ |v - e'.y| < hc / 2

end Defs

/-! ## Concrete instances over the rationals -/

/-- A rational square root: exact on squares of rationals. -/
def sqrtQ (q : ℚ) : ℚ := (Nat.sqrt q.num.toNat : ℚ) / (Nat.sqrt q.den : ℚ)

/-- An environment over `ℚ`: `EPSILON = 1e-6`, `RAY_MAG = 1000`,
`MAX_DEPTH = 5`, `RAND_MAX = 2^31 - 1`, no `USE_BBOX`, the mirror reflection
`2 (n·l) n - l`, the linear part of the matrix product as `transform`, a
pinhole camera at the origin, and rational stand-ins for libm. -/
def envQ : Env ℚ where
  EPSILON := 1 / 1000000
  RAY_MAG := 1000
  MAX_DEPTH := 5
  RAND_MAX := 2147483647
  USE_BBOX := false
  sqrt := sqrtQ
  pow := fun b e => b ^ e.floor.toNat
  acos := fun _ => 0
  cos := fun _ => 1
  sin := fun _ => 0
  pi := 355 / 113
  reflect := fun l n => (Vector3.smul (2 * dot n l) n).sub l
  mat_default := ⟨fun i j => if i = j then 1 else 0⟩
  transform := fun v m =>
    ⟨m.matrix 0 0 * v.x + m.matrix 0 1 * v.y + m.matrix 0 2 * v.z,
     m.matrix 1 0 * v.x + m.matrix 1 1 * v.y + m.matrix 1 2 * v.z,
     m.matrix 2 0 * v.x + m.matrix 2 1 * v.y + m.matrix 2 2 * v.z⟩
  bbox_intersection := fun _ _ => true
  get_primary_ray := fun x y => ⟨⟨0, 0, 0⟩, ⟨x, y, -1⟩⟩

/-- A vertex at `(x, y, z)` with vertex normal `(0, 0, 1)`. -/
def vtx (x y z : ℚ) : Vertex ℚ := ⟨⟨x, y, z⟩, ⟨0, 0, 1⟩⟩

/-- The right triangle `(0,0,0) (1,0,0) (0,1,0)` with the face normal
`(0,0,-1)` that `Face::calc_normal` gives it. -/
def unitTri : Face ℚ := ⟨vtx 0 0 0, vtx 1 0 0, vtx 0 1 0, vtx 0 0 0, ⟨0, 0, -1⟩⟩

/-- A ray that meets the plane of `unitTri` inside the triangle at parameter
`t = EPSILON` exactly. -/
def rayEps : Ray ℚ := ⟨⟨1 / 4, 1 / 4, 1 / 1000000⟩, ⟨0, 0, -1⟩⟩

/-- A ray that meets the plane of `unitTri` inside the triangle at `t = 1/2`. -/
def rayHalf : Ray ℚ := ⟨⟨1 / 4, 1 / 4, 1⟩, ⟨0, 0, -2⟩⟩

/-- A triangle with legs of length `1e-4`, of area `5e-9`, with the face
normal `(0,0,-1)` that `Face::calc_normal` gives it. -/
def tinyTri : Face ℚ :=
  ⟨vtx 0 0 0, vtx (1 / 10000) 0 0, vtx 0 (1 / 10000) 0, vtx 0 0 0, ⟨0, 0, -1⟩⟩

/-- A ray that meets the plane `z = 0` at the point `(5, 5, 0)`, far from
`tinyTri`, at `t = 1/2`. -/
def rayFar : Ray ℚ := ⟨⟨5, 5, 1⟩, ⟨0, 0, -2⟩⟩

/-- A quad that is not planar: `v3` is lifted to height 2.  Its face normal
is that of `v0 v1 v2`, namely `(0,0,-1)`. -/
def bentQuad : Face ℚ := ⟨vtx 0 0 0, vtx 1 0 0, vtx 1 1 0, vtx 0 1 2, ⟨0, 0, -1⟩⟩

/-- A ray through `(1/4, 3/4, z)` along `+z`, from `z = -1` to `z = 2`. -/
def rayUp : Ray ℚ := ⟨⟨1 / 4, 3 / 4, -1⟩, ⟨0, 0, 3⟩⟩

/-- The empty scene. -/
def emptyScene : Scene ℚ := ⟨[], [], [], ⟨0, 0, 0⟩, none⟩

/-- The initial state over the empty scene. -/
def emptyState : State ℚ := ⟨0, emptyScene⟩

/-- A mesh of two triangles: `unitTri` twice. -/
def twoTris : Mesh ℚ := ⟨.MESH_PRIM_TRI, [unitTri, unitTri]⟩

/-- The triangle `(0,0,1) (1,0,1) (0,1,1)` in the plane `z = 1`, with the face
normal `(0,0,-1)` that `Face::calc_normal` gives it. -/
def liftedTri : Face ℚ := ⟨vtx 0 0 1, vtx 1 0 1, vtx 0 1 1, vtx 0 0 0, ⟨0, 0, -1⟩⟩

/-- The unit square `(0,0,0) (1,0,0) (1,1,0) (0,1,0)` as a quad face, with the
face normal `(0,0,-1)` that `Face::calc_normal` gives it. -/
def unitSquare : Face ℚ := ⟨vtx 0 0 0, vtx 1 0 0, vtx 1 1 0, vtx 0 1 0, ⟨0, 0, -1⟩⟩

/-- An emissive triangle mesh: the one face `unitTri`, `kd = ks = 0`,
`ke = (1, 1, 1)`, specular exponent 1. -/
def glowTri : Object ℚ :=
  ⟨false, ⟨⟨0, 0, 0⟩, ⟨0, 0, 0⟩, ⟨1, 1, 1⟩, 1, 0⟩, ⟨⟨0, 0, 0⟩, ⟨0, 0, 0⟩⟩,
    .mesh ⟨.MESH_PRIM_TRI, [unitTri]⟩⟩

/-- The scene whose only object is `glowTri`, which is also its only light
(`Scene::add_object` puts an emissive object on both lists); the index is not
built yet. -/
def glowScene : Scene ℚ := ⟨[glowTri], [0], [0], ⟨0, 0, 0⟩, none⟩

/-- The initial state over `glowScene`. -/
def glowState : State ℚ := ⟨0, glowScene⟩

/-- The scene `glowScene` after its index was built. -/
def glowBuilt : Scene ℚ := glowScene.build_bbtree envQ

/-- The hit of `rayHalf` on the face of `glowTri`, tagged with the object. -/
def glowHit : IntInfo ℚ := { tri_info envQ unitTri rayHalf with object := some 0 }

/-- The directive `m tri.mesh pos(0 0 0) rot(90 0 0 1) scale(1 1 1) kd(0 0 0)
ks(0 0 0) s(1) kr(0) ke(1 1 1)`. -/
def spinDirective : MeshDirective ℚ :=
  ⟨"tri.mesh", (0, 0, 0), (90, 0, 0, 1), (1, 1, 1), (0, 0, 0), (0, 0, 0), 1, 0, (1, 1, 1)⟩

/-- The data file `MESH3`, `v 0 0 0`, `v 1 0 0`, `v 0 1 0`, `n 0 0 1`,
`f 1/1 2/1 3/1`. -/
def triFile : MeshFile ℚ :=
  ⟨some .MESH_PRIM_TRI, [.v (some (0, 0, 0)), .v (some (1, 0, 0)), .v (some (0, 1, 0)),
    .n (some (0, 0, 1)), .f [(1, 1), (2, 1), (3, 1)] false]⟩

/-- A loader over `ℚ`: every file name opens `triFile`, default faces and boxes
are zero, and a stand-in for `Matrix4x4::set_rotation` that leaves the matrix
unchanged. -/
def loaderQ : Loader ℚ :=
  ⟨fun m _ _ => m, fun _ => some triFile,
    ⟨vtx 0 0 0, vtx 0 0 0, vtx 0 0 0, vtx 0 0 0, ⟨0, 0, 0⟩⟩, ⟨⟨0, 0, 0⟩, ⟨0, 0, 0⟩⟩⟩

/-- A triangle in the plane `z = -1/2`, in front of the camera of `envQ`. -/
def deepTri : Face ℚ :=
  ⟨vtx 0 0 (-1 / 2), vtx 1 0 (-1 / 2), vtx 0 1 (-1 / 2), vtx 0 0 0, ⟨0, 0, -1⟩⟩

/-- An emissive triangle mesh brighter than the clamp: the one face `deepTri`,
`kd = ks = 0`, `ke = (2, 2, 2)`. -/
def brightTri : Object ℚ :=
  ⟨false, ⟨⟨0, 0, 0⟩, ⟨0, 0, 0⟩, ⟨2, 2, 2⟩, 1, 0⟩, ⟨⟨0, 0, 0⟩, ⟨0, 0, 0⟩⟩,
    .mesh ⟨.MESH_PRIM_TRI, [deepTri]⟩⟩

/-- The scene whose only object is `brightTri`, which is also its only light;
the index is not built yet. -/
def brightScene : Scene ℚ := ⟨[brightTri], [0], [0], ⟨0, 0, 0⟩, none⟩

/-- The initial state over `brightScene`. -/
def brightState : State ℚ := ⟨0, brightScene⟩

/-- The scene `brightScene` after its index was built. -/
def brightBuilt : Scene ℚ := brightScene.build_bbtree envQ

/-! ## Theorems -/

section Theorems

variable {K : Type} [LinearOrderedField K]

/-! ### Triangle intersection: the shape of the result -/

/-- When no rejection applies, `tri_intersection` returns `tri_info`. -/
theorem tri_intersection_of_hits (env : Env K) (face : Face K) (ray : Ray K)
    (h : tri_hits env face ray) : tri_intersection env face ray = some (tri_info env face ray) := by
  obtain ⟨h1, h2, h3, h4, h5, h6⟩ := h
  unfold bc_sum at h5 h6
  unfold tri_intersection
  simp only []
  rw [if_neg h1, if_neg h2, if_neg (by rw [not_or, not_lt, not_lt]; exact ⟨h3, h4⟩),
    if_neg (by rw [not_or, not_lt, not_lt]; exact ⟨h5, h6⟩)]
  rfl

/-- A hit of `tri_intersection` passed all four rejections and is `tri_info`. -/
theorem tri_hits_of_intersection (env : Env K) (face : Face K) (ray : Ray K) (inf : IntInfo K)
    (h : tri_intersection env face ray = some inf) :
    tri_hits env face ray ∧ inf = tri_info env face ray := by
  unfold tri_intersection at h
  simp only [] at h
  split_ifs at h with h1 h2 h3 h4
  rw [not_or, not_lt, not_lt] at h3 h4
  refine ⟨⟨h1, h2, h3.1, h3.2, h4.1, h4.2⟩, ?_⟩
  exact (Option.some.inj h).symm

/-- When a rejection applies, `tri_intersection` returns `false`. -/
theorem tri_intersection_none_of_not_hits (env : Env K) (face : Face K) (ray : Ray K)
    (h : ¬ tri_hits env face ray) : tri_intersection env face ray = none := by
  cases hq : tri_intersection env face ray with
  | none => rfl
  | some inf => exact absurd (tri_hits_of_intersection env face ray inf hq).1 h

/-- A face whose normal field is zero is never hit. -/
theorem tri_intersection_zero_normal (env : Env K) (face : Face K) (ray : Ray K)
    (h : face.norm = ⟨0, 0, 0⟩) : tri_intersection env face ray = none := by
  apply tri_intersection_none_of_not_hits
  intro hh
  apply hh.1
  rw [h]
  exact ⟨rfl, rfl, rfl⟩

/-- A ray parallel to the face plane never hits. -/
theorem tri_intersection_parallel (env : Env K) (face : Face K) (ray : Ray K)
    (h : dot face.norm ray.dir = 0) : tri_intersection env face ray = none := by
  apply tri_intersection_none_of_not_hits
  intro hh
  exact hh.2.1 h

/-- For collinear or coincident vertices `Face::calc_normal` yields the zero
normal, and the face is never hit. -/
theorem tri_intersection_collinear (env : Env K) (face : Face K) (ray : Ray K)
    (h : cross (face.v2.pos.sub face.v0.pos) (face.v1.pos.sub face.v0.pos) = ⟨0, 0, 0⟩) :
    (face.calc_normal env).norm = ⟨0, 0, 0⟩ ∧
      tri_intersection env (face.calc_normal env) ray = none := by
  have hz : (face.calc_normal env).norm = ⟨0, 0, 0⟩ := by
    unfold Face.calc_normal
    simp only []
    rw [h]
    simp [normalize, Vector3.sdiv]
  exact ⟨hz, tri_intersection_zero_normal env _ ray hz⟩

/-- The ray `rayHalf` hits `unitTri`. -/
theorem unitTri_rayHalf_hits : tri_hits envQ unitTri rayHalf := by
  simp [tri_hits, unitTri, rayHalf, vtx, envQ, plane_t, dot, bc_sum, bary_coords, bary_area,
    cross, Vector3.sub, Vector3.add, Vector3.smul, Ray.at, TINY, Vector3.zero]
  norm_num [abs_div]

/-! ### Barycentric coordinates -/

/-- The threshold `1e-8` is positive. -/
theorem TINY_pos : (0 : K) < TINY := by
  unfold TINY
  positivity

/-- The signed sub-triangle areas of a point of the triangle plane are its
plane coordinates times the signed area of the triangle. -/
theorem sub_areas_of_combo (face : Face K) (a b c : K) (h : a + b + c = 1) :
    dot (cross (face.v1.pos.sub (face.combo a b c)) (face.v2.pos.sub (face.combo a b c)))
        face.norm / 2 =
      a * (dot (cross (face.v1.pos.sub face.v0.pos) (face.v2.pos.sub face.v0.pos))
        face.norm / 2) ∧
    dot (cross (face.v2.pos.sub (face.combo a b c)) (face.v0.pos.sub (face.combo a b c)))
        face.norm / 2 =
      b * (dot (cross (face.v1.pos.sub face.v0.pos) (face.v2.pos.sub face.v0.pos))
        face.norm / 2) ∧
    dot (cross (face.v0.pos.sub (face.combo a b c)) (face.v1.pos.sub (face.combo a b c)))
        face.norm / 2 =
      c * (dot (cross (face.v1.pos.sub face.v0.pos) (face.v2.pos.sub face.v0.pos))
        face.norm / 2) := by
  have ha : a = 1 - b - c := by linarith
  subst ha
  simp only [Face.combo, dot, cross, Vector3.sub, Vector3.add, Vector3.smul]
  refine ⟨?_, ?_, ?_⟩ <;> ring

/-- For a triangle above the area threshold, the area ratios of a point of the
triangle plane are the absolute values of its plane coordinates. -/
theorem bary_coords_of_combo (face : Face K) (harea : TINY ≤ bary_area face) (a b c : K)
    (h : a + b + c = 1) : bary_coords (face.combo a b c) face = ⟨|a|, |b|, |c|⟩ := by
  obtain ⟨h0, h1, h2⟩ := sub_areas_of_combo face a b c h
  have hpos : 0 < bary_area face := lt_of_lt_of_le TINY_pos harea
  have hne : bary_area face ≠ 0 := ne_of_gt hpos
  unfold bary_coords
  simp only []
  rw [if_neg (not_lt.mpr harea), h0, h1, h2, abs_mul, abs_mul, abs_mul]
  have hA : |dot (cross (face.v1.pos.sub face.v0.pos) (face.v2.pos.sub face.v0.pos))
      face.norm / 2| = bary_area face := rfl
  rw [hA, mul_div_assoc, mul_div_assoc, mul_div_assoc, div_self hne, mul_one, mul_one, mul_one]

/-- The sum of the area ratios of a point of the triangle plane. -/
theorem bc_sum_of_combo (face : Face K) (harea : TINY ≤ bary_area face) (a b c : K)
    (h : a + b + c = 1) : bc_sum (face.combo a b c) face = |a| + |b| + |c| := by
  unfold bc_sum
  rw [bary_coords_of_combo face harea a b c h]

/-- Below the area threshold `bary_coords` returns the default vector. -/
theorem bary_coords_small_area (pt : Vector3 K) (face : Face K) (ha : bary_area face < TINY) :
    bary_coords pt face = ⟨0, 0, 0⟩ := by
  unfold bary_coords
  simp only []
  rw [if_pos ha]
  rfl

/-- What `tri_intersection` does with a face below the area threshold whose
normal field is not zero: every ray that is not parallel to the plane of the
normal and whose plane parameter is in range is reported as a hit. -/
theorem tri_intersection_small_area (env : Env K) (face : Face K) (ray : Ray K)
    (hn : ¬ (face.norm.x = 0 ∧ face.norm.y = 0 ∧ face.norm.z = 0))
    (ha : bary_area face < TINY) (hpar : dot face.norm ray.dir ≠ 0)
    (hlo : env.EPSILON ≤ plane_t face ray) (hhi : plane_t face ray ≤ 1) :
    tri_intersection env face ray = some (tri_info env face ray) := by
  have hT : (0 : K) < TINY := by unfold TINY; positivity
  apply tri_intersection_of_hits
  refine ⟨hn, hpar, hlo, hhi, ?_, ?_⟩
  · unfold bc_sum
    rw [bary_coords_small_area _ face ha]
    simp only [add_zero]
    linarith
  · unfold bc_sum
    rw [bary_coords_small_area _ face ha]
    simp only [add_zero]
    linarith

/-- The lower end of the accepted range is attained for every value of
`EPSILON` up to 1: a ray that starts at height `eps` above `unitTri` and
points straight down is reported as a hit with `t = eps`. -/
theorem tri_intersection_hit_at_any_epsilon (eps : ℚ) (h1 : eps ≤ 1) :
    ∃ inf, tri_intersection { envQ with EPSILON := eps } unitTri
        ⟨⟨1 / 4, 1 / 4, eps⟩, ⟨0, 0, -1⟩⟩ = some inf ∧ inf.t = eps := by
  have ht : plane_t unitTri ⟨⟨1 / 4, 1 / 4, eps⟩, ⟨0, 0, -1⟩⟩ = eps := by
    simp [plane_t, unitTri, vtx, dot]
  have hp : (⟨⟨1 / 4, 1 / 4, eps⟩, ⟨0, 0, -1⟩⟩ : Ray ℚ).at eps =
      unitTri.combo (1 / 2) (1 / 4) (1 / 4) := by
    simp [Ray.at, Face.combo, unitTri, vtx, Vector3.add, Vector3.smul]
  have ha : TINY ≤ bary_area unitTri := by
    norm_num [unitTri, vtx, bary_area, dot, cross, Vector3.sub, TINY, abs_div]
  have hs : bc_sum ((⟨⟨1 / 4, 1 / 4, eps⟩, ⟨0, 0, -1⟩⟩ : Ray ℚ).at eps) unitTri = 1 := by
    rw [hp, bc_sum_of_combo unitTri ha _ _ _ (by norm_num)]
    norm_num [abs_div]
  have hT : (0 : ℚ) < TINY := by unfold TINY; positivity
  refine ⟨_, tri_intersection_of_hits _ unitTri _ ⟨?_, ?_, ?_, ?_, ?_, ?_⟩, ht⟩
  · simp [unitTri]
  · simp [unitTri, dot]
  · rw [ht]
  · rw [ht]; exact h1
  · rw [ht, hs]; linarith
  · rw [ht, hs]; linarith

/-- With the face normal of `Face::calc_normal` and an exact square root, the
area that `bary_coords` computes is half the length of the cross product of
the edges, the area of the triangle. -/
theorem bary_area_calc_normal (env : Env K) (face : Face K)
    (h0 : 0 ≤ env.sqrt (dot (cross (face.v2.pos.sub face.v0.pos) (face.v1.pos.sub face.v0.pos))
      (cross (face.v2.pos.sub face.v0.pos) (face.v1.pos.sub face.v0.pos))))
    (hs : env.sqrt (dot (cross (face.v2.pos.sub face.v0.pos) (face.v1.pos.sub face.v0.pos))
        (cross (face.v2.pos.sub face.v0.pos) (face.v1.pos.sub face.v0.pos))) *
      env.sqrt (dot (cross (face.v2.pos.sub face.v0.pos) (face.v1.pos.sub face.v0.pos))
        (cross (face.v2.pos.sub face.v0.pos) (face.v1.pos.sub face.v0.pos))) =
      dot (cross (face.v2.pos.sub face.v0.pos) (face.v1.pos.sub face.v0.pos))
        (cross (face.v2.pos.sub face.v0.pos) (face.v1.pos.sub face.v0.pos))) :
    bary_area (face.calc_normal env) =
      env.sqrt (dot (cross (face.v2.pos.sub face.v0.pos) (face.v1.pos.sub face.v0.pos))
        (cross (face.v2.pos.sub face.v0.pos) (face.v1.pos.sub face.v0.pos))) / 2 := by
  generalize hL : env.sqrt (dot (cross (face.v2.pos.sub face.v0.pos)
    (face.v1.pos.sub face.v0.pos)) (cross (face.v2.pos.sub face.v0.pos)
    (face.v1.pos.sub face.v0.pos))) = L at h0 hs
  have key : dot (cross (face.v1.pos.sub face.v0.pos) (face.v2.pos.sub face.v0.pos))
      ((cross (face.v2.pos.sub face.v0.pos) (face.v1.pos.sub face.v0.pos)).sdiv L) = -L := by
    rcases eq_or_lt_of_le h0 with hz | hpos
    · rw [← hz]
      simp [dot, Vector3.sdiv]
    · have hne : L ≠ 0 := ne_of_gt hpos
      have e : dot (cross (face.v1.pos.sub face.v0.pos) (face.v2.pos.sub face.v0.pos))
          ((cross (face.v2.pos.sub face.v0.pos) (face.v1.pos.sub face.v0.pos)).sdiv L) =
          -(dot (cross (face.v2.pos.sub face.v0.pos) (face.v1.pos.sub face.v0.pos))
            (cross (face.v2.pos.sub face.v0.pos) (face.v1.pos.sub face.v0.pos))) / L := by
        simp only [dot, cross, Vector3.sub, Vector3.sdiv]
        field_simp
        ring
      rw [e, ← hs]
      field_simp
  have hb : bary_area (face.calc_normal env) =
      |dot (cross (face.v1.pos.sub face.v0.pos) (face.v2.pos.sub face.v0.pos))
        ((cross (face.v2.pos.sub face.v0.pos) (face.v1.pos.sub face.v0.pos)).sdiv L) / 2| := by
    simp only [bary_area, Face.calc_normal, normalize, hL]
  rw [hb, key, abs_div, abs_neg, abs_of_nonneg h0, abs_of_pos (by norm_num : (0 : K) < 2)]

/-! ### Quad intersection -/

/-- The two outcomes of `quad_intersection`. -/
theorem quad_intersection_eq (env : Env K) (face : Face K) (ray : Ray K) :
    quad_intersection env face ray =
      match tri_intersection env face.tri012 ray with
      | some inf => some inf
      | none => tri_intersection env face.tri023 ray := rfl

/-! ### The face loop of the mesh -/

/-- The constant `DBL_MAX` exceeds 1. -/
theorem one_lt_DBL_MAX : (1 : K) < DBL_MAX := by
  unfold DBL_MAX
  have h : (2 : K) ^ 1024 = 2 ^ 53 * 2 ^ 971 := by rw [← pow_add]
  have h2 : (1 : K) ≤ 2 ^ 971 := one_le_pow₀ (by norm_num)
  have h3 : (2 : K) ^ 53 = 9007199254740992 := by norm_num
  rw [h, h3]
  linarith

/-- A face hit has `t ≤ 1`, for triangles and quads alike. -/
theorem face_intersection_t_le_one (env : Env K) (prim : MeshPrim) (f : Face K) (ray : Ray K)
    (inf : IntInfo K) (h : face_intersection env prim f ray = some inf) : inf.t ≤ 1 := by
  cases prim with
  | MESH_PRIM_TRI =>
    obtain ⟨⟨_, _, _, h4, _, _⟩, rfl⟩ := tri_hits_of_intersection env f ray inf h
    exact h4
  | MESH_PRIM_QUAD =>
    simp only [face_intersection, quad_intersection] at h
    split at h
    · rename_i inf1 h1
      cases h
      obtain ⟨⟨_, _, _, h4, _, _⟩, rfl⟩ := tri_hits_of_intersection env f ray _ h1
      exact h4
    · obtain ⟨⟨_, _, _, h4, _, _⟩, rfl⟩ := tri_hits_of_intersection env _ ray inf h
      exact h4

/-- The face loop of `Mesh::intersection` establishes its invariant. -/
theorem Mesh.loop_inv_foldl (env : Env K) (prim : MeshPrim) (ray : Ray K) (l : List (Face K)) :
    Mesh.loop_inv env prim ray l
      (l.foldl (Mesh.intersection_step env prim ray) (false, IntInfo.init)) := by
  induction l using List.reverseRecOn with
  | nil => exact Or.inl ⟨rfl, rfl, fun g hg => by cases hg⟩
  | append_singleton l a ih =>
    rw [List.foldl_append, List.foldl_cons, List.foldl_nil]
    generalize l.foldl (Mesh.intersection_step env prim ray) (false, IntInfo.init) = acc at ih
    unfold Mesh.intersection_step
    cases ha : face_intersection env prim a ray with
    | none =>
      simp only []
      rcases ih with ⟨h1, h2, h3⟩ | ⟨h1, pre, f, post, hl, hf, hpre, hpost⟩
      · refine Or.inl ⟨h1, h2, ?_⟩
        intro g hg
        rcases List.mem_append.mp hg with hg | hg
        · exact h3 g hg
        · rw [List.mem_singleton] at hg; subst hg; exact ha
      · refine Or.inr ⟨h1, pre, f, post ++ [a], by rw [hl]; simp, hf, hpre, ?_⟩
        intro g hg inf hinf
        rcases List.mem_append.mp hg with hg | hg
        · exact hpost g hg inf hinf
        · rw [List.mem_singleton] at hg; subst hg; rw [ha] at hinf; cases hinf
    | some ia =>
      simp only []
      have hle := face_intersection_t_le_one env prim a ray ia ha
      rcases ih with ⟨h1, h2, h3⟩ | ⟨h1, pre, f, post, hl, hf, hpre, hpost⟩
      · have hlt : ia.t < acc.2.t := by
          rw [h2]
          exact lt_of_le_of_lt hle one_lt_DBL_MAX
        rw [if_pos hlt]
        refine Or.inr ⟨rfl, l, a, [], rfl, ha, ?_, fun g hg => by cases hg⟩
        intro g hg inf hinf
        rw [h3 g hg] at hinf
        cases hinf
      · split_ifs with hlt
        · refine Or.inr ⟨rfl, l, a, [], rfl, ha, ?_, fun g hg => by cases hg⟩
          intro g hg inf hinf
          rw [hl] at hg
          rcases List.mem_append.mp hg with hg | hg
          · exact lt_trans hlt (hpre g hg inf hinf)
          · rcases List.mem_cons.mp hg with hg | hg
            · subst hg
              rw [hf] at hinf
              cases hinf
              exact hlt
            · exact lt_of_lt_of_le hlt (hpost g hg inf hinf)
        · refine Or.inr ⟨h1, pre, f, post ++ [a], by rw [hl]; simp, hf, hpre, ?_⟩
          intro g hg inf hinf
          rcases List.mem_append.mp hg with hg | hg
          · exact hpost g hg inf hinf
          · rw [List.mem_singleton] at hg
            subst hg
            rw [ha] at hinf
            cases hinf
            exact not_lt.mp hlt

/-! ### Bounding boxes -/

/-- After `extend` the box contains the point it was extended by. -/
theorem BBox.extend_contains_self (b : BBox K) (v : Vector3 K) : (b.extend v).contains v := by
  simp only [BBox.contains, BBox.extend]
  refine ⟨⟨?_, ?_⟩, ⟨?_, ?_⟩, ⟨?_, ?_⟩⟩ <;> split_ifs with h <;>
    first
      | exact le_refl _
      | exact not_lt.mp h

/-- The operation `extend` only grows the box. -/
theorem BBox.extend_mono (b : BBox K) (v p : Vector3 K) (h : b.contains p) :
    (b.extend v).contains p := by
  obtain ⟨⟨hx1, hx2⟩, ⟨hy1, hy2⟩, ⟨hz1, hz2⟩⟩ := h
  simp only [BBox.contains, BBox.extend]
  refine ⟨⟨?_, ?_⟩, ⟨?_, ?_⟩, ⟨?_, ?_⟩⟩ <;> split_ifs with h <;>
    first
      | assumption
      | exact le_trans (le_of_lt h) (by assumption)
      | exact le_trans (by assumption) (le_of_lt h)

/-- Folding `extend` over a list of vertex indices keeps what the box contains. -/
theorem BBox.foldl_extend_mono (g : Nat → Vector3 K) (p : Vector3 K) (l : List Nat) :
    ∀ b : BBox K, b.contains p → (l.foldl (fun acc j => acc.extend (g j)) b).contains p := by
  induction l with
  | nil => intro b h; exact h
  | cons a l ih => intro b h; exact ih _ (BBox.extend_mono b (g a) p h)

/-- Folding `extend` over a list of vertex indices covers each of them. -/
theorem BBox.foldl_extend_mem (g : Nat → Vector3 K) (l : List Nat) :
    ∀ (b : BBox K) (j : Nat), j ∈ l → (l.foldl (fun acc j => acc.extend (g j)) b).contains (g j) := by
  induction l with
  | nil => intro b j hj; cases hj
  | cons a l ih =>
    intro b j hj
    rcases List.mem_cons.mp hj with h | h
    · subst h
      exact BBox.foldl_extend_mono g (g j) l _ (BBox.extend_contains_self b (g j))
    · exact ih _ j h

/-- The face loop of `calc_bbox` keeps what the box contains. -/
theorem Mesh.calc_bbox_face_mono (prim : MeshPrim) (p : Vector3 K) (l : List (Face K)) :
    ∀ b : BBox K, b.contains p → (l.foldl (Mesh.calc_bbox_face prim) b).contains p := by
  induction l with
  | nil => intro b h; exact h
  | cons a l ih =>
    intro b h
    exact ih _ (BBox.foldl_extend_mono (fun j => (a.v j).pos) p _ b h)

/-- The face loop of `calc_bbox` covers the first `prim` vertices of every face. -/
theorem Mesh.calc_bbox_face_mem (prim : MeshPrim) (l : List (Face K)) :
    ∀ (b : BBox K) (f : Face K) (j : Nat), f ∈ l → j < prim.toNat →
      (l.foldl (Mesh.calc_bbox_face prim) b).contains (f.v j).pos := by
  induction l with
  | nil => intro b f j hf; cases hf
  | cons a l ih =>
    intro b f j hf hj
    rcases List.mem_cons.mp hf with h | h
    · subst h
      exact Mesh.calc_bbox_face_mono prim _ l _
        (BBox.foldl_extend_mem (fun j => (f.v j).pos) _ b j (List.mem_range.mpr hj))
    · exact ih _ f j h hj

/-! ### The pixel sampler -/

/-- Two vectors with equal components are equal. -/
theorem Vector3.eq_of_components {α : Type} {a b : Vector3 α} (hx : a.x = b.x) (hy : a.y = b.y)
    (hz : a.z = b.z) : a = b := by
  cases a; cases b; simp_all

/-- The sum of vectors distributes over concatenation, component `x`. -/
theorem Vector3.sum_append_x (l m : List (Vector3 K)) :
    (Vector3.sum (l ++ m)).x = (Vector3.sum l).x + (Vector3.sum m).x := by
  induction l with
  | nil => simp [Vector3.sum, Vector3.zero]
  | cons a l ih =>
    simp only [Vector3.sum, List.cons_append, List.foldr_cons, Vector3.add] at ih ⊢
    rw [ih, add_assoc]

/-- The sum of vectors distributes over concatenation, component `y`. -/
theorem Vector3.sum_append_y (l m : List (Vector3 K)) :
    (Vector3.sum (l ++ m)).y = (Vector3.sum l).y + (Vector3.sum m).y := by
  induction l with
  | nil => simp [Vector3.sum, Vector3.zero]
  | cons a l ih =>
    simp only [Vector3.sum, List.cons_append, List.foldr_cons, Vector3.add] at ih ⊢
    rw [ih, add_assoc]

/-- The sum of vectors distributes over concatenation, component `z`. -/
theorem Vector3.sum_append_z (l m : List (Vector3 K)) :
    (Vector3.sum (l ++ m)).z = (Vector3.sum l).z + (Vector3.sum m).z := by
  induction l with
  | nil => simp [Vector3.sum, Vector3.zero]
  | cons a l ih =>
    simp only [Vector3.sum, List.cons_append, List.foldr_cons, Vector3.add] at ih ⊢
    rw [ih, add_assoc]

/-- Every channel of a clamped colour is at most 1. -/
theorem clamp1_le_one (c : Color K) : (clamp1 c).x ≤ 1 ∧ (clamp1 c).y ≤ 1 ∧ (clamp1 c).z ≤ 1 := by
  simp only [clamp1]
  refine ⟨?_, ?_, ?_⟩ <;> split_ifs with h <;>
    first
      | exact le_refl _
      | exact not_lt.mp h

/-- The clamping of `avg_color` is `min(c, 1)` on every channel. -/
theorem clamp1_eq_min (c : Color K) : clamp1 c = ⟨min c.x 1, min c.y 1, min c.z 1⟩ := by
  simp only [clamp1, gt_iff_lt]
  apply Vector3.eq_of_components
  · show (if 1 < c.x then 1 else c.x) = min c.x 1
    split_ifs with h1
    · exact (min_eq_right (le_of_lt h1)).symm
    · exact (min_eq_left (not_lt.mp h1)).symm
  · show (if 1 < c.y then 1 else c.y) = min c.y 1
    split_ifs with h1
    · exact (min_eq_right (le_of_lt h1)).symm
    · exact (min_eq_left (not_lt.mp h1)).symm
  · show (if 1 < c.z then 1 else c.z) = min c.z 1
    split_ifs with h1
    · exact (min_eq_right (le_of_lt h1)).symm
    · exact (min_eq_left (not_lt.mp h1)).symm

/-- What a leaf of `avg_color` returns: one leaf evaluation, whose colour is
the result of `trace(ray, MAX_DEPTH)` for the primary ray of its coordinates,
and the clamped colour. -/
theorem avg_color_leaf_spec [FloorRing K] (env : Env K) (rs : Nat → Nat) (fuel : Nat)
    (rp : Int) (w h x y : K) (st : State K) (c : Color K) (st' : State K) (ls : List (Leaf K))
    (hr : avg_color_leaf env rs fuel rp w h x y st = .ok (c, st', ls)) :
    ∃ e : Leaf K, ls = [e] ∧ c = clamp1 e.traced ∧
      ∃ sa, trace env rs fuel env.MAX_DEPTH (env.get_primary_ray e.x e.y) sa =
        .ok (e.traced, st') := by
  unfold avg_color_leaf at hr
  simp only [] at hr
  split at hr
  · cases hr
  · rename_i c0 st0 heq
    simp only [Except.ok.injEq, Prod.mk.injEq] at hr
    obtain ⟨h1, h2, h3⟩ := hr
    subst h1 h2 h3
    exact ⟨_, rfl, rfl, _, heq⟩

/-- The structure of a run of `avg_color` with subdivision depth `d`: it
performs `4 ^ d` leaf evaluations, each the result of `trace(ray, MAX_DEPTH)`
on a primary ray, and returns the sum of their clamped colours divided by
`4 ^ d`. -/
theorem avg_color_spec [FloorRing K] (env : Env K) (rs : Nat → Nat) (fuel : Nat) (rp : Int) :
    ∀ (d : Nat) (w h x y : K) (st : State K) (c : Color K) (st' : State K)
      (ls : List (Leaf K)),
      avg_color env rs fuel rp d w h x y st = .ok (c, st', ls) →
      ls.length = 4 ^ d ∧
        c = (Vector3.sum (ls.map (fun e => clamp1 e.traced))).sdiv ((4 : K) ^ d) ∧
        ∀ e ∈ ls, ∃ sa sb, trace env rs fuel env.MAX_DEPTH (env.get_primary_ray e.x e.y) sa =
          .ok (e.traced, sb) := by
  intro d
  induction d with
  | zero =>
    intro w h x y st c st' ls hr
    rw [avg_color] at hr
    obtain ⟨e, rfl, rfl, sa, hsa⟩ := avg_color_leaf_spec env rs fuel rp w h x y st c st' ls hr
    refine ⟨rfl, ?_, ?_⟩
    · apply Vector3.eq_of_components <;>
        simp [Vector3.sum, Vector3.sdiv, Vector3.add, Vector3.zero]
    · intro e' he'
      rw [List.mem_singleton] at he'
      subst he'
      exact ⟨sa, st', hsa⟩
  | succ d ih =>
    intro w h x y st c st' ls hr
    rw [avg_color] at hr
    simp only [] at hr
    split at hr
    · cases hr
    · rename_i c1 st1 l1 h1
      split at hr
      · cases hr
      · rename_i c2 st2 l2 h2
        split at hr
        · cases hr
        · rename_i c3 st3 l3 h3
          split at hr
          · cases hr
          · rename_i c4 st4 l4 h4
            simp only [Except.ok.injEq, Prod.mk.injEq] at hr
            obtain ⟨hc, -, hl⟩ := hr
            obtain ⟨n1, e1, t1⟩ := ih _ _ _ _ _ _ _ _ h1
            obtain ⟨n2, e2, t2⟩ := ih _ _ _ _ _ _ _ _ h2
            obtain ⟨n3, e3, t3⟩ := ih _ _ _ _ _ _ _ _ h3
            obtain ⟨n4, e4, t4⟩ := ih _ _ _ _ _ _ _ _ h4
            subst hl
            refine ⟨?_, ?_, ?_⟩
            · simp only [List.length_append, n1, n2, n3, n4]
              ring
            · have hp : ((4 : K) ^ d) ≠ 0 := pow_ne_zero _ (by norm_num)
              rw [← hc, e1, e2, e3, e4]
              apply Vector3.eq_of_components
              · simp only [Vector3.sdiv, Vector3.add, Vector3.zero, List.map_append,
                  Vector3.sum_append_x]
                rw [pow_succ]
                field_simp
              · simp only [Vector3.sdiv, Vector3.add, Vector3.zero, List.map_append,
                  Vector3.sum_append_y]
                rw [pow_succ]
                field_simp
              · simp only [Vector3.sdiv, Vector3.add, Vector3.zero, List.map_append,
                  Vector3.sum_append_z]
                rw [pow_succ]
                field_simp
            · intro e he
              simp only [List.mem_append] at he
              rcases he with ((he | he) | he) | he
              · exact t1 e he
              · exact t2 e he
              · exact t3 e he
              · exact t4 e he

/-- Every channel of the colour `avg_color` returns is at most 1. -/
theorem avg_color_le_one [FloorRing K] (env : Env K) (rs : Nat → Nat) (fuel : Nat) (rp : Int) :
    ∀ (d : Nat) (w h x y : K) (st : State K) (c : Color K) (st' : State K)
      (ls : List (Leaf K)),
      avg_color env rs fuel rp d w h x y st = .ok (c, st', ls) →
      c.x ≤ 1 ∧ c.y ≤ 1 ∧ c.z ≤ 1 := by
  intro d
  induction d with
  | zero =>
    intro w h x y st c st' ls hr
    rw [avg_color] at hr
    obtain ⟨e, -, rfl, -⟩ := avg_color_leaf_spec env rs fuel rp w h x y st c st' ls hr
    exact clamp1_le_one _
  | succ d ih =>
    intro w h x y st c st' ls hr
    rw [avg_color] at hr
    simp only [] at hr
    split at hr
    · cases hr
    · rename_i c1 st1 l1 h1
      split at hr
      · cases hr
      · rename_i c2 st2 l2 h2
        split at hr
        · cases hr
        · rename_i c3 st3 l3 h3
          split at hr
          · cases hr
          · rename_i c4 st4 l4 h4
            simp only [Except.ok.injEq, Prod.mk.injEq] at hr
            obtain ⟨hc, -, -⟩ := hr
            obtain ⟨x1, y1, z1⟩ := ih _ _ _ _ _ _ _ _ h1
            obtain ⟨x2, y2, z2⟩ := ih _ _ _ _ _ _ _ _ h2
            obtain ⟨x3, y3, z3⟩ := ih _ _ _ _ _ _ _ _ h3
            obtain ⟨x4, y4, z4⟩ := ih _ _ _ _ _ _ _ _ h4
            rw [← hc]
            simp only [Vector3.sdiv, Vector3.add, Vector3.zero]
            refine ⟨?_, ?_, ?_⟩ <;> rw [div_le_one (by norm_num)] <;> linarith

/-- The subdivision itself never fails: when every call of
`trace(ray, MAX_DEPTH)` returns, so does `avg_color`. -/
theorem avg_color_returns [FloorRing K] (env : Env K) (rs : Nat → Nat) (fuel : Nat) (rp : Int)
    (htr : ∀ (ray : Ray K) (s : State K), ∃ r, trace env rs fuel env.MAX_DEPTH ray s = .ok r) :
    ∀ (d : Nat) (w h x y : K) (st : State K),
      ∃ r, avg_color env rs fuel rp d w h x y st = .ok r := by
  intro d
  induction d with
  | zero =>
    intro w h x y st
    rw [avg_color]
    unfold avg_color_leaf
    simp only []
    obtain ⟨⟨c, s⟩, hr⟩ := htr
      (env.get_primary_ray
        (if rp > 1 then x + (frand env rs st.calls * w - w / 2) else x)
        (if rp > 1 then y + (frand env rs (st.calls + 1) * h - h / 2) else y))
      (if rp > 1 then { st with calls := st.calls + 2 } else st)
    rw [hr]
    exact ⟨_, rfl⟩
  | succ d ih =>
    intro w h x y st
    rw [avg_color]
    simp only []
    obtain ⟨⟨c1, s1, l1⟩, h1⟩ := ih (w / 2) (h / 2) (x + w / 4) (y + h / 4) st
    rw [h1]
    simp only []
    obtain ⟨⟨c2, s2, l2⟩, h2⟩ := ih (w / 2) (h / 2) (x + w / 4) (y - h / 4) s1
    rw [h2]
    simp only []
    obtain ⟨⟨c3, s3, l3⟩, h3⟩ := ih (w / 2) (h / 2) (x - w / 4) (y + h / 4) s2
    rw [h3]
    simp only []
    obtain ⟨⟨c4, s4, l4⟩, h4⟩ := ih (w / 2) (h / 2) (x - w / 4) (y - h / 4) s3
    rw [h4]
    exact ⟨_, rfl⟩

/-! ### The subdivision depth -/

/-- The loop of `calc_subdiv` stops at the first `sub` with `4 ^ sub > rays`. -/
theorem calc_subdiv_loop_spec (r : Int) : ∀ (n s : Nat), r.toNat + 1 - s = n →
    (∀ j < s, (4 : Int) ^ j ≤ r) →
    (∀ j < calc_subdiv_loop r s, (4 : Int) ^ j ≤ r) ∧ ¬ ((4 : Int) ^ (calc_subdiv_loop r s) ≤ r) ∧
      s ≤ calc_subdiv_loop r s := by
  intro n
  induction n using Nat.strong_induction_on with
  | _ n ih =>
    intro s hn hs
    rw [calc_subdiv_loop]
    split_ifs with h
    · have h1 : (s : Int) < 4 ^ s := by
        exact_mod_cast Nat.lt_pow_self (by norm_num : 1 < 4) s
      have := ih (r.toNat + 1 - (s + 1)) (by omega) (s + 1) rfl (by
        intro j hj
        rcases Nat.lt_succ_iff_lt_or_eq.mp hj with h2 | h2
        · exact hs j h2
        · subst h2; exact h)
      exact ⟨this.1, this.2.1, by omega⟩
    · exact ⟨hs, h, le_refl _⟩

/-! ### C1: exhausted recursion budget -/

/-- C1: for every ray and every scene (every state), `trace(ray, 0)` returns
the black colour `(0, 0, 0)`; it neither queries nor changes the scene and
draws no random number. -/
theorem trace_zero_black [FloorRing K] (env : Env K) (rs : Nat → Nat) (fuel : Nat) (ray : Ray K)
    (st : State K) : trace env rs fuel 0 ray st = .ok (⟨0, 0, 0⟩, st) := rfl

/-! ### C2: the nearest face of a mesh -/

/-- C2: for a mesh whose ignore flag is unset and a ray that the bounding-box
gate lets through (`USE_BBOX` undefined, or the box test passed),
`Mesh::intersection` reports a hit if and only if the face test hits at least
one face; the reported `t`, point and normal are those of the hit of a face `f`
whose `t` is strictly below that of every hit earlier in face order and at most
that of every hit later in face order (the minimum, ties going to the earliest
face), and the reported object is the mesh itself. -/
theorem mesh_intersection_nearest (env : Env K) (self : Nat) (bbox : BBox K) (m : Mesh K)
    (ray : Ray K) (hgate : env.USE_BBOX = false ∨ env.bbox_intersection bbox ray = true) :
    ((Mesh.intersection env self false bbox m ray).isSome ↔
        ∃ f ∈ m.faces, (face_intersection env m.prim f ray).isSome) ∧
      ∀ r, Mesh.intersection env self false bbox m ray = some r →
        r.object = some self ∧
        ∃ pre f post inf, m.faces = pre ++ f :: post ∧
          face_intersection env m.prim f ray = some inf ∧
          r.t = inf.t ∧ r.i_point = inf.i_point ∧ r.normal = inf.normal ∧
          (∀ g ∈ pre, ∀ inf', face_intersection env m.prim g ray = some inf' → inf.t < inf'.t) ∧
          (∀ g ∈ post, ∀ inf', face_intersection env m.prim g ray = some inf' →
            inf.t ≤ inf'.t) := by
  have hg : (env.USE_BBOX && !env.bbox_intersection bbox ray) = false := by
    rcases hgate with h | h <;> simp [h]
  have hinv := Mesh.loop_inv_foldl env m.prim ray m.faces
  have hdef : Mesh.intersection env self false bbox m ray =
      if !(m.faces.foldl (Mesh.intersection_step env m.prim ray) (false, IntInfo.init)).1 then none
      else some { (m.faces.foldl (Mesh.intersection_step env m.prim ray)
        (false, IntInfo.init)).2 with object := some self } := by
    simp [Mesh.intersection, hg]
  rw [hdef]
  generalize m.faces.foldl (Mesh.intersection_step env m.prim ray) (false, IntInfo.init) = acc
    at hinv
  rcases hinv with ⟨h1, -, h3⟩ | ⟨h1, pre, f, post, hl, hf, hpre, hpost⟩
  · have hn : (if !acc.1 then none else some { acc.2 with object := some self }) =
        (none : Option (IntInfo K)) := by rw [h1]; rfl
    rw [hn]
    refine ⟨⟨fun h => (by cases h), ?_⟩, fun r hr => (by cases hr)⟩
    rintro ⟨f, hf, hs⟩
    rw [h3 f hf] at hs
    cases hs
  · have hn : (if !acc.1 then none else some { acc.2 with object := some self }) =
        some { acc.2 with object := some self } := by rw [h1]; rfl
    rw [hn]
    refine ⟨⟨fun _ => ⟨f, by rw [hl]; simp, by rw [hf]; rfl⟩, fun _ => rfl⟩, ?_⟩
    intro r hr
    cases hr
    exact ⟨rfl, pre, f, post, acc.2, hl, hf, rfl, rfl, rfl, hpre, hpost⟩

/-- Witness for C2: the mesh `twoTris` without bounding-box gate. -/
theorem mesh_intersection_nearest_witness :
    (envQ.USE_BBOX = false ∨ envQ.bbox_intersection ⟨⟨0, 0, 0⟩, ⟨0, 0, 0⟩⟩ rayHalf = true) ∧
      ((Mesh.intersection envQ 7 false ⟨⟨0, 0, 0⟩, ⟨0, 0, 0⟩⟩ twoTris rayHalf).isSome ↔
        ∃ f ∈ twoTris.faces, (face_intersection envQ twoTris.prim f rayHalf).isSome) ∧
      ∀ r, Mesh.intersection envQ 7 false ⟨⟨0, 0, 0⟩, ⟨0, 0, 0⟩⟩ twoTris rayHalf = some r →
        r.object = some 7 ∧
        ∃ pre f post inf, twoTris.faces = pre ++ f :: post ∧
          face_intersection envQ twoTris.prim f rayHalf = some inf ∧
          r.t = inf.t ∧ r.i_point = inf.i_point ∧ r.normal = inf.normal ∧
          (∀ g ∈ pre, ∀ inf', face_intersection envQ twoTris.prim g rayHalf = some inf' →
            inf.t < inf'.t) ∧
          (∀ g ∈ post, ∀ inf', face_intersection envQ twoTris.prim g rayHalf = some inf' →
            inf.t ≤ inf'.t) :=
  ⟨Or.inl rfl,
    mesh_intersection_nearest envQ 7 ⟨⟨0, 0, 0⟩, ⟨0, 0, 0⟩⟩ twoTris rayHalf (Or.inl rfl)⟩

/-! ### C3: the plane parameter of a reported hit -/

/-- C3 (as amended): `tri_intersection` reports a hit only if `n·D` is not zero
and the plane parameter `t = (n·V0 − n·O)/(n·D)` lies in the closed range
`[EPSILON, 1]`; the returned `t` is that value and the returned hit point is
`origin + t·dir`. -/
theorem tri_intersection_range (env : Env K) (face : Face K) (ray : Ray K) (inf : IntInfo K)
    (h : tri_intersection env face ray = some inf) :
    dot face.norm ray.dir ≠ 0 ∧
      inf.t = (dot face.norm face.v0.pos - dot face.norm ray.origin) / dot face.norm ray.dir ∧
      env.EPSILON ≤ inf.t ∧ inf.t ≤ 1 ∧
      inf.i_point = ray.origin.add (Vector3.smul inf.t ray.dir) := by
  obtain ⟨⟨_, h2, h3, h4, _, _⟩, rfl⟩ := tri_hits_of_intersection env face ray inf h
  exact ⟨h2, rfl, h3, h4, rfl⟩

/-- Witness for C3: the hit of `rayHalf` on `unitTri`. -/
theorem tri_intersection_range_witness :
    tri_intersection envQ unitTri rayHalf = some (tri_info envQ unitTri rayHalf) ∧
      (dot unitTri.norm rayHalf.dir ≠ 0 ∧
        (tri_info envQ unitTri rayHalf).t =
          (dot unitTri.norm unitTri.v0.pos - dot unitTri.norm rayHalf.origin) /
            dot unitTri.norm rayHalf.dir ∧
        envQ.EPSILON ≤ (tri_info envQ unitTri rayHalf).t ∧ (tri_info envQ unitTri rayHalf).t ≤ 1 ∧
        (tri_info envQ unitTri rayHalf).i_point =
          rayHalf.origin.add (Vector3.smul (tri_info envQ unitTri rayHalf).t rayHalf.dir)) :=
  ⟨tri_intersection_of_hits envQ unitTri rayHalf unitTri_rayHalf_hits,
    tri_intersection_range envQ unitTri rayHalf _
      (tri_intersection_of_hits envQ unitTri rayHalf unitTri_rayHalf_hits)⟩

/-- Counterexample to C3 as stated: the ray `rayEps` meets the plane of
`unitTri` at `t = EPSILON` exactly and a hit is reported, although `t` is not
in the half-open range `(EPSILON, 1]`.  The same happens for every value of
`EPSILON` up to 1, with the ray started at height `EPSILON`. -/
theorem tri_intersection_hit_at_epsilon :
    (∃ inf, tri_intersection envQ unitTri rayEps = some inf ∧ inf.t = envQ.EPSILON ∧
        ¬ (envQ.EPSILON < inf.t ∧ inf.t ≤ 1)) ∧
      ∀ eps : ℚ, eps ≤ 1 →
        ∃ inf, tri_intersection { envQ with EPSILON := eps } unitTri
            ⟨⟨1 / 4, 1 / 4, eps⟩, ⟨0, 0, -1⟩⟩ = some inf ∧
          ¬ (eps < inf.t ∧ inf.t ≤ 1) := by
  constructor
  · obtain ⟨inf, h, ht⟩ := tri_intersection_hit_at_any_epsilon (1 / 1000000) (by norm_num)
    refine ⟨inf, h, ht, ?_⟩
    rw [ht]
    exact fun hc => lt_irrefl _ hc.1
  · intro eps h1
    obtain ⟨inf, h, ht⟩ := tri_intersection_hit_at_any_epsilon eps h1
    refine ⟨inf, h, ?_⟩
    rw [ht]
    exact fun hc => lt_irrefl _ hc.1

/-! ### C4: inside and outside the triangle -/

/-- C4: for a triangle face whose area (as `bary_coords` computes it with the
face normal) is at least `1e-8`, and a ray that is not parallel to the face
plane and whose plane parameter `t` is in the valid range: if the plane hit
point lies in the closed triangle `v0 v1 v2`, `tri_intersection` reports a hit
and the three area ratios sum to a value in `[-1e-8, 1 + 1e-8]` (they sum to
1); if the ratio sum exceeds `1 + 1e-8`, no hit is reported; and for every
point of the triangle plane outside the closed triangle the ratio sum is
strictly greater than 1. -/
theorem tri_intersection_bary (env : Env K) (face : Face K) (ray : Ray K)
    (harea : TINY ≤ bary_area face) (hpar : dot face.norm ray.dir ≠ 0)
    (hlo : env.EPSILON ≤ plane_t face ray) (hhi : plane_t face ray ≤ 1) :
    (face.inside (ray.at (plane_t face ray)) →
        tri_intersection env face ray = some (tri_info env face ray) ∧
          bc_sum (ray.at (plane_t face ray)) face = 1 ∧
          -TINY ≤ bc_sum (ray.at (plane_t face ray)) face ∧
          bc_sum (ray.at (plane_t face ray)) face ≤ 1 + TINY) ∧
      (1 + TINY < bc_sum (ray.at (plane_t face ray)) face →
        tri_intersection env face ray = none) ∧
      (∀ p, face.coplanar p → ¬ face.inside p → 1 < bc_sum p face) := by
  have hT : (0 : K) < TINY := TINY_pos
  have hn : ¬ (face.norm.x = 0 ∧ face.norm.y = 0 ∧ face.norm.z = 0) := by
    rintro ⟨hx, hy, hz⟩
    have h0 : bary_area face = 0 := by
      simp [bary_area, dot, hx, hy, hz]
    rw [h0] at harea
    exact absurd harea (not_le.mpr hT)
  refine ⟨?_, ?_, ?_⟩
  · rintro ⟨a, b, c, ha, hb, hc, hs, hp⟩
    have hsum : bc_sum (ray.at (plane_t face ray)) face = 1 := by
      rw [hp, bc_sum_of_combo face harea a b c hs, abs_of_nonneg ha, abs_of_nonneg hb,
        abs_of_nonneg hc, hs]
    have h1 : -TINY ≤ bc_sum (ray.at (plane_t face ray)) face := by rw [hsum]; linarith
    have h2 : bc_sum (ray.at (plane_t face ray)) face ≤ 1 + TINY := by rw [hsum]; linarith
    exact ⟨tri_intersection_of_hits env face ray ⟨hn, hpar, hlo, hhi, h1, h2⟩, hsum, h1, h2⟩
  · intro hgt
    apply tri_intersection_none_of_not_hits
    intro hh
    exact absurd hh.2.2.2.2.2 (not_le.mpr hgt)
  · rintro p ⟨a, b, c, hs, hp⟩ hout
    rw [hp, bc_sum_of_combo face harea a b c hs]
    have hneg : a < 0 ∨ b < 0 ∨ c < 0 := by
      by_contra hcon
      rw [not_or, not_or, not_lt, not_lt, not_lt] at hcon
      exact hout ⟨a, b, c, hcon.1, hcon.2.1, hcon.2.2, hs, hp⟩
    have ea := le_abs_self a
    have eb := le_abs_self b
    have ec := le_abs_self c
    rcases hneg with h | h | h
    · have := abs_of_neg h; linarith
    · have := abs_of_neg h; linarith
    · have := abs_of_neg h; linarith

/-- Witness for C4: the triangle `unitTri` and the ray `rayHalf`. -/
theorem tri_intersection_bary_witness :
    (TINY ≤ bary_area unitTri ∧ dot unitTri.norm rayHalf.dir ≠ 0 ∧
        envQ.EPSILON ≤ plane_t unitTri rayHalf ∧ plane_t unitTri rayHalf ≤ 1) ∧
      unitTri.inside (rayHalf.at (plane_t unitTri rayHalf)) ∧
      tri_intersection envQ unitTri rayHalf = some (tri_info envQ unitTri rayHalf) ∧
      (∀ p, unitTri.coplanar p → ¬ unitTri.inside p → 1 < bc_sum p unitTri) := by
  have h1 : TINY ≤ bary_area unitTri := by
    norm_num [unitTri, vtx, bary_area, dot, cross, Vector3.sub, TINY, abs_div]
  have h2 : dot unitTri.norm rayHalf.dir ≠ 0 := by
    norm_num [unitTri, rayHalf, vtx, dot]
  have h3 : envQ.EPSILON ≤ plane_t unitTri rayHalf := by
    norm_num [unitTri, rayHalf, vtx, envQ, plane_t, dot]
  have h4 : plane_t unitTri rayHalf ≤ 1 := by
    norm_num [unitTri, rayHalf, vtx, plane_t, dot]
  have h5 : unitTri.inside (rayHalf.at (plane_t unitTri rayHalf)) := by
    refine ⟨1 / 2, 1 / 4, 1 / 4, by norm_num, by norm_num, by norm_num, by norm_num, ?_⟩
    norm_num [unitTri, rayHalf, vtx, plane_t, dot, Ray.at, Face.combo, Vector3.add,
      Vector3.smul]
  exact ⟨⟨h1, h2, h3, h4⟩, h5,
    ((tri_intersection_bary envQ unitTri rayHalf h1 h2 h3 h4).1 h5).1,
    (tri_intersection_bary envQ unitTri rayHalf h1 h2 h3 h4).2.2⟩

/-! ### C5: degenerate geometry -/

/-- C5, the code at the failing input: `tinyTri` carries the normal that
`Face::calc_normal` computes, its area `5e-9` is below the `1e-8` threshold of
`bary_coords`, the ray `rayFar` meets its plane at `(5, 5, 0)`, outside the
triangle, and `tri_intersection` nevertheless reports a hit there. -/
theorem tri_intersection_tiny_area_hit :
    (tinyTri.calc_normal envQ).norm = tinyTri.norm ∧ bary_area tinyTri < TINY ∧
      rayFar.at (plane_t tinyTri rayFar) = ⟨5, 5, 0⟩ ∧
      ¬ tinyTri.inside (rayFar.at (plane_t tinyTri rayFar)) ∧
      bary_coords (rayFar.at (plane_t tinyTri rayFar)) tinyTri = ⟨0, 0, 0⟩ ∧
      tri_intersection envQ tinyTri rayFar = some (tri_info envQ tinyTri rayFar) := by
  have hp : rayFar.at (plane_t tinyTri rayFar) = ⟨5, 5, 0⟩ := by
    norm_num [tinyTri, rayFar, vtx, plane_t, dot, Ray.at, Vector3.add, Vector3.smul]
  refine ⟨?_, ?_, hp, ?_, ?_, ?_⟩
  · have h1 : Nat.sqrt 100000000 = 10000 := Nat.sqrt_eq 10000
    simp [Face.calc_normal, tinyTri, normalize, envQ, sqrtQ, vtx, cross, dot, Vector3.sub,
      Vector3.sdiv]
    norm_num [h1]
  · norm_num [tinyTri, vtx, bary_area, dot, cross, Vector3.sub, TINY, abs_div]
  · rw [hp]
    rintro ⟨a, b, c, ha, hb, hc, hs, he⟩
    simp only [Face.combo, tinyTri, vtx, Vector3.add, Vector3.smul, Vector3.mk.injEq] at he
    linarith [he.1, he.2.1]
  · norm_num [tinyTri, vtx, bary_coords, bary_area, dot, cross, Vector3.sub, TINY, abs_div,
      Vector3.zero]
  · apply tri_intersection_of_hits
    simp [tri_hits, tinyTri, rayFar, vtx, envQ, plane_t, dot, bc_sum, bary_coords, bary_area,
      cross, Vector3.sub, Vector3.add, Vector3.smul, Ray.at, TINY, Vector3.zero]
    norm_num [abs_div]

/-! ### C6: quads as two triangles -/

/-- C6 (as amended): a hit reported by `quad_intersection` is the
`tri_intersection` result of one of the two face copies `{v0,v1,v2}` and
`{v0,v2,v3}`, both tested with the face normal of the quad (the normal of
`v0 v1 v2`): of the first if that is hit, otherwise of the second; no hit is
reported exactly when neither copy is hit.  When the face normal is the one
`Face::calc_normal` gives to each of the two triangles (a planar quad), the
result is that of one of the two triangles taken in its own right. -/
theorem quad_intersection_cases (env : Env K) (face : Face K) (ray : Ray K) :
    (∀ r, quad_intersection env face ray = some r →
        tri_intersection env face.tri012 ray = some r ∨
          (tri_intersection env face.tri012 ray = none ∧
            tri_intersection env face.tri023 ray = some r)) ∧
      (quad_intersection env face ray = none ↔
        tri_intersection env face.tri012 ray = none ∧
          tri_intersection env face.tri023 ray = none) ∧
      ((face.tri012.calc_normal env).norm = face.norm →
        (face.tri023.calc_normal env).norm = face.norm →
        ∀ r, quad_intersection env face ray = some r →
          tri_intersection env (face.tri012.calc_normal env) ray = some r ∨
            tri_intersection env (face.tri023.calc_normal env) ray = some r) := by
  have key : ∀ r, quad_intersection env face ray = some r →
      tri_intersection env face.tri012 ray = some r ∨
        (tri_intersection env face.tri012 ray = none ∧
          tri_intersection env face.tri023 ray = some r) := by
    intro r hr
    rw [quad_intersection_eq] at hr
    cases h1 : tri_intersection env face.tri012 ray with
    | none => rw [h1] at hr; exact Or.inr ⟨rfl, hr⟩
    | some inf => rw [h1] at hr; exact Or.inl hr
  refine ⟨key, ?_, ?_⟩
  · rw [quad_intersection_eq]
    cases h1 : tri_intersection env face.tri012 ray with
    | none => exact ⟨fun h => ⟨rfl, h⟩, fun h => h.2⟩
    | some inf => exact ⟨fun h => (by cases h), fun h => (by cases h.1)⟩
  · intro hn1 hn2 r hr
    have e1 : face.tri012.calc_normal env = face.tri012 := by
      unfold Face.calc_normal at hn1 ⊢
      simp only [] at hn1 ⊢
      rw [hn1]
      rfl
    have e2 : face.tri023.calc_normal env = face.tri023 := by
      unfold Face.calc_normal at hn2 ⊢
      simp only [] at hn2 ⊢
      rw [hn2]
      rfl
    rw [e1, e2]
    rcases key r hr with h | h
    · exact Or.inl h
    · exact Or.inr h.2

/-- Counterexample to C6 as stated: for the non-planar quad `bentQuad`, whose
face normal is the one `Face::calc_normal` computes, and the ray `rayUp`,
`quad_intersection` reports a hit at `t = 1/3`; the triangle `{v0,v1,v2}` in
its own right is not hit, and the triangle `{v0,v2,v3}` in its own right (with
its own normal `(-2/3, 2/3, -1/3)`) is hit at `t = 2/3`. -/
theorem quad_intersection_bent :
    (bentQuad.calc_normal envQ).norm = bentQuad.norm ∧
      (bentQuad.tri023.calc_normal envQ).norm = ⟨-2 / 3, 2 / 3, -1 / 3⟩ ∧
      ∃ r, quad_intersection envQ bentQuad rayUp = some r ∧ r.t = 1 / 3 ∧
        tri_intersection envQ (bentQuad.tri012.calc_normal envQ) rayUp = none ∧
        ∃ r2, tri_intersection envQ (bentQuad.tri023.calc_normal envQ) rayUp = some r2 ∧
          r2.t = 2 / 3 ∧ r.t ≠ r2.t := by
  have hn1 : (bentQuad.calc_normal envQ).norm = bentQuad.norm := by
    simp [Face.calc_normal, bentQuad, normalize, envQ, sqrtQ, vtx, cross, dot, Vector3.sub,
      Vector3.sdiv]
  have h9 : sqrtQ 9 = 3 := by
    have h : Nat.sqrt 9 = 3 := Nat.sqrt_eq 3
    simp [sqrtQ, h]
  have hn2 : (bentQuad.tri023.calc_normal envQ).norm = ⟨-2 / 3, 2 / 3, -1 / 3⟩ := by
    simp [Face.calc_normal, bentQuad, Face.tri023, normalize, envQ, vtx, cross, dot,
      Vector3.sub, Vector3.sdiv]
    norm_num [h9]
  have e1 : bentQuad.tri012.calc_normal envQ = bentQuad := by
    have : bentQuad.tri012.calc_normal envQ = { bentQuad with norm := (bentQuad.calc_normal envQ).norm } := rfl
    rw [this, hn1]
  have e2 : bentQuad.tri023.calc_normal envQ =
      { bentQuad.tri023 with norm := ⟨-2 / 3, 2 / 3, -1 / 3⟩ } := by
    have : bentQuad.tri023.calc_normal envQ =
        { bentQuad.tri023 with norm := (bentQuad.tri023.calc_normal envQ).norm } := rfl
    rw [this, hn2]
  have m1 : tri_intersection envQ bentQuad rayUp = none := by
    apply tri_intersection_none_of_not_hits
    simp [tri_hits, bentQuad, rayUp, vtx, envQ, plane_t, dot, bc_sum, bary_coords, bary_area,
      cross, Vector3.sub, Vector3.add, Vector3.smul, Ray.at, TINY, Vector3.zero]
    norm_num [abs_div]
  have m2 : tri_hits envQ bentQuad.tri023 rayUp := by
    simp [tri_hits, bentQuad, Face.tri023, rayUp, vtx, envQ, plane_t, dot, bc_sum, bary_coords,
      bary_area, cross, Vector3.sub, Vector3.add, Vector3.smul, Ray.at, TINY, Vector3.zero]
    norm_num [abs_div]
  have m3 : tri_hits envQ { bentQuad.tri023 with norm := ⟨-2 / 3, 2 / 3, -1 / 3⟩ } rayUp := by
    simp [tri_hits, bentQuad, Face.tri023, rayUp, vtx, envQ, plane_t, dot, bc_sum, bary_coords,
      bary_area, cross, Vector3.sub, Vector3.add, Vector3.smul, Ray.at, TINY, Vector3.zero]
    norm_num [abs_div]
  have t2 : (tri_info envQ bentQuad.tri023 rayUp).t = 1 / 3 := by
    norm_num [tri_info, bentQuad, Face.tri023, rayUp, vtx, plane_t, dot]
  have t3 : (tri_info envQ { bentQuad.tri023 with norm := ⟨-2 / 3, 2 / 3, -1 / 3⟩ } rayUp).t =
      2 / 3 := by
    norm_num [tri_info, bentQuad, Face.tri023, rayUp, vtx, plane_t, dot]
  refine ⟨hn1, hn2, tri_info envQ bentQuad.tri023 rayUp, ?_, t2, ?_, ?_⟩
  · rw [quad_intersection_eq]
    have : tri_intersection envQ bentQuad.tri012 rayUp = none := m1
    rw [this]
    exact tri_intersection_of_hits envQ _ rayUp m2
  · rw [e1]; exact m1
  · rw [e2]
    refine ⟨_, tri_intersection_of_hits envQ _ rayUp m3, t3, ?_⟩
    rw [t2, t3]
    norm_num

/-! ### C7: the bounding box of a mesh -/

/-- C7: after `Mesh::calc_bbox` the box satisfies `min ≤ p ≤ max` in every
component for the position `p` of each of the first `prim` vertices (3 for a
triangle mesh, 4 for a quad mesh) of every face of the mesh. -/
theorem calc_bbox_encloses (m : Mesh K) (f : Face K) (hf : f ∈ m.faces) (j : Nat)
    (hj : j < m.prim.toNat) : m.calc_bbox.contains (f.v j).pos :=
  Mesh.calc_bbox_face_mem m.prim m.faces _ f j hf hj

/-- Witness for C7: the second vertex of `unitTri` in the mesh `twoTris`. -/
theorem calc_bbox_encloses_witness :
    unitTri ∈ twoTris.faces ∧ 1 < twoTris.prim.toNat ∧
      twoTris.calc_bbox.contains (unitTri.v 1).pos :=
  ⟨by simp [twoTris], by decide,
    calc_bbox_encloses twoTris unitTri (by simp [twoTris]) 1 (by decide)⟩

/-! ### C8: the number of leaf evaluations -/

/-- C10 (as amended): for every requested rays-per-pixel count `r ≥ 1`,
`calc_subdiv(r)` equals the largest `k` such that `4 ^ k ≤ r` (nothing is
subtracted from it), and the number of samples that `avg_color` takes per
pixel at that depth is `4 ^ calc_subdiv(r)`, the largest power of 4 not above
`r`. -/
theorem calc_subdiv_largest_power [FloorRing K] (r : Int) (hr : 1 ≤ r) :
    ∃ k : Nat, calc_subdiv r = (k : Int) ∧ (4 : Int) ^ k ≤ r ∧
      (∀ j : Nat, (4 : Int) ^ j ≤ r → j ≤ k) ∧
      ∀ (env : Env K) (rs : Nat → Nat) (fuel : Nat) (w h x y : K) (st : State K) (c : Color K)
        (st' : State K) (ls : List (Leaf K)),
        avg_color env rs fuel r (calc_subdiv r).toNat w h x y st = .ok (c, st', ls) →
        ls.length = 4 ^ k := by
  obtain ⟨h1, h2, -⟩ := calc_subdiv_loop_spec r _ 0 rfl (by intro j hj; omega)
  have hpos : 0 < calc_subdiv_loop r 0 := by
    rcases Nat.eq_zero_or_pos (calc_subdiv_loop r 0) with h0 | h0
    · rw [h0] at h2
      exact absurd (by simpa using hr) h2
    · exact h0
  have hk : calc_subdiv r = ((calc_subdiv_loop r 0 - 1 : Nat) : Int) := by
    unfold calc_subdiv
    omega
  refine ⟨calc_subdiv_loop r 0 - 1, hk, h1 _ (by omega), ?_, ?_⟩
  · intro j hj
    by_contra hlt
    have hle : calc_subdiv_loop r 0 ≤ j := by omega
    have : (4 : Int) ^ (calc_subdiv_loop r 0) ≤ 4 ^ j := pow_le_pow_right₀ (by norm_num) hle
    exact h2 (le_trans this hj)
  · intro env rs fuel w h x y st c st' ls hrun
    rw [hk, Int.toNat_ofNat] at hrun
    exact (avg_color_spec env rs fuel r _ w h x y st c st' ls hrun).1

/-- Witness for C10: `r = 7`. -/
theorem calc_subdiv_largest_power_witness :
    ∃ k : Nat, calc_subdiv 7 = (k : Int) ∧ (4 : Int) ^ k ≤ 7 ∧
      (∀ j : Nat, (4 : Int) ^ j ≤ 7 → j ≤ k) ∧
      ∀ (env : Env ℚ) (rs : Nat → Nat) (fuel : Nat) (w h x y : ℚ) (st : State ℚ) (c : Color ℚ)
        (st' : State ℚ) (ls : List (Leaf ℚ)),
        avg_color env rs fuel 7 (calc_subdiv 7).toNat w h x y st = .ok (c, st', ls) →
        ls.length = 4 ^ k :=
  @calc_subdiv_largest_power ℚ _ _ 7 (by decide)

/-- Counterexample to C10 as stated: the largest `k` with `4 ^ k ≤ 4` is 1,
and `calc_subdiv(4)` is 1, not `1 - 1`. -/
theorem calc_subdiv_four :
    (4 : Int) ^ 1 ≤ 4 ∧ (∀ j : Nat, (4 : Int) ^ j ≤ 4 → j ≤ 1) ∧ calc_subdiv 4 = 1 ∧
      calc_subdiv 4 ≠ 1 - 1 := by
  have hv : calc_subdiv 4 = 1 := by
    unfold calc_subdiv
    rw [calc_subdiv_loop, dif_pos (by norm_num), calc_subdiv_loop, dif_pos (by norm_num),
      calc_subdiv_loop, dif_neg (by norm_num)]
    norm_num
  refine ⟨by norm_num, ?_, hv, by rw [hv]; norm_num⟩
  intro j hj
  by_contra hlt
  have hle : 2 ≤ j := by omega
  have : (4 : Int) ^ 2 ≤ 4 ^ j := pow_le_pow_right₀ (by norm_num) hle
  have h16 : (4 : Int) ^ 2 = 16 := by norm_num
  omega

/-! ### The decomposition of `shade` -/

/-- `shade` is its preparation followed by at most one recursive call. -/
theorem shade_factor [FloorRing K] (env : Env K) (rs : Nat → Nat) (fuel : Nat)
    (tr : Ray K → State K → Except Err (Color K × State K)) (ray : Ray K)
    (min_info : IntInfo K) (st : State K) :
    shade env rs fuel tr ray min_info st =
      match shade_prepare env rs fuel ray min_info st with
      | .error e => .error e
      | .ok step => shade_finish tr step := by
  unfold shade shade_prepare shade_lights shade_normal
  simp only [gt_iff_lt]
  generalize (if 0 < dot min_info.normal ray.dir then min_info.normal.neg
    else min_info.normal) = nn
  cases h1 : min_info.object.bind (fun i => st.scene.heap[i]?) with
  | none => rfl
  | some obj =>
    simp only []
    split
    · rename_i e h2
      try rw [h2]
      try rfl
    · rename_i color st1 h2
      try rw [h2]
      try simp only []
      unfold shade_roulette roulette_rnd avg_diff avg_spec
      simp only []
      by_cases ha : frand env rs st1.calls *
            MAX ((obj.material.ks.x + obj.material.ks.y + obj.material.ks.z) / 3 +
              (obj.material.kd.x + obj.material.kd.y + obj.material.kd.z) / 3) 1 <
          (obj.material.kd.x + obj.material.kd.y + obj.material.kd.z) / 3
      · rw [if_pos ha, if_pos ha]
        cases h3 : sample_lambert env rs fuel nn (st1.calls + 1) with
        | error e => rfl
        | ok r =>
          obtain ⟨newdir, calls⟩ := r
          simp only []
          split_ifs with hb
          · rfl
          · rfl
      · rw [if_neg ha, if_neg ha]
        split_ifs with hb hc
        · rfl
        · rfl
        · rfl

/-! ### The russian roulette -/

/-- The quotient `(double) rand() / RAND_MAX` is not negative. -/
theorem frand_nonneg (env : Env K) (rs : Nat → Nat) (i : Nat) : 0 ≤ frand env rs i :=
  div_nonneg (Nat.cast_nonneg _) (Nat.cast_nonneg _)

/-- The macro `MAX(a, 1.0)` is at least 1. -/
theorem one_le_MAX (a : K) : 1 ≤ MAX a 1 := by
  unfold MAX
  split_ifs with h
  · exact le_of_lt h
  · exact le_refl _

/-- The roulette draw `rnd` is not negative. -/
theorem roulette_rnd_nonneg (env : Env K) (rs : Nat → Nat) (mat : Material K) (calls : Nat) :
    0 ≤ roulette_rnd env rs mat calls :=
  mul_nonneg (frand_nonneg env rs calls) (le_trans zero_le_one (one_le_MAX _))

/-- A bounce prepared by the roulette comes from one of its two branches. -/
theorem shade_roulette_bounce [FloorRing K] (env : Env K) (rs : Nat → Nat) (fuel : Nat)
    (ray : Ray K) (p n : Vector3 K) (mat : Material K) (color : Color K) (st : State K)
    (d : Bool) (c w : Color K) (a : K) (r : Ray K) (s : State K)
    (h : shade_roulette env rs fuel ray p n mat color st = .ok (.bounce d c w a r s)) :
    c = color ∧ s.scene = st.scene ∧
      ((d = true ∧ roulette_rnd env rs mat st.calls < avg_diff mat ∧ w = mat.kd ∧
          a = avg_diff mat) ∨
        (d = false ∧ ¬ roulette_rnd env rs mat st.calls < avg_diff mat ∧
          roulette_rnd env rs mat st.calls < avg_diff mat + avg_spec mat ∧ w = mat.ks ∧
          a = avg_spec mat)) := by
  unfold shade_roulette at h
  simp only [] at h
  by_cases ha : roulette_rnd env rs mat st.calls < avg_diff mat
  · rw [if_pos ha] at h
    cases h3 : sample_lambert env rs fuel n (st.calls + 1) with
    | error e => rw [h3] at h; cases h
    | ok q =>
      obtain ⟨newdir, calls⟩ := q
      rw [h3] at h
      simp only [] at h
      split_ifs at h with hb
      · simp only [Except.ok.injEq, ShadeStep.bounce.injEq] at h
        obtain ⟨h1, h2, h3, h4, -, h6⟩ := h
        subst h6
        exact ⟨h2.symm, rfl, Or.inl ⟨h1.symm, ha, h3.symm, h4.symm⟩⟩
      · cases h
  · rw [if_neg ha] at h
    split_ifs at h with hb hc
    · simp only [Except.ok.injEq, ShadeStep.bounce.injEq] at h
      obtain ⟨h1, h2, h3, h4, -, h6⟩ := h
      subst h6
      exact ⟨h2.symm, rfl, Or.inr ⟨h1.symm, ha, hb, h3.symm, h4.symm⟩⟩
    · cases h
    · cases h

/-! ### Sampling of faces -/

/-- A round of the rejection loop of `Face::sample` that accepts. -/
theorem Face.sample_tri_loop_accept (env : Env K) (rs : Nat → Nat) (fuel calls : Nat)
    (h : ¬ frand env rs calls + frand env rs (calls + 1) + frand env rs (calls + 2) > 1) :
    Face.sample_tri_loop env rs (fuel + 1) calls =
      .ok ((frand env rs calls, frand env rs (calls + 1), frand env rs (calls + 2)),
        calls + 3) := by
  rw [Face.sample_tri_loop]
  exact if_neg h

/-- A round of the rejection loop of `Face::sample` that rejects. -/
theorem Face.sample_tri_loop_reject (env : Env K) (rs : Nat → Nat) (fuel calls : Nat)
    (h : frand env rs calls + frand env rs (calls + 1) + frand env rs (calls + 2) > 1) :
    Face.sample_tri_loop env rs (fuel + 1) calls =
      Face.sample_tri_loop env rs fuel (calls + 3) := by
  rw [Face.sample_tri_loop]
  exact if_pos h

/-- When every round rejects, the rejection loop of `Face::sample` never
finishes, whatever the fuel. -/
theorem Face.sample_tri_loop_diverges (env : Env K) (rs : Nat → Nat)
    (h : ∀ calls, frand env rs calls + frand env rs (calls + 1) + frand env rs (calls + 2) > 1) :
    ∀ fuel calls, Face.sample_tri_loop env rs fuel calls = .error .outOfFuel := by
  intro fuel
  induction fuel with
  | zero => intro calls; rfl
  | succ fuel ih =>
    intro calls
    rw [Face.sample_tri_loop_reject env rs fuel calls (h calls)]
    exact ih _

/-- The triangle case of `Face::sample`, when the first round accepts. -/
theorem Face.sample_tri_accept (env : Env K) (rs : Nat → Nat) (fuel : Nat) (f : Face K)
    (calls : Nat)
    (h : ¬ frand env rs calls + frand env rs (calls + 1) + frand env rs (calls + 2) > 1) :
    f.sample env rs (fuel + 1) .MESH_PRIM_TRI calls =
      .ok (f.combo (frand env rs calls) (frand env rs (calls + 1)) (frand env rs (calls + 2)),
        calls + 3) := by
  unfold Face.sample
  simp only []
  rw [Face.sample_tri_loop_accept env rs fuel calls h]
  rfl

/-- The triangle case of `Face::sample` fails when its loop does. -/
theorem Face.sample_tri_error (env : Env K) (rs : Nat → Nat) (fuel : Nat) (f : Face K)
    (calls : Nat) (e : Err) (h : Face.sample_tri_loop env rs fuel calls = .error e) :
    f.sample env rs fuel .MESH_PRIM_TRI calls = .error e := by
  unfold Face.sample
  simp only []
  rw [h]

/-- The quad case of `Face::sample`: the point
`v0 + a (v1 - v0) + b (v2 - v0)` for the two draws `a`, `b`. -/
theorem Face.sample_quad (env : Env K) (rs : Nat → Nat) (fuel : Nat) (f : Face K)
    (calls : Nat) :
    f.sample env rs fuel .MESH_PRIM_QUAD calls =
      .ok (((Vector3.smul (frand env rs calls) (f.v1.pos.sub f.v0.pos)).add
        (Vector3.smul (frand env rs (calls + 1)) (f.v2.pos.sub f.v0.pos))).add f.v0.pos,
        calls + 2) := rfl

/-- The quotient `(double) rand() / RAND_MAX` for a stream of zeros. -/
theorem frand_zero_stream (env : Env K) (i : Nat) : frand env (fun _ => 0) i = 0 := by
  simp [frand]

/-- The quotient `(double) rand() / RAND_MAX` for a stream that always gives
`RAND_MAX`, when that is not zero. -/
theorem frand_max_stream (env : Env K) (h : env.RAND_MAX ≠ 0) (i : Nat) :
    frand env (fun _ => env.RAND_MAX) i = 1 := by
  have : (env.RAND_MAX : K) ≠ 0 := by exact_mod_cast h
  simp [frand, this]

/-! ### The face index of `Mesh::sample` -/

/-- With at least one face and a draw within `[0, RAND_MAX]` the face index of
`Mesh::sample` is in range and the face found there is sampled. -/
theorem Mesh.sample_in_range [FloorRing K] (env : Env K) (rs : Nat → Nat) (fuel : Nat)
    (m : Mesh K) (calls : Nat) (hc : 1 ≤ m.faces.length) (hr : rs calls ≤ env.RAND_MAX) :
    0 ≤ Mesh.sample_index env (rs calls) m.faces.length ∧
      Mesh.sample_index env (rs calls) m.faces.length < (m.faces.length : Int) ∧
      ∃ face, m.faces[(Mesh.sample_index env (rs calls) m.faces.length).toNat]? =
          some face ∧
        Mesh.sample env rs fuel m calls = face.sample env rs fuel m.prim (calls + 1) := by
  have hpos : (0 : K) < (env.RAND_MAX : K) + 1 := by positivity
  have hq0 : (0 : K) ≤ (rs calls : K) / ((env.RAND_MAX : K) + 1) :=
    div_nonneg (Nat.cast_nonneg _) (le_of_lt hpos)
  have hq1 : (rs calls : K) / ((env.RAND_MAX : K) + 1) < 1 := by
    rw [div_lt_one hpos]
    have : (rs calls : K) ≤ (env.RAND_MAX : K) := by exact_mod_cast hr
    linarith
  have hn : (0 : K) < (m.faces.length : K) := by exact_mod_cast hc
  have h0 : 0 ≤ Mesh.sample_index env (rs calls) m.faces.length := by
    unfold Mesh.sample_index
    exact Int.floor_nonneg.mpr (mul_nonneg hq0 (le_of_lt hn))
  have h1 : Mesh.sample_index env (rs calls) m.faces.length < (m.faces.length : Int) := by
    unfold Mesh.sample_index
    rw [Int.floor_lt]
    have : (rs calls : K) / ((env.RAND_MAX : K) + 1) * (m.faces.length : K) <
        1 * (m.faces.length : K) := mul_lt_mul_of_pos_right hq1 hn
    simpa using this
  have hlt : (Mesh.sample_index env (rs calls) m.faces.length).toNat < m.faces.length := by
    omega
  refine ⟨h0, h1, m.faces.get ⟨_, hlt⟩, ?_, ?_⟩
  · exact List.getElem?_eq_getElem hlt
  · unfold Mesh.sample
    simp only []
    rw [if_pos h1, List.getElem?_eq_getElem hlt]
    rfl

/-- Without faces the assertion of `Mesh::sample` fails. -/
theorem Mesh.sample_empty [FloorRing K] (env : Env K) (rs : Nat → Nat) (fuel : Nat)
    (m : Mesh K) (calls : Nat) (hz : m.faces.length = 0) :
    ¬ Mesh.sample_index env (rs calls) m.faces.length < (m.faces.length : Int) ∧
      Mesh.sample env rs fuel m calls = .error .assertFailed := by
  have hi : Mesh.sample_index env (rs calls) m.faces.length = 0 := by
    unfold Mesh.sample_index
    rw [hz]
    simp
  have hn : ¬ Mesh.sample_index env (rs calls) m.faces.length < (m.faces.length : Int) := by
    rw [hi, hz]
    simp
  refine ⟨hn, ?_⟩
  unfold Mesh.sample
  simp only []
  rw [if_neg hn]

/-! ### What the scene operations leave unchanged -/

/-- Reading the object store after `modifyAt`. -/
theorem modifyAt_getElem? {F : Type} (f : Object F → Object F) :
    ∀ (l : List (Object F)) (i j : Nat),
      (modifyAt f l i)[j]? = if j = i then (l[j]?).map f else l[j]? := by
  intro l
  induction l with
  | nil => intro i j; simp [modifyAt]
  | cons a l ih =>
    intro i j
    cases i with
    | zero =>
      cases j with
      | zero => simp [modifyAt]
      | succ j => simp [modifyAt]
    | succ i =>
      cases j with
      | zero => simp [modifyAt]
      | succ j => simp [modifyAt, ih]

/-- The object store keeps its length under `modifyAt`. -/
theorem modifyAt_length {F : Type} (f : Object F → Object F) :
    ∀ (l : List (Object F)) (i : Nat), (modifyAt f l i).length = l.length := by
  intro l
  induction l with
  | nil => intro i; rfl
  | cons a l ih =>
    intro i
    cases i with
    | zero => rfl
    | succ i => simp [modifyAt, ih]

/-- An object read after `modifyAt` is `f` of the old one at the modified
address and the old one elsewhere. -/
theorem modifyAt_getElem?_some {F : Type} (f : Object F → Object F) (l : List (Object F))
    (i j : Nat) (o' : Object F) (h : (modifyAt f l i)[j]? = some o') :
    ∃ o, l[j]? = some o ∧ ((j = i ∧ o' = f o) ∨ (j ≠ i ∧ o' = o)) := by
  rw [modifyAt_getElem?] at h
  split_ifs at h with hji
  · cases ho : l[j]? with
    | none => rw [ho] at h; cases h
    | some o =>
      rw [ho] at h
      exact ⟨o, rfl, Or.inl ⟨hji, (Option.some.inj h).symm⟩⟩
  · exact ⟨o', h, Or.inr ⟨hji, rfl⟩⟩

/-- Every scene is in frame with itself. -/
theorem Scene.frame_refl {F : Type} (sc : Scene F) : sc.frame sc :=
  ⟨rfl, rfl, rfl, rfl, fun _ o' h => ⟨o', h, rfl, rfl⟩⟩

/-- The relation `frame` is transitive. -/
theorem Scene.frame_trans {F : Type} {a b c : Scene F} (h1 : a.frame b) (h2 : b.frame c) : a.frame c := by
  obtain ⟨l1, o1, a1, n1, p1⟩ := h1
  obtain ⟨l2, o2, a2, n2, p2⟩ := h2
  refine ⟨l2.trans l1, o2.trans o1, a2.trans a1, n2.trans n1, ?_⟩
  intro i o'' h
  obtain ⟨o', h', m', s'⟩ := p2 i o'' h
  obtain ⟨o, h0, m0, s0⟩ := p1 i o' h'
  exact ⟨o, h0, m'.trans m0, s'.trans s0⟩

/-- Changing an object store by a function that keeps material and geometry
gives a scene in frame. -/
theorem Scene.frame_modifyAt {F : Type} (sc : Scene F) (f : Object F → Object F) (i : Nat)
    (bb : Option (BBoxNode F))
    (hf : ∀ o, (f o).material = o.material ∧ (f o).shape = o.shape) :
    sc.frame { sc with heap := modifyAt f sc.heap i, bbroot := bb } := by
  refine ⟨rfl, rfl, rfl, modifyAt_length f sc.heap i, ?_⟩
  intro j o' h
  obtain ⟨o, ho, hc | hc⟩ := modifyAt_getElem?_some f sc.heap i j o' h
  · rw [hc.2]
    exact ⟨o, ho, (hf o).1, (hf o).2⟩
  · rw [hc.2]
    exact ⟨o, ho, rfl, rfl⟩

/-- The assignment `obj->ignore = b` keeps the frame. -/
theorem Scene.frame_set_ignore {F : Type} (sc : Scene F) (i : Nat) (b : Bool) :
    sc.frame (sc.set_ignore i b) :=
  Scene.frame_modifyAt sc _ i sc.bbroot (fun _ => ⟨rfl, rfl⟩)

/-- The method `calc_bbox` keeps material, geometry and the `ignore` flag. -/
theorem Object.calc_bbox_keeps (o : Object K) :
    o.calc_bbox.material = o.material ∧ o.calc_bbox.shape = o.shape ∧
      o.calc_bbox.ignore = o.ignore := by
  unfold Object.calc_bbox
  cases o.shape <;> exact ⟨rfl, rfl, rfl⟩

/-- Computing the boxes of a list of objects keeps materials, geometry and
flags at every address. -/
theorem calc_bbox_foldl_keeps (objs : List Nat) :
    ∀ (h : List (Object K)) (i : Nat) (o' : Object K),
      (objs.foldl (fun h i => modifyAt Object.calc_bbox h i) h)[i]? = some o' →
      ∃ o, h[i]? = some o ∧ o'.material = o.material ∧ o'.shape = o.shape ∧
        o'.ignore = o.ignore := by
  induction objs with
  | nil => intro h i o' ho; exact ⟨o', ho, rfl, rfl, rfl⟩
  | cons a objs ih =>
    intro h i o' ho
    rw [List.foldl_cons] at ho
    obtain ⟨o1, h1, m1, s1, g1⟩ := ih _ i o' ho
    obtain ⟨o, h0, hc | hc⟩ := modifyAt_getElem?_some _ h a i o1 h1
    · rw [hc.2] at m1 s1 g1
      obtain ⟨km, ks, kg⟩ := Object.calc_bbox_keeps o
      exact ⟨o, h0, m1.trans km, s1.trans ks, g1.trans kg⟩
    · rw [hc.2] at m1 s1 g1
      exact ⟨o, h0, m1, s1, g1⟩

/-- Computing the boxes of a list of objects keeps the length of the store. -/
theorem calc_bbox_foldl_length (objs : List Nat) :
    ∀ (h : List (Object K)),
      (objs.foldl (fun h i => modifyAt Object.calc_bbox h i) h).length = h.length := by
  induction objs with
  | nil => intro h; rfl
  | cons a objs ih =>
    intro h
    rw [List.foldl_cons, ih, modifyAt_length]

/-- The method `Scene::build_bbtree` keeps the frame and the flags. -/
theorem Scene.build_bbtree_keeps (env : Env K) (sc : Scene K) :
    sc.frame (sc.build_bbtree env) ∧ sc.same_flags (sc.build_bbtree env) := by
  refine ⟨⟨rfl, rfl, rfl, calc_bbox_foldl_length _ _, ?_⟩, ?_⟩
  · intro i o' ho
    obtain ⟨o, h0, m, s, -⟩ := calc_bbox_foldl_keeps sc.objects sc.heap i o' ho
    exact ⟨o, h0, m, s⟩
  · intro i o' ho
    obtain ⟨o, h0, -, -, g⟩ := calc_bbox_foldl_keeps sc.objects sc.heap i o' ho
    exact ⟨o, h0, g⟩

/-- The scene after `Scene::intersection` is the scene before, or that scene
with its index built. -/
theorem Scene.intersection_scene (env : Env K) (sc : Scene K) (ray : Ray K) :
    (sc.intersection env ray).2 = sc ∨ (sc.intersection env ray).2 = sc.build_bbtree env := by
  unfold Scene.intersection
  simp only []
  cases hb : sc.bbroot with
  | none =>
    right
    simp only [Option.isNone_none, if_true]
    split <;> rfl
  | some root =>
    left
    simp only [Option.isNone_some, Bool.false_eq_true, if_false, hb]

/-- The method `Scene::intersection` keeps the frame and the flags. -/
theorem Scene.intersection_keeps (env : Env K) (sc : Scene K) (ray : Ray K) :
    sc.frame (sc.intersection env ray).2 ∧ sc.same_flags (sc.intersection env ray).2 := by
  rcases Scene.intersection_scene env sc ray with h | h
  · rw [h]
    exact ⟨Scene.frame_refl sc, fun i o' ho => ⟨o', ho, rfl⟩⟩
  · rw [h]
    exact Scene.build_bbtree_keeps env sc

/-! ### The light loop and the flags -/

/-- The clamping `if (d < 0.0) d = 0` gives a value that is not negative. -/
theorem clamp0_nonneg (x : K) : 0 ≤ (if x < 0 then 0 else x) := by
  split_ifs with h
  · exact le_refl _
  · exact not_lt.mp h

/-- What one iteration of the light loop does when it returns: the light is
sampled, the shadow query runs on the scene with the light's flag set, the flag
is cleared, and the colour is unchanged or grows by the direct term
`(d * kd + pow(lr, specexp) * ks) * ke_light` with clamped `d` and `lr`. -/
theorem shade_light_ok [FloorRing K] (env : Env K) (rs : Nat → Nat) (fuel : Nat)
    (p n v : Vector3 K) (mat : Material K) (color : Color K) (st : State K) (light : Nat)
    (c' : Color K) (st' : State K)
    (h : shade_light env rs fuel p n v mat (.ok (color, st)) light = .ok (c', st')) :
    ∃ lobj smp calls,
      (st.scene.set_ignore light true).heap[light]? = some lobj ∧
      lobj.sample env rs fuel st.calls = .ok (smp, calls) ∧
      st' = ⟨calls, Scene.set_ignore
        ((st.scene.set_ignore light true).intersection env ⟨p, smp.sub p⟩).2 light false⟩ ∧
      (c' = color ∨
        ∃ d lr : K, 0 ≤ d ∧ 0 ≤ lr ∧
          c' = color.add
            (((Vector3.smul d mat.kd).add (Vector3.smul (env.pow lr mat.specexp) mat.ks)).mul
              lobj.material.ke)) := by
  unfold shade_light at h
  simp only [] at h
  cases hl : (st.scene.set_ignore light true).heap[light]? with
  | none => rw [hl] at h; cases h
  | some lobj =>
    rw [hl] at h
    simp only [] at h
    cases hs : lobj.sample env rs fuel st.calls with
    | error e => rw [hs] at h; cases h
    | ok r =>
      obtain ⟨smp, calls⟩ := r
      rw [hs] at h
      simp only [Except.ok.injEq, Prod.mk.injEq] at h
      obtain ⟨hc, hst⟩ := h
      refine ⟨lobj, smp, calls, rfl, hs, hst.symm, ?_⟩
      by_cases hq : ((st.scene.set_ignore light true).intersection env
          ⟨p, smp.sub p⟩).1.isNone = true
      · rw [if_pos hq] at hc
        right
        exact ⟨_, _, clamp0_nonneg _, clamp0_nonneg _, hc.symm⟩
      · rw [if_neg hq] at hc
        left
        exact hc.symm

/-- Setting one flag in a scene without set flags sets exactly that flag. -/
theorem Scene.only_ignored_set {F : Type} (sc : Scene F) (light : Nat) (h : sc.all_clear) :
    (sc.set_ignore light true).only_ignored light := by
  intro i o ho
  obtain ⟨o0, h0, hc | hc⟩ := modifyAt_getElem?_some _ sc.heap light i o ho
  · rw [hc.2]
    exact ⟨fun _ => hc.1, fun _ => rfl⟩
  · rw [hc.2, h i o0 h0]
    exact ⟨fun hf => (by cases hf), fun hi => absurd hi hc.1⟩

/-- Clearing the one set flag leaves no flag set. -/
theorem Scene.all_clear_unset {F : Type} (sc : Scene F) (light : Nat)
    (h : ∀ (i : Nat) (o : Object F), sc.heap[i]? = some o → i ≠ light → o.ignore = false) :
    (sc.set_ignore light false).all_clear := by
  intro i o ho
  obtain ⟨o0, h0, hc | hc⟩ := modifyAt_getElem?_some _ sc.heap light i o ho
  · rw [hc.2]
  · rw [hc.2]
    exact h i o0 h0 hc.1

/-- One iteration of the light loop keeps the frame, and leaves all flags
cleared when it found them cleared. -/
theorem shade_light_keeps [FloorRing K] (env : Env K) (rs : Nat → Nat) (fuel : Nat)
    (p n v : Vector3 K) (mat : Material K) (color : Color K) (st : State K) (light : Nat)
    (c' : Color K) (st' : State K)
    (h : shade_light env rs fuel p n v mat (.ok (color, st)) light = .ok (c', st')) :
    st.scene.frame st'.scene ∧ (st.scene.all_clear → st'.scene.all_clear) := by
  obtain ⟨lobj, smp, calls, -, -, hst, -⟩ :=
    shade_light_ok env rs fuel p n v mat color st light c' st' h
  rw [hst]
  obtain ⟨hf, hg⟩ := Scene.intersection_keeps env (st.scene.set_ignore light true)
    ⟨p, smp.sub p⟩
  refine ⟨Scene.frame_trans (Scene.frame_trans (Scene.frame_set_ignore _ _ _) hf)
    (Scene.frame_set_ignore _ _ _), ?_⟩
  intro hclear
  apply Scene.all_clear_unset
  intro i o ho hi
  obtain ⟨o1, h1, g1⟩ := hg i o ho
  have := (Scene.only_ignored_set st.scene light hclear) i o1 h1
  rw [g1]
  cases hb : o1.ignore with
  | false => rfl
  | true => exact absurd (this.mp hb) hi

/-- The light loop stays failed once it failed. -/
theorem shade_light_foldl_error [FloorRing K] (env : Env K) (rs : Nat → Nat) (fuel : Nat)
    (p n v : Vector3 K) (mat : Material K) (e : Err) (l : List Nat) :
    l.foldl (shade_light env rs fuel p n v mat) (.error e) = .error e := by
  induction l with
  | nil => rfl
  | cons a l ih => exact ih

/-- The light loop keeps the frame, and leaves all flags cleared when it found
them cleared. -/
theorem shade_light_foldl_keeps [FloorRing K] (env : Env K) (rs : Nat → Nat) (fuel : Nat)
    (p n v : Vector3 K) (mat : Material K) (l : List Nat) :
    ∀ (color : Color K) (st : State K) (c' : Color K) (st' : State K),
      l.foldl (shade_light env rs fuel p n v mat) (.ok (color, st)) = .ok (c', st') →
      st.scene.frame st'.scene ∧ (st.scene.all_clear → st'.scene.all_clear) := by
  induction l with
  | nil =>
    intro color st c' st' h
    cases h
    exact ⟨Scene.frame_refl _, fun hc => hc⟩
  | cons a l ih =>
    intro color st c' st' h
    rw [List.foldl_cons] at h
    cases h1 : shade_light env rs fuel p n v mat (.ok (color, st)) a with
    | error e =>
      rw [h1, shade_light_foldl_error] at h
      cases h
    | ok r =>
      obtain ⟨c1, st1⟩ := r
      rw [h1] at h
      obtain ⟨f1, g1⟩ := shade_light_keeps env rs fuel p n v mat color st a c1 st1 h1
      obtain ⟨f2, g2⟩ := ih c1 st1 c' st' h
      exact ⟨Scene.frame_trans f1 f2, fun hc => g2 (g1 hc)⟩

/-- The russian roulette does not touch the scene or the colour. -/
theorem shade_roulette_done [FloorRing K] (env : Env K) (rs : Nat → Nat) (fuel : Nat)
    (ray : Ray K) (p n : Vector3 K) (mat : Material K) (color : Color K) (st : State K)
    (c : Color K) (s : State K)
    (h : shade_roulette env rs fuel ray p n mat color st = .ok (.done c s)) :
    c = color ∧ s.scene = st.scene := by
  unfold shade_roulette at h
  simp only [] at h
  by_cases ha : roulette_rnd env rs mat st.calls < avg_diff mat
  · rw [if_pos ha] at h
    cases h3 : sample_lambert env rs fuel n (st.calls + 1) with
    | error e => rw [h3] at h; cases h
    | ok q =>
      obtain ⟨newdir, calls⟩ := q
      rw [h3] at h
      simp only [] at h
      split_ifs at h with hb
      · cases h
      · simp only [Except.ok.injEq, ShadeStep.done.injEq] at h
        obtain ⟨h1, h2⟩ := h
        subst h2
        exact ⟨h1.symm, rfl⟩
  · rw [if_neg ha] at h
    split_ifs at h with hb hc
    · cases h
    · simp only [Except.ok.injEq, ShadeStep.done.injEq] at h
      obtain ⟨h1, h2⟩ := h
      subst h2
      exact ⟨h1.symm, rfl⟩
    · simp only [Except.ok.injEq, ShadeStep.done.injEq] at h
      obtain ⟨h1, h2⟩ := h
      subst h2
      exact ⟨h1.symm, rfl⟩

/-! ### `shade` and `trace` and the scene -/

/-- The state in which a step of `shade` ends. -/
theorem shade_prepare_keeps [FloorRing K] (env : Env K) (rs : Nat → Nat) (fuel : Nat)
    (ray : Ray K) (min_info : IntInfo K) (st : State K) (step : ShadeStep K)
    (h : shade_prepare env rs fuel ray min_info st = .ok step) :
    ∃ s : State K, (st.scene.frame s.scene ∧ (st.scene.all_clear → s.scene.all_clear)) ∧
      ((∃ c, step = .done c s) ∨ (∃ d c w a r, step = .bounce d c w a r s)) := by
  unfold shade_prepare at h
  cases h1 : min_info.object.bind (fun i => st.scene.heap[i]?) with
  | none => rw [h1] at h; cases h
  | some obj =>
    rw [h1] at h
    simp only [] at h
    cases h2 : shade_lights env rs fuel ray min_info obj.material st with
    | error e => rw [h2] at h; cases h
    | ok r =>
      obtain ⟨color, st1⟩ := r
      rw [h2] at h
      simp only [] at h
      have hk := shade_light_foldl_keeps env rs fuel _ _ _ _ _ _ _ _ _ h2
      cases step with
      | done c s =>
        obtain ⟨-, hs⟩ := shade_roulette_done env rs fuel ray _ _ _ color st1 c s h
        rw [← hs] at hk
        exact ⟨s, hk, Or.inl ⟨c, rfl⟩⟩
      | bounce d c w a r s =>
        obtain ⟨-, hs, -⟩ := shade_roulette_bounce env rs fuel ray _ _ _ color st1 d c w a r s h
        rw [← hs] at hk
        exact ⟨s, hk, Or.inr ⟨d, c, w, a, r, rfl⟩⟩

/-- The function `shade` keeps the frame and leaves all flags cleared when it
found them cleared, provided its recursive call does. -/
theorem shade_keeps [FloorRing K] (env : Env K) (rs : Nat → Nat) (fuel : Nat)
    (tr : Ray K → State K → Except Err (Color K × State K))
    (htr : ∀ r s c s', tr r s = .ok (c, s') →
      s.scene.frame s'.scene ∧ (s.scene.all_clear → s'.scene.all_clear))
    (ray : Ray K) (min_info : IntInfo K) (st : State K) (c : Color K) (st' : State K)
    (h : shade env rs fuel tr ray min_info st = .ok (c, st')) :
    st.scene.frame st'.scene ∧ (st.scene.all_clear → st'.scene.all_clear) := by
  rw [shade_factor] at h
  cases hp : shade_prepare env rs fuel ray min_info st with
  | error e => rw [hp] at h; cases h
  | ok step =>
    rw [hp] at h
    simp only [] at h
    obtain ⟨s, ⟨hf, hg⟩, hc | hc⟩ := shade_prepare_keeps env rs fuel ray min_info st step hp
    · obtain ⟨c0, rfl⟩ := hc
      simp only [shade_finish, Except.ok.injEq, Prod.mk.injEq] at h
      rw [← h.2]
      exact ⟨hf, hg⟩
    · obtain ⟨d, c0, w, a, r, rfl⟩ := hc
      simp only [shade_finish] at h
      cases ht : tr r s with
      | error e => rw [ht] at h; cases h
      | ok q =>
        obtain ⟨c1, s1⟩ := q
        rw [ht] at h
        simp only [Except.ok.injEq, Prod.mk.injEq] at h
        obtain ⟨f2, g2⟩ := htr r s c1 s1 ht
        rw [← h.2]
        exact ⟨Scene.frame_trans hf f2, fun hc => g2 (hg hc)⟩

/-- The function `trace` keeps the frame (materials, geometry, light list)
and leaves all flags cleared when it found them cleared. -/
theorem trace_keeps [FloorRing K] (env : Env K) (rs : Nat → Nat) (fuel : Nat) :
    ∀ (d : Nat) (ray : Ray K) (st : State K) (c : Color K) (st' : State K),
      trace env rs fuel d ray st = .ok (c, st') →
      st.scene.frame st'.scene ∧ (st.scene.all_clear → st'.scene.all_clear) := by
  intro d
  induction d with
  | zero =>
    intro ray st c st' h
    cases h
    exact ⟨Scene.frame_refl _, fun hc => hc⟩
  | succ d ih =>
    intro ray st c st' h
    rw [trace] at h
    obtain ⟨hf, hg⟩ := Scene.intersection_keeps env st.scene ray
    have hclear : st.scene.all_clear → (st.scene.intersection env ray).2.all_clear := by
      intro hc i o ho
      obtain ⟨o0, h0, g0⟩ := hg i o ho
      rw [g0]
      exact hc i o0 h0
    cases hq : (st.scene.intersection env ray).1 with
    | none =>
      rw [hq] at h
      simp only [Except.ok.injEq, Prod.mk.injEq] at h
      rw [← h.2]
      exact ⟨hf, hclear⟩
    | some info =>
      rw [hq] at h
      simp only [] at h
      obtain ⟨f2, g2⟩ := shade_keeps env rs fuel (trace env rs fuel d) (ih) ray info _ c st' h
      exact ⟨Scene.frame_trans hf f2, fun hc => g2 (hclear hc)⟩

/-! ### Lower bounds on colours -/

/-- The order on colours is reflexive. -/
theorem Vector3.le_refl' (a : Vector3 K) : a.le a := ⟨le_refl _, le_refl _, le_refl _⟩

/-- The order on colours is transitive. -/
theorem Vector3.le_trans' {a b c : Vector3 K} (h1 : a.le b) (h2 : b.le c) : a.le c :=
  ⟨le_trans h1.1 h2.1, le_trans h1.2.1 h2.2.1, le_trans h1.2.2 h2.2.2⟩

/-- Adding a non-negative colour does not lower any channel. -/
theorem Vector3.le_add_nonneg (a b : Vector3 K) (h : Vector3.le Vector3.zero b) :
    a.le (a.add b) := by
  obtain ⟨hx, hy, hz⟩ := h
  simp only [Vector3.zero] at hx hy hz
  exact ⟨le_add_of_nonneg_right hx, le_add_of_nonneg_right hy, le_add_of_nonneg_right hz⟩

/-- The direct term of a light is non-negative. -/
theorem direct_term_nonneg (d s : K) (kd ks ke : Color K) (hd : 0 ≤ d) (hs : 0 ≤ s)
    (hkd : Vector3.le Vector3.zero kd) (hks : Vector3.le Vector3.zero ks)
    (hke : Vector3.le Vector3.zero ke) :
    Vector3.le Vector3.zero (((Vector3.smul d kd).add (Vector3.smul s ks)).mul ke) := by
  obtain ⟨a1, a2, a3⟩ := hkd
  obtain ⟨b1, b2, b3⟩ := hks
  obtain ⟨c1, c2, c3⟩ := hke
  simp only [Vector3.zero] at a1 a2 a3 b1 b2 b3 c1 c2 c3
  simp only [Vector3.le, Vector3.zero, Vector3.mul, Vector3.add, Vector3.smul]
  exact ⟨mul_nonneg (add_nonneg (mul_nonneg hd a1) (mul_nonneg hs b1)) c1,
    mul_nonneg (add_nonneg (mul_nonneg hd a2) (mul_nonneg hs b2)) c2,
    mul_nonneg (add_nonneg (mul_nonneg hd a3) (mul_nonneg hs b3)) c3⟩

/-- The indirect term `traced * weight / avg` is non-negative. -/
theorem indirect_term_nonneg (c w : Color K) (a : K) (hc : Vector3.le Vector3.zero c)
    (hw : Vector3.le Vector3.zero w) (ha : 0 < a) :
    Vector3.le Vector3.zero ((c.mul w).sdiv a) := by
  obtain ⟨a1, a2, a3⟩ := hc
  obtain ⟨b1, b2, b3⟩ := hw
  simp only [Vector3.zero] at a1 a2 a3 b1 b2 b3
  simp only [Vector3.le, Vector3.zero, Vector3.mul, Vector3.sdiv]
  exact ⟨div_nonneg (mul_nonneg a1 b1) (le_of_lt ha), div_nonneg (mul_nonneg a2 b2) (le_of_lt ha),
    div_nonneg (mul_nonneg a3 b3) (le_of_lt ha)⟩

/-- A scene in frame with a non-negative scene is non-negative. -/
theorem Scene.nonneg_of_frame {sc sc' : Scene K} (hf : sc.frame sc') (h : sc.nonneg) :
    sc'.nonneg := by
  obtain ⟨-, -, ha, -, hp⟩ := hf
  refine ⟨by rw [ha]; exact h.1, ?_⟩
  intro i o' ho
  obtain ⟨o, h0, hm, -⟩ := hp i o' ho
  unfold Material.nonneg
  rw [hm]
  exact h.2 i o h0

/-- One iteration of the light loop does not lower the colour. -/
theorem shade_light_le [FloorRing K] (env : Env K) (rs : Nat → Nat) (fuel : Nat)
    (hpow : ∀ b e : K, 0 ≤ b → 0 ≤ env.pow b e)
    (p n v : Vector3 K) (mat : Material K) (hmat : mat.nonneg) (color : Color K) (st : State K)
    (hnn : st.scene.nonneg) (light : Nat) (c' : Color K) (st' : State K)
    (h : shade_light env rs fuel p n v mat (.ok (color, st)) light = .ok (c', st')) :
    color.le c' := by
  obtain ⟨lobj, smp, calls, hl, -, -, hc | hc⟩ :=
    shade_light_ok env rs fuel p n v mat color st light c' st' h
  · rw [hc]
    exact Vector3.le_refl' _
  · obtain ⟨d, lr, hd, hlr, hc⟩ := hc
    rw [hc]
    apply Vector3.le_add_nonneg
    have hlm : lobj.material.nonneg :=
      (Scene.nonneg_of_frame (Scene.frame_set_ignore st.scene light true) hnn).2 light lobj hl
    exact direct_term_nonneg d _ _ _ _ hd (hpow lr mat.specexp hlr) hmat.1 hmat.2.1 hlm.2.2

/-- The light loop does not lower the colour. -/
theorem shade_light_foldl_le [FloorRing K] (env : Env K) (rs : Nat → Nat) (fuel : Nat)
    (hpow : ∀ b e : K, 0 ≤ b → 0 ≤ env.pow b e)
    (p n v : Vector3 K) (mat : Material K) (hmat : mat.nonneg) (l : List Nat) :
    ∀ (color : Color K) (st : State K) (c' : Color K) (st' : State K),
      st.scene.nonneg →
      l.foldl (shade_light env rs fuel p n v mat) (.ok (color, st)) = .ok (c', st') →
      color.le c' := by
  induction l with
  | nil =>
    intro color st c' st' _ h
    cases h
    exact Vector3.le_refl' _
  | cons a l ih =>
    intro color st c' st' hnn h
    rw [List.foldl_cons] at h
    cases h1 : shade_light env rs fuel p n v mat (.ok (color, st)) a with
    | error e =>
      rw [h1, shade_light_foldl_error] at h
      cases h
    | ok r =>
      obtain ⟨c1, st1⟩ := r
      rw [h1] at h
      have hle := shade_light_le env rs fuel hpow p n v mat hmat color st hnn a c1 st1 h1
      have hf := (shade_light_keeps env rs fuel p n v mat color st a c1 st1 h1).1
      exact Vector3.le_trans' hle (ih c1 st1 c' st' (Scene.nonneg_of_frame hf hnn) h)

/-- The colour `ambient * kd + ke` is non-negative in a non-negative scene. -/
theorem base_color_nonneg (amb : Color K) (mat : Material K)
    (ha : Vector3.le Vector3.zero amb) (hm : mat.nonneg) :
    Vector3.le Vector3.zero ((amb.mul mat.kd).add mat.ke) := by
  obtain ⟨a1, a2, a3⟩ := ha
  obtain ⟨⟨b1, b2, b3⟩, -, ⟨c1, c2, c3⟩⟩ := hm
  simp only [Vector3.zero] at a1 a2 a3 b1 b2 b3 c1 c2 c3
  simp only [Vector3.le, Vector3.zero, Vector3.mul, Vector3.add]
  exact ⟨add_nonneg (mul_nonneg a1 b1) c1, add_nonneg (mul_nonneg a2 b2) c2,
    add_nonneg (mul_nonneg a3 b3) c3⟩

/-- The emission is at most `ambient * kd + ke` in a non-negative scene. -/
theorem emission_le_base (amb : Color K) (mat : Material K)
    (ha : Vector3.le Vector3.zero amb) (hm : mat.nonneg) :
    mat.ke.le ((amb.mul mat.kd).add mat.ke) := by
  obtain ⟨a1, a2, a3⟩ := ha
  obtain ⟨⟨b1, b2, b3⟩, -, -⟩ := hm
  simp only [Vector3.zero] at a1 a2 a3 b1 b2 b3
  simp only [Vector3.le, Vector3.mul, Vector3.add]
  exact ⟨le_add_of_nonneg_left (mul_nonneg a1 b1), le_add_of_nonneg_left (mul_nonneg a2 b2),
    le_add_of_nonneg_left (mul_nonneg a3 b3)⟩

/-- What `shade` has accumulated before its recursive call is at least
`ambient * kd + ke` of the hit object; a prepared bounce has a non-negative
weight and a positive divisor. -/
theorem shade_prepare_bound [FloorRing K] (env : Env K) (rs : Nat → Nat) (fuel : Nat)
    (hpow : ∀ b e : K, 0 ≤ b → 0 ≤ env.pow b e)
    (ray : Ray K) (min_info : IntInfo K) (st : State K) (hnn : st.scene.nonneg)
    (obj : Object K) (hobj : min_info.object.bind (fun i => st.scene.heap[i]?) = some obj)
    (step : ShadeStep K) (h : shade_prepare env rs fuel ray min_info st = .ok step) :
    (∀ c s, step = .done c s →
        ((st.scene.ambient.mul obj.material.kd).add obj.material.ke).le c ∧ s.scene.nonneg) ∧
      (∀ d c w a r s, step = .bounce d c w a r s →
        ((st.scene.ambient.mul obj.material.kd).add obj.material.ke).le c ∧
          Vector3.le Vector3.zero w ∧ 0 < a ∧ s.scene.nonneg) := by
  have hmat : obj.material.nonneg := by
    cases ho : min_info.object with
    | none => rw [ho] at hobj; cases hobj
    | some i =>
      rw [ho] at hobj
      exact hnn.2 i obj hobj
  unfold shade_prepare at h
  rw [hobj] at h
  simp only [] at h
  cases h2 : shade_lights env rs fuel ray min_info obj.material st with
  | error e => rw [h2] at h; cases h
  | ok q =>
    obtain ⟨color, st1⟩ := q
    rw [h2] at h
    simp only [] at h
    have hle := shade_light_foldl_le env rs fuel hpow _ _ _ _ hmat _ _ _ _ _ hnn h2
    have hf := (shade_light_foldl_keeps env rs fuel _ _ _ _ _ _ _ _ _ h2).1
    have hn1 : st1.scene.nonneg := Scene.nonneg_of_frame hf hnn
    constructor
    · intro c s hs
      rw [hs] at h
      obtain ⟨e1, e2⟩ := shade_roulette_done env rs fuel ray _ _ _ color st1 c s h
      rw [e1, e2]
      exact ⟨hle, hn1⟩
    · intro d c w a r s hs
      rw [hs] at h
      obtain ⟨e1, e2, e3⟩ := shade_roulette_bounce env rs fuel ray _ _ _ color st1 d c w a r s h
      have h0 := roulette_rnd_nonneg env rs obj.material st1.calls
      rw [e1, e2]
      refine ⟨hle, ?_, ?_, hn1⟩
      · rcases e3 with ⟨-, -, hw, -⟩ | ⟨-, -, -, hw, -⟩
        · rw [hw]; exact hmat.1
        · rw [hw]; exact hmat.2.1
      · rcases e3 with ⟨-, hlt, -, ha⟩ | ⟨-, hnlt, hlt, -, ha⟩
        · rw [ha]; exact lt_of_le_of_lt h0 hlt
        · rw [ha]
          have := not_lt.mp hnlt
          linarith

/-- The colour `shade` returns is at least `ambient * kd + ke` of the hit
object, provided the recursive call returns non-negative colours. -/
theorem shade_bound [FloorRing K] (env : Env K) (rs : Nat → Nat) (fuel : Nat)
    (hpow : ∀ b e : K, 0 ≤ b → 0 ≤ env.pow b e)
    (tr : Ray K → State K → Except Err (Color K × State K))
    (htr : ∀ r s c s', s.scene.nonneg → tr r s = .ok (c, s') → Vector3.le Vector3.zero c)
    (ray : Ray K) (min_info : IntInfo K) (st : State K) (hnn : st.scene.nonneg)
    (obj : Object K) (hobj : min_info.object.bind (fun i => st.scene.heap[i]?) = some obj)
    (c : Color K) (st' : State K)
    (h : shade env rs fuel tr ray min_info st = .ok (c, st')) :
    ((st.scene.ambient.mul obj.material.kd).add obj.material.ke).le c := by
  rw [shade_factor] at h
  cases hp : shade_prepare env rs fuel ray min_info st with
  | error e => rw [hp] at h; cases h
  | ok step =>
    rw [hp] at h
    simp only [] at h
    obtain ⟨hd, hb⟩ := shade_prepare_bound env rs fuel hpow ray min_info st hnn obj hobj step hp
    cases step with
    | done c0 s =>
      simp only [shade_finish, Except.ok.injEq, Prod.mk.injEq] at h
      rw [← h.1]
      exact (hd c0 s rfl).1
    | bounce d c0 w a r s =>
      obtain ⟨h1, h2, h3, h4⟩ := hb d c0 w a r s rfl
      simp only [shade_finish] at h
      cases ht : tr r s with
      | error e => rw [ht] at h; cases h
      | ok q =>
        obtain ⟨c1, s1⟩ := q
        rw [ht] at h
        simp only [Except.ok.injEq, Prod.mk.injEq] at h
        rw [← h.1]
        exact Vector3.le_trans' h1
          (Vector3.le_add_nonneg _ _ (indirect_term_nonneg c1 w a (htr r s c1 s1 h4 ht) h2 h3))

/-- In a non-negative scene every colour `trace` returns is non-negative. -/
theorem trace_nonneg [FloorRing K] (env : Env K) (rs : Nat → Nat) (fuel : Nat)
    (hpow : ∀ b e : K, 0 ≤ b → 0 ≤ env.pow b e) :
    ∀ (d : Nat) (ray : Ray K) (st : State K) (c : Color K) (st' : State K),
      st.scene.nonneg → trace env rs fuel d ray st = .ok (c, st') →
      Vector3.le Vector3.zero c := by
  intro d
  induction d with
  | zero =>
    intro ray st c st' _ h
    cases h
    exact Vector3.le_refl' _
  | succ d ih =>
    intro ray st c st' hnn h
    rw [trace] at h
    have hn1 : (st.scene.intersection env ray).2.nonneg :=
      Scene.nonneg_of_frame (Scene.intersection_keeps env st.scene ray).1 hnn
    cases hq : (st.scene.intersection env ray).1 with
    | none =>
      rw [hq] at h
      simp only [Except.ok.injEq, Prod.mk.injEq] at h
      rw [← h.1]
      exact Vector3.le_refl' _
    | some info =>
      rw [hq] at h
      simp only [] at h
      cases ho : info.object.bind (fun i => (st.scene.intersection env ray).2.heap[i]?) with
      | none =>
        unfold shade at h
        simp only [] at h
        rw [ho] at h
        cases h
      | some obj =>
        have hb := shade_bound env rs fuel hpow (trace env rs fuel d) ih ray info
          ⟨st.calls, (st.scene.intersection env ray).2⟩ hn1 obj ho c st' h
        have hmat : obj.material.nonneg := by
          cases hi : info.object with
          | none => rw [hi] at ho; cases ho
          | some i =>
            rw [hi] at ho
            exact hn1.2 i obj ho
        exact Vector3.le_trans' (base_color_nonneg _ _ hn1.1 hmat) hb

/-! ### Runs on a scene with a single triangle mesh -/

/-- The face loop of `Mesh::intersection` for a mesh of one triangle that is
hit. -/
theorem Mesh.intersection_single (env : Env K) (self : Nat) (bbox : BBox K) (f : Face K)
    (ray : Ray K) (hU : env.USE_BBOX = false) (hh : tri_hits env f ray) :
    Mesh.intersection env self false bbox ⟨.MESH_PRIM_TRI, [f]⟩ ray =
      some { tri_info env f ray with object := some self } := by
  have ht : (tri_info env f ray).t < (IntInfo.init : IntInfo K).t :=
    lt_of_le_of_lt hh.2.2.2.1 one_lt_DBL_MAX
  have hstep : Mesh.intersection_step env .MESH_PRIM_TRI ray (false, IntInfo.init) f =
      (true, tri_info env f ray) := by
    unfold Mesh.intersection_step
    simp only [face_intersection, tri_intersection_of_hits env f ray hh]
    exact if_pos ht
  unfold Mesh.intersection
  simp only [hU, Bool.false_and, Bool.false_eq_true, if_false, List.foldl_cons, List.foldl_nil,
    hstep, Bool.not_true]

/-- An ignored mesh is never hit. -/
theorem Mesh.intersection_ignored (env : Env K) (self : Nat) (bbox : BBox K) (m : Mesh K)
    (ray : Ray K) : Mesh.intersection env self true bbox m ray = none := rfl

/-- The query of a root node with the single member `0`. -/
theorem BBoxNode.intersection_one_member [FloorRing K] (env : Env K) (o : Object K) (box : BBox K)
    (ray : Ray K) (hb : env.bbox_intersection box ray = true) :
    BBoxNode.intersection env [o] ⟨box, [0]⟩ ray =
      match Object.intersection env 0 o ray with
      | none => none
      | some inf => some { inf with object := some 0 } := by
  unfold BBoxNode.intersection
  simp only [hb, Bool.not_true, Bool.false_eq_true, if_false, List.foldl_cons, List.foldl_nil,
    List.getElem?_cons_zero]

/-- The method `Scene::intersection` on a scene whose index is built. -/
theorem Scene.intersection_built [FloorRing K] (env : Env K) (sc : Scene K) (ray : Ray K)
    (root : BBoxNode K) (h : sc.bbroot = some root) :
    sc.intersection env ray = (root.intersection env sc.heap ray, sc) := by
  unfold Scene.intersection
  simp only [h, Option.isNone_some, Bool.false_eq_true, if_false]

/-- The method `Scene::intersection` on a scene whose index is not built:
the index is built first. -/
theorem Scene.intersection_unbuilt [FloorRing K] (env : Env K) (sc : Scene K) (ray : Ray K)
    (h : sc.bbroot = none) :
    sc.intersection env ray = (sc.build_bbtree env).intersection env ray := by
  have hb : (sc.build_bbtree env).bbroot =
      some ⟨⟨(⟨env.RAY_MAG, env.RAY_MAG, env.RAY_MAG⟩ : Vector3 K).neg,
        ⟨env.RAY_MAG, env.RAY_MAG, env.RAY_MAG⟩⟩, sc.objects⟩ := rfl
  rw [Scene.intersection_built env _ ray _ hb]
  unfold Scene.intersection
  simp only [h, Option.isNone_none, if_true, hb]

/-- A failing light sample makes the iteration of the light loop fail. -/
theorem shade_light_sample_error [FloorRing K] (env : Env K) (rs : Nat → Nat) (fuel : Nat)
    (p n v : Vector3 K) (mat : Material K) (color : Color K) (st : State K) (light : Nat)
    (lobj : Object K) (e : Err)
    (hl : (st.scene.set_ignore light true).heap[light]? = some lobj)
    (hs : lobj.sample env rs fuel st.calls = .error e) :
    shade_light env rs fuel p n v mat (.ok (color, st)) light = .error e := by
  unfold shade_light
  simp only [hl, hs]

/-- An iteration of the light loop returns when the light can be sampled. -/
theorem shade_light_returns [FloorRing K] (env : Env K) (rs : Nat → Nat) (fuel : Nat)
    (p n v : Vector3 K) (mat : Material K) (color : Color K) (st : State K) (light : Nat)
    (lobj : Object K) (smp : Vector3 K) (calls : Nat)
    (hl : (st.scene.set_ignore light true).heap[light]? = some lobj)
    (hs : lobj.sample env rs fuel st.calls = .ok (smp, calls)) :
    ∃ c', shade_light env rs fuel p n v mat (.ok (color, st)) light =
      .ok (c', ⟨calls, Scene.set_ignore
        ((st.scene.set_ignore light true).intersection env ⟨p, smp.sub p⟩).2 light false⟩) := by
  unfold shade_light
  simp only [hl, hs]
  exact ⟨_, rfl⟩

/-- With `kd = ks = 0` on average the roulette selects termination. -/
theorem shade_roulette_stop [FloorRing K] (env : Env K) (rs : Nat → Nat) (fuel : Nat)
    (ray : Ray K) (p n : Vector3 K) (mat : Material K) (color : Color K) (st : State K)
    (hd : avg_diff mat = 0) (hs : avg_spec mat = 0) :
    shade_roulette env rs fuel ray p n mat color st =
      .ok (.done color ⟨st.calls + 1, st.scene⟩) := by
  have h0 := roulette_rnd_nonneg env rs mat st.calls
  unfold shade_roulette
  simp only [hd, hs, add_zero]
  rw [if_neg (not_lt.mpr h0), if_neg (not_lt.mpr h0)]

/-! ### Runs on `glowScene` -/

/-- The object store of `glowBuilt`: `glowTri` with its box computed. -/
theorem glowBuilt_heap : glowBuilt.heap = [glowTri.calc_bbox] := rfl

/-- The object `glowTri` with its box computed is still the mesh of the one
face `unitTri`, not ignored. -/
theorem glowTri_calc_bbox :
    glowTri.calc_bbox = ⟨false, glowTri.material, Mesh.calc_bbox ⟨.MESH_PRIM_TRI, [unitTri]⟩,
      .mesh ⟨.MESH_PRIM_TRI, [unitTri]⟩⟩ := rfl

/-- The ray `rayHalf` hits `glowTri` in `glowBuilt`. -/
theorem glowBuilt_intersection :
    glowBuilt.intersection envQ rayHalf = (some glowHit, glowBuilt) := by
  have hb : glowBuilt.bbroot =
      some ⟨⟨(⟨envQ.RAY_MAG, envQ.RAY_MAG, envQ.RAY_MAG⟩ : Vector3 ℚ).neg,
        ⟨envQ.RAY_MAG, envQ.RAY_MAG, envQ.RAY_MAG⟩⟩, [0]⟩ := rfl
  rw [Scene.intersection_built envQ glowBuilt rayHalf _ hb, glowBuilt_heap,
    BBoxNode.intersection_one_member envQ _ _ rayHalf rfl, glowTri_calc_bbox]
  have hm : Object.intersection envQ 0
      ⟨false, glowTri.material, Mesh.calc_bbox ⟨.MESH_PRIM_TRI, [unitTri]⟩,
        .mesh ⟨.MESH_PRIM_TRI, [unitTri]⟩⟩ rayHalf =
      some { tri_info envQ unitTri rayHalf with object := some 0 } :=
    Mesh.intersection_single envQ 0 _ unitTri rayHalf rfl unitTri_rayHalf_hits
  rw [hm]
  rfl

/-- The ray `rayHalf` hits `glowTri` in `glowScene`, and the index is built. -/
theorem glowScene_intersection :
    glowScene.intersection envQ rayHalf = (some glowHit, glowBuilt) := by
  rw [Scene.intersection_unbuilt envQ glowScene rayHalf rfl]
  exact glowBuilt_intersection

/-- The object that `glowHit` points to. -/
theorem glowHit_object :
    glowHit.object.bind (fun i => glowBuilt.heap[i]?) = some glowTri.calc_bbox := rfl

/-- The light of `glowBuilt` with its flag set. -/
theorem glowBuilt_light :
    (glowBuilt.set_ignore 0 true).heap[0]? =
      some ⟨true, glowTri.material, Mesh.calc_bbox ⟨.MESH_PRIM_TRI, [unitTri]⟩,
        .mesh ⟨.MESH_PRIM_TRI, [unitTri]⟩⟩ := rfl

/-! ### Runs of `trace` through a single light -/

/-- One level of `trace` on a ray that hits. -/
theorem trace_succ_hit [FloorRing K] (env : Env K) (rs : Nat → Nat) (fuel d : Nat) (ray : Ray K)
    (st : State K) (info : IntInfo K) (sc' : Scene K)
    (hq : st.scene.intersection env ray = (some info, sc')) :
    trace env rs fuel (d + 1) ray st =
      shade env rs fuel (trace env rs fuel d) ray info ⟨st.calls, sc'⟩ := by
  rw [trace]
  simp only [hq]

/-- One level of `trace` on a ray that misses. -/
theorem trace_succ_miss [FloorRing K] (env : Env K) (rs : Nat → Nat) (fuel d : Nat) (ray : Ray K)
    (st : State K) (sc' : Scene K) (hq : st.scene.intersection env ray = (none, sc')) :
    trace env rs fuel (d + 1) ray st = .ok (Vector3.zero, ⟨st.calls, sc'⟩) := by
  rw [trace]
  simp only [hq]

/-- The preparation of `shade` when the hit object is found. -/
theorem shade_prepare_obj [FloorRing K] (env : Env K) (rs : Nat → Nat) (fuel : Nat) (ray : Ray K)
    (info : IntInfo K) (st : State K) (obj : Object K)
    (hobj : info.object.bind (fun i => st.scene.heap[i]?) = some obj) :
    shade_prepare env rs fuel ray info st =
      match shade_lights env rs fuel ray info obj.material st with
      | .error e => .error e
      | .ok (color, st) =>
        shade_roulette env rs fuel ray info.i_point (shade_normal ray info) obj.material
          color st := by
  unfold shade_prepare
  simp only [hobj]

/-- The light loop of `shade` in a scene with a single light. -/
theorem shade_lights_single [FloorRing K] (env : Env K) (rs : Nat → Nat) (fuel : Nat)
    (ray : Ray K) (info : IntInfo K) (mat : Material K) (st : State K) (l : Nat)
    (hl : st.scene.lights = [l]) :
    shade_lights env rs fuel ray info mat st =
      shade_light env rs fuel info.i_point (shade_normal ray info)
        (normalize env (ray.origin.sub info.i_point)) mat
        (.ok ((st.scene.ambient.mul mat.kd).add mat.ke, st)) l := by
  unfold shade_lights
  rw [hl]
  rfl

/-- When the single light of the scene cannot be sampled, `trace` fails on
every ray that hits an object. -/
theorem trace_single_light_error [FloorRing K] (env : Env K) (rs : Nat → Nat) (fuel d : Nat)
    (ray : Ray K) (st : State K) (info : IntInfo K) (sc' : Scene K) (obj lobj : Object K)
    (l : Nat) (e : Err)
    (hq : st.scene.intersection env ray = (some info, sc'))
    (hobj : info.object.bind (fun i => sc'.heap[i]?) = some obj)
    (hl : sc'.lights = [l])
    (hlo : (sc'.set_ignore l true).heap[l]? = some lobj)
    (hs : lobj.sample env rs fuel st.calls = .error e) :
    trace env rs fuel (d + 1) ray st = .error e := by
  rw [trace_succ_hit env rs fuel d ray st info sc' hq, shade_factor,
    shade_prepare_obj env rs fuel ray info ⟨st.calls, sc'⟩ obj hobj,
    shade_lights_single env rs fuel ray info obj.material ⟨st.calls, sc'⟩ l hl,
    shade_light_sample_error env rs fuel _ _ _ _ _ ⟨st.calls, sc'⟩ l lobj e hlo hs]

/-- When the single light of the scene can be sampled and the hit object
reflects nothing, `trace` returns on every ray that hits an object. -/
theorem trace_single_light_returns [FloorRing K] (env : Env K) (rs : Nat → Nat) (fuel d : Nat)
    (ray : Ray K) (st : State K) (info : IntInfo K) (sc' : Scene K) (obj lobj : Object K)
    (l : Nat) (smp : Vector3 K) (calls : Nat)
    (hq : st.scene.intersection env ray = (some info, sc'))
    (hobj : info.object.bind (fun i => sc'.heap[i]?) = some obj)
    (hl : sc'.lights = [l])
    (hlo : (sc'.set_ignore l true).heap[l]? = some lobj)
    (hs : lobj.sample env rs fuel st.calls = .ok (smp, calls))
    (hd : avg_diff obj.material = 0) (hsp : avg_spec obj.material = 0) :
    ∃ c st', trace env rs fuel (d + 1) ray st = .ok (c, st') := by
  obtain ⟨c', hc'⟩ := shade_light_returns env rs fuel info.i_point (shade_normal ray info)
    (normalize env (ray.origin.sub info.i_point)) obj.material
    ((sc'.ambient.mul obj.material.kd).add obj.material.ke) ⟨st.calls, sc'⟩ l lobj smp calls
    hlo hs
  rw [trace_succ_hit env rs fuel d ray st info sc' hq, shade_factor,
    shade_prepare_obj env rs fuel ray info ⟨st.calls, sc'⟩ obj hobj,
    shade_lights_single env rs fuel ray info obj.material ⟨st.calls, sc'⟩ l hl, hc']
  simp only []
  rw [shade_roulette_stop env rs fuel ray _ _ obj.material c' _ hd hsp]
  exact ⟨_, _, rfl⟩

/-- The method `Mesh::sample` on a mesh of one face samples that face. -/
theorem Mesh.sample_single [FloorRing K] (env : Env K) (rs : Nat → Nat) (fuel : Nat)
    (prim : MeshPrim) (f : Face K) (calls : Nat) (hr : rs calls ≤ env.RAND_MAX) :
    Mesh.sample env rs fuel ⟨prim, [f]⟩ calls = f.sample env rs fuel prim (calls + 1) := by
  obtain ⟨_, _, face, hface, hsmp⟩ :=
    Mesh.sample_in_range env rs fuel ⟨prim, [f]⟩ calls (le_refl 1) hr
  have hmem : face ∈ [f] := List.getElem?_mem hface
  rw [List.mem_singleton] at hmem
  rw [hsmp, hmem]

/-- A light that is a mesh of one triangle is sampled at its first vertex
weight zero by a stream of zeros: the first round of the loop accepts. -/
theorem Object.sample_single_tri_zero [FloorRing K] (env : Env K) (fuel : Nat) (ig : Bool)
    (mat : Material K) (box : BBox K) (f : Face K) (calls : Nat) :
    Object.sample env (fun _ => 0) (fuel + 1) ⟨ig, mat, box, .mesh ⟨.MESH_PRIM_TRI, [f]⟩⟩ calls =
      .ok (f.combo 0 0 0, calls + 1 + 3) := by
  have h : ¬ frand env (fun _ => 0) (calls + 1) + frand env (fun _ => 0) (calls + 1 + 1) +
      frand env (fun _ => 0) (calls + 1 + 2) > 1 := by
    rw [frand_zero_stream, frand_zero_stream, frand_zero_stream]
    norm_num
  show Mesh.sample env (fun _ => 0) (fuel + 1) ⟨.MESH_PRIM_TRI, [f]⟩ calls = _
  rw [Mesh.sample_single env _ _ _ f calls (Nat.zero_le _),
    Face.sample_tri_accept env _ fuel f (calls + 1) h,
    frand_zero_stream, frand_zero_stream, frand_zero_stream]

/-- A light that is a mesh of one triangle cannot be sampled with a stream
that always gives `RAND_MAX`: every round of the loop rejects. -/
theorem Object.sample_single_tri_max [FloorRing K] (env : Env K) (hR : env.RAND_MAX ≠ 0)
    (fuel : Nat) (ig : Bool) (mat : Material K) (box : BBox K) (f : Face K) (calls : Nat) :
    Object.sample env (fun _ => env.RAND_MAX) fuel ⟨ig, mat, box, .mesh ⟨.MESH_PRIM_TRI, [f]⟩⟩
      calls = .error .outOfFuel := by
  have h : ∀ c, frand env (fun _ => env.RAND_MAX) c + frand env (fun _ => env.RAND_MAX) (c + 1) +
      frand env (fun _ => env.RAND_MAX) (c + 2) > 1 := by
    intro c
    rw [frand_max_stream env hR, frand_max_stream env hR, frand_max_stream env hR]
    norm_num
  show Mesh.sample env (fun _ => env.RAND_MAX) fuel ⟨.MESH_PRIM_TRI, [f]⟩ calls = _
  rw [Mesh.sample_single env _ _ _ f calls (le_refl _)]
  exact Face.sample_tri_error env _ fuel f (calls + 1) _
    (Face.sample_tri_loop_diverges env _ h fuel (calls + 1))

/-- With a stream of zeros `trace` returns on `glowState` for the ray
`rayHalf`, at every depth that is not zero. -/
theorem glow_trace_returns (d : Nat) :
    ∃ c st', trace envQ (fun _ => 0) 1 (d + 1) rayHalf glowState = .ok (c, st') :=
  trace_single_light_returns envQ (fun _ => 0) 1 d rayHalf glowState glowHit glowBuilt
    glowTri.calc_bbox _ 0 _ _ glowScene_intersection glowHit_object rfl glowBuilt_light
    (Object.sample_single_tri_zero envQ 0 _ _ _ _ _)
    (by show ((0 : ℚ) + 0 + 0) / 3 = 0; norm_num) (by show ((0 : ℚ) + 0 + 0) / 3 = 0; norm_num)

/-- With a stream that always gives `RAND_MAX` the call `trace` on `glowState`
for the ray `rayHalf` does not return, whatever the bound on the loop rounds,
at every depth that is not zero. -/
theorem glow_trace_diverges (fuel d : Nat) :
    trace envQ (fun _ => 2147483647) fuel (d + 1) rayHalf glowState = .error .outOfFuel :=
  trace_single_light_error envQ (fun _ => envQ.RAND_MAX) fuel d rayHalf glowState glowHit
    glowBuilt glowTri.calc_bbox _ 0 _ glowScene_intersection glowHit_object rfl glowBuilt_light
    (Object.sample_single_tri_max envQ (by show (2147483647 : Nat) ≠ 0; norm_num) fuel _ _ _ _ _)

/-- The scene `glowScene` has non-negative ambient term, reflectances and
emissions. -/
theorem glowScene_nonneg : glowScene.nonneg := by
  refine ⟨⟨le_refl _, le_refl _, le_refl _⟩, ?_⟩
  intro i o h
  have hm : o ∈ [glowTri] := List.getElem?_mem h
  rw [List.mem_singleton] at hm
  rw [hm]
  refine ⟨⟨le_refl _, le_refl _, le_refl _⟩, ⟨le_refl _, le_refl _, le_refl _⟩, ?_⟩
  exact ⟨zero_le_one, zero_le_one, zero_le_one⟩

/-- The power function of `envQ` is non-negative on non-negative bases. -/
theorem envQ_pow_nonneg (b e : ℚ) (hb : 0 ≤ b) : 0 ≤ envQ.pow b e := pow_nonneg hb _

/-! ### Termination: outcomes that no longer depend on the loop bound -/

/-- A computation that does not depend on the loop bound terminates unless it
is the exhaustion of the bound. -/
theorem Settles.const {α : Type} (r : Except Err α) (h : r ≠ .error .outOfFuel) :
    Settles (fun _ => r) :=
  ⟨0, r, h, fun _ _ => rfl⟩

/-- Sequencing: when `f` terminates and `F` continues an `ok` outcome `y` of
`f` by `g y`, which terminates, and passes on every failure, then `F`
terminates. -/
theorem Settles.andThen {α β : Type} (f : Nat → Except Err α) (F : Nat → Except Err β)
    (g : Nat → α → Except Err β) (hf : Settles f)
    (herr : ∀ fuel e, f fuel = .error e → F fuel = .error e)
    (hok : ∀ fuel y, f fuel = .ok y → F fuel = g fuel y)
    (hg : ∀ y, Settles (fun fuel => g fuel y)) : Settles F := by
  obtain ⟨N, r, hr, hN⟩ := hf
  cases r with
  | error e =>
    refine ⟨N, .error e, ?_, fun fuel h => herr fuel e (hN fuel h)⟩
    intro h
    apply hr
    cases h
    rfl
  | ok y =>
    obtain ⟨N', r', hr', hN'⟩ := hg y
    exact ⟨max N N', r', hr', fun fuel h =>
      (hok fuel y (hN fuel (le_trans (le_max_left _ _) h))).trans
        (hN' fuel (le_trans (le_max_right _ _) h))⟩

/-- Two computations that agree for every bound terminate together. -/
theorem Settles.congr {α : Type} (f F : Nat → Except Err α) (h : ∀ fuel, F fuel = f fuel)
    (hf : Settles f) : Settles F := by
  obtain ⟨N, r, hr, hN⟩ := hf
  exact ⟨N, r, hr, fun fuel hle => (h fuel).trans (hN fuel hle)⟩

/-- More rounds do not change the outcome of the loop of `Face::sample` once
it finished. -/
theorem Face.sample_tri_loop_mono (env : Env K) (rs : Nat → Nat) :
    ∀ (fuel calls : Nat), Face.sample_tri_loop env rs fuel calls ≠ .error .outOfFuel →
      ∀ k, Face.sample_tri_loop env rs (fuel + k) calls =
        Face.sample_tri_loop env rs fuel calls := by
  intro fuel
  induction fuel with
  | zero => intro calls h; exact absurd rfl h
  | succ fuel ih =>
    intro calls h k
    have e : fuel + 1 + k = (fuel + k) + 1 := by omega
    rw [e]
    by_cases hc : frand env rs calls + frand env rs (calls + 1) + frand env rs (calls + 2) > 1
    · rw [Face.sample_tri_loop_reject env rs _ calls hc] at h ⊢
      rw [Face.sample_tri_loop_reject env rs _ calls hc]
      exact ih _ h k
    · rw [Face.sample_tri_loop_accept env rs _ calls hc,
        Face.sample_tri_loop_accept env rs _ calls hc]

/-- More rounds do not change the outcome of the loop of `sample_lambert`
once it finished. -/
theorem sample_lambert_loop_mono (env : Env K) (rs : Nat → Nat) :
    ∀ (fuel calls : Nat), sample_lambert_loop env rs fuel calls ≠ .error .outOfFuel →
      ∀ k, sample_lambert_loop env rs (fuel + k) calls =
        sample_lambert_loop env rs fuel calls := by
  intro fuel
  induction fuel with
  | zero => intro calls h; exact absurd rfl h
  | succ fuel ih =>
    intro calls h k
    have e : fuel + 1 + k = (fuel + k) + 1 := by omega
    rw [e]
    rw [sample_lambert_loop] at h ⊢
    rw [sample_lambert_loop]
    split_ifs at h ⊢ with hc
    · exact ih _ h k
    · rfl

/-- A loop of `Face::sample` that finishes for some bound terminates. -/
theorem Face.sample_tri_loop_settles (env : Env K) (rs : Nat → Nat) (calls : Nat)
    (h : ∃ fuel, Face.sample_tri_loop env rs fuel calls ≠ .error .outOfFuel) :
    Settles (fun fuel => Face.sample_tri_loop env rs fuel calls) := by
  obtain ⟨N, hN⟩ := h
  refine ⟨N, _, hN, fun fuel hle => ?_⟩
  have e : fuel = N + (fuel - N) := by omega
  rw [e]
  exact Face.sample_tri_loop_mono env rs N calls hN _

/-- A loop of `sample_lambert` that finishes for some bound terminates. -/
theorem sample_lambert_loop_settles (env : Env K) (rs : Nat → Nat) (calls : Nat)
    (h : ∃ fuel, sample_lambert_loop env rs fuel calls ≠ .error .outOfFuel) :
    Settles (fun fuel => sample_lambert_loop env rs fuel calls) := by
  obtain ⟨N, hN⟩ := h
  refine ⟨N, _, hN, fun fuel hle => ?_⟩
  have e : fuel = N + (fuel - N) := by omega
  rw [e]
  exact sample_lambert_loop_mono env rs N calls hN _

/-! ### Termination of the samplers -/

/-- An `ok` outcome is not the exhaustion of the loop bound. -/
theorem ok_ne_outOfFuel {α : Type} (y : α) : (Except.ok y : Except Err α) ≠ .error .outOfFuel := by
  intro h
  cases h

/-- The method `Face::sample` terminates when its loop does. -/
theorem Face.sample_face_settles (env : Env K) (rs : Nat → Nat) (f : Face K) (prim : MeshPrim)
    (calls : Nat) (h : ∀ c, ∃ fuel, Face.sample_tri_loop env rs fuel c ≠ .error .outOfFuel) :
    Settles (fun fuel => f.sample env rs fuel prim calls) := by
  cases prim with
  | MESH_PRIM_QUAD =>
    exact ⟨0, _, ok_ne_outOfFuel _, fun fuel _ => Face.sample_quad env rs fuel f calls⟩
  | MESH_PRIM_TRI =>
    refine Settles.andThen (fun fuel => Face.sample_tri_loop env rs fuel calls) _
      (fun _ y => .ok (f.combo y.1.1 y.1.2.1 y.1.2.2, y.2))
      (Face.sample_tri_loop_settles env rs calls (h calls)) ?_ ?_ ?_
    · intro fuel e he
      exact Face.sample_tri_error env rs fuel f calls e he
    · intro fuel y hy
      show f.sample env rs fuel .MESH_PRIM_TRI calls = _
      unfold Face.sample
      simp only [hy]
      rfl
    · intro y
      exact Settles.const _ (ok_ne_outOfFuel _)

/-- The method `Mesh::sample` terminates when the loop of `Face::sample`
does. -/
theorem Mesh.sample_mesh_settles [FloorRing K] (env : Env K) (rs : Nat → Nat) (m : Mesh K)
    (calls : Nat) (h : ∀ c, ∃ fuel, Face.sample_tri_loop env rs fuel c ≠ .error .outOfFuel) :
    Settles (fun fuel => m.sample env rs fuel calls) := by
  unfold Mesh.sample
  simp only []
  by_cases hi : Mesh.sample_index env (rs calls) m.faces.length < (m.faces.length : Int)
  · simp only [if_pos hi]
    cases hf : m.faces[(Mesh.sample_index env (rs calls) m.faces.length).toNat]? with
    | none => exact Settles.const _ (by intro h'; cases h')
    | some face => exact Face.sample_face_settles env rs face m.prim (calls + 1) h
  · simp only [if_neg hi]
    exact Settles.const _ (by intro h'; cases h')

/-- The virtual method `sample` terminates when the loop of `Face::sample`
does. -/
theorem Object.sample_settles [FloorRing K] (env : Env K) (rs : Nat → Nat) (o : Object K)
    (calls : Nat) (h : ∀ c, ∃ fuel, Face.sample_tri_loop env rs fuel c ≠ .error .outOfFuel) :
    Settles (fun fuel => o.sample env rs fuel calls) := by
  unfold Object.sample
  cases o.shape with
  | mesh m => exact Mesh.sample_mesh_settles env rs m calls h
  | pointLight position => exact Settles.const _ (ok_ne_outOfFuel _)
  | other isect box smpl => exact Settles.const _ (ok_ne_outOfFuel _)

/-- The function `sample_lambert` terminates when its loop does. -/
theorem sample_lambert_settles (env : Env K) (rs : Nat → Nat) (n : Vector3 K) (calls : Nat)
    (h : ∀ c, ∃ fuel, sample_lambert_loop env rs fuel c ≠ .error .outOfFuel) :
    Settles (fun fuel => sample_lambert env rs fuel n calls) := by
  refine Settles.andThen (fun fuel => sample_lambert_loop env rs fuel calls) _
    (fun _ y =>
      if dot (⟨y.1.1 / y.1.2.2.2, y.1.2.1 / y.1.2.2.2, y.1.2.2.1 / y.1.2.2.2⟩ : Vector3 K) n < 0
      then .ok (Vector3.neg ⟨y.1.1 / y.1.2.2.2, y.1.2.1 / y.1.2.2.2, y.1.2.2.1 / y.1.2.2.2⟩, y.2)
      else .ok (⟨y.1.1 / y.1.2.2.2, y.1.2.1 / y.1.2.2.2, y.1.2.2.1 / y.1.2.2.2⟩, y.2))
    (sample_lambert_loop_settles env rs calls (h calls)) ?_ ?_ ?_
  · intro fuel e he
    show sample_lambert env rs fuel n calls = _
    unfold sample_lambert
    simp only [he]
  · intro fuel y hy
    show sample_lambert env rs fuel n calls = _
    unfold sample_lambert
    simp only [hy]
  · intro y
    refine Settles.const _ ?_
    split_ifs <;> exact ok_ne_outOfFuel _

/-! ### Termination of `shade` and `trace` -/

/-- When `F` is a function of the outcome of `f`, fails by exhaustion only when
`f` does, and `f` terminates, then `F` terminates. -/
theorem Settles.of_congr {α β : Type} (f : Nat → Except Err α) (F : Nat → Except Err β)
    (hf : Settles f) (hc : ∀ fuel fuel', f fuel = f fuel' → F fuel = F fuel')
    (hb : ∀ fuel, F fuel = .error .outOfFuel → f fuel = .error .outOfFuel) : Settles F := by
  obtain ⟨N, r, hr, hN⟩ := hf
  refine ⟨N, F N, ?_, fun fuel hle => ?_⟩
  · intro h
    exact hr ((hN N (le_refl N)).symm.trans (hb N h))
  · exact hc fuel N ((hN fuel hle).trans (hN N (le_refl N)).symm)

/-- An iteration of the light loop terminates when the loop of `Face::sample`
does. -/
theorem shade_light_settles [FloorRing K] (env : Env K) (rs : Nat → Nat) (p n v : Vector3 K)
    (mat : Material K) (acc : Except Err (Color K × State K)) (light : Nat)
    (hacc : acc ≠ .error .outOfFuel)
    (h : ∀ c, ∃ fuel, Face.sample_tri_loop env rs fuel c ≠ .error .outOfFuel) :
    Settles (fun fuel => shade_light env rs fuel p n v mat acc light) := by
  rcases acc with e | ⟨color, st⟩
  · exact Settles.congr (fun _ => .error e) _ (fun _ => rfl) (Settles.const _ hacc)
  · cases hl : (st.scene.set_ignore light true).heap[light]? with
    | none =>
      refine Settles.congr (fun _ => .error .badPointer) _ (fun fuel => ?_)
        (Settles.const _ (by intro h'; cases h'))
      unfold shade_light
      simp only [hl]
    | some lobj =>
      refine Settles.of_congr (fun fuel => lobj.sample env rs fuel st.calls) _
        (Object.sample_settles env rs lobj st.calls h) ?_ ?_
      · intro fuel fuel' e
        unfold shade_light
        simp only [hl, e]
      · intro fuel hF
        show lobj.sample env rs fuel st.calls = _
        cases hs : lobj.sample env rs fuel st.calls with
        | error e =>
          rw [shade_light_sample_error env rs fuel p n v mat color st light lobj e hl hs] at hF
          cases hF
          rfl
        | ok y =>
          obtain ⟨smp, calls⟩ := y
          obtain ⟨c', hc'⟩ := shade_light_returns env rs fuel p n v mat color st light lobj smp
            calls hl hs
          rw [hc'] at hF
          cases hF

/-- The light loop terminates when the loop of `Face::sample` does. -/
theorem shade_light_foldl_settles [FloorRing K] (env : Env K) (rs : Nat → Nat)
    (p n v : Vector3 K) (mat : Material K)
    (h : ∀ c, ∃ fuel, Face.sample_tri_loop env rs fuel c ≠ .error .outOfFuel) (l : List Nat) :
    ∀ acc : Except Err (Color K × State K), acc ≠ .error .outOfFuel →
      Settles (fun fuel => l.foldl (shade_light env rs fuel p n v mat) acc) := by
  induction l with
  | nil => intro acc hacc; exact Settles.const acc hacc
  | cons a l ih =>
    intro acc hacc
    obtain ⟨N, r, hr, hN⟩ := shade_light_settles env rs p n v mat acc a hacc h
    obtain ⟨N', r', hr', hN'⟩ := ih r hr
    refine ⟨max N N', r', hr', fun fuel hle => ?_⟩
    have e1 : shade_light env rs fuel p n v mat acc a = r :=
      hN fuel (le_trans (le_max_left _ _) hle)
    show List.foldl (shade_light env rs fuel p n v mat) acc (a :: l) = r'
    rw [List.foldl_cons, e1]
    exact hN' fuel (le_trans (le_max_right _ _) hle)

/-- The russian roulette terminates when the loop of `sample_lambert` does. -/
theorem shade_roulette_settles [FloorRing K] (env : Env K) (rs : Nat → Nat) (ray : Ray K)
    (p n : Vector3 K) (mat : Material K) (color : Color K) (st : State K)
    (h : ∀ c, ∃ fuel, sample_lambert_loop env rs fuel c ≠ .error .outOfFuel) :
    Settles (fun fuel => shade_roulette env rs fuel ray p n mat color st) := by
  refine Settles.of_congr (fun fuel => sample_lambert env rs fuel n (st.calls + 1)) _
    (sample_lambert_settles env rs n (st.calls + 1) h) ?_ ?_
  · intro fuel fuel' e
    unfold shade_roulette
    simp only [e]
  · intro fuel hF
    show sample_lambert env rs fuel n (st.calls + 1) = _
    unfold shade_roulette at hF
    simp only [] at hF
    split_ifs at hF with h1 h2
    · cases hs : sample_lambert env rs fuel n (st.calls + 1) with
      | error e =>
        rw [hs] at hF
        have hF' : (Except.error e : Except Err (ShadeStep K)) = .error .outOfFuel := hF
        cases hF'
        rfl
      | ok y =>
        rw [hs] at hF
        simp only [] at hF
        split_ifs at hF

/-- The preparation of `shade` terminates when the rejection loops do. -/
theorem shade_prepare_settles [FloorRing K] (env : Env K) (rs : Nat → Nat) (ray : Ray K)
    (info : IntInfo K) (st : State K) (h : loops_terminate env rs) :
    Settles (fun fuel => shade_prepare env rs fuel ray info st) := by
  cases hobj : info.object.bind (fun i => st.scene.heap[i]?) with
  | none =>
    refine Settles.congr (fun _ => .error .badPointer) _ (fun fuel => ?_)
      (Settles.const _ (by intro h'; cases h'))
    unfold shade_prepare
    simp only [hobj]
  | some obj =>
    refine Settles.andThen (fun fuel => shade_lights env rs fuel ray info obj.material st) _
      (fun fuel y => shade_roulette env rs fuel ray info.i_point (shade_normal ray info)
        obj.material y.1 y.2)
      (shade_light_foldl_settles env rs _ _ _ _ h.1 _ _ (ok_ne_outOfFuel _)) ?_ ?_ ?_
    · intro fuel e he
      show shade_prepare env rs fuel ray info st = _
      rw [shade_prepare_obj env rs fuel ray info st obj hobj]
      simp only [he]
    · intro fuel y hy
      show shade_prepare env rs fuel ray info st = _
      rw [shade_prepare_obj env rs fuel ray info st obj hobj]
      simp only [hy]
    · intro y
      exact shade_roulette_settles env rs ray _ _ _ _ _ h.2

/-- The function `shade` terminates when the rejection loops and its recursive
call do. -/
theorem shade_settles [FloorRing K] (env : Env K) (rs : Nat → Nat)
    (tr : Nat → Ray K → State K → Except Err (Color K × State K))
    (htr : ∀ r s, Settles (fun fuel => tr fuel r s)) (ray : Ray K)
    (info : IntInfo K) (st : State K) (h : loops_terminate env rs) :
    Settles (fun fuel => shade env rs fuel (tr fuel) ray info st) := by
  refine Settles.andThen (fun fuel => shade_prepare env rs fuel ray info st) _
    (fun fuel step => shade_finish (tr fuel) step)
    (shade_prepare_settles env rs ray info st h) ?_ ?_ ?_
  · intro fuel e he
    show shade env rs fuel (tr fuel) ray info st = _
    rw [shade_factor]
    simp only [he]
  · intro fuel y hy
    show shade env rs fuel (tr fuel) ray info st = _
    rw [shade_factor]
    simp only [hy]
  · intro step
    cases step with
    | done color s => exact Settles.const _ (ok_ne_outOfFuel _)
    | bounce b color weight avg newray s =>
      refine Settles.andThen (fun fuel => tr fuel newray s) _
        (fun _ y => .ok (color.add ((y.1.mul weight).sdiv avg), y.2)) (htr newray s) ?_ ?_ ?_
      · intro fuel e he
        show shade_finish (tr fuel) (.bounce b color weight avg newray s) = _
        unfold shade_finish
        simp only [he]
      · intro fuel y hy
        show shade_finish (tr fuel) (.bounce b color weight avg newray s) = _
        unfold shade_finish
        simp only [hy]
      · intro y
        exact Settles.const _ (ok_ne_outOfFuel _)

/-- The function `trace` terminates when the rejection loops do. -/
theorem trace_settles [FloorRing K] (env : Env K) (rs : Nat → Nat)
    (h : loops_terminate env rs) :
    ∀ (d : Nat) (ray : Ray K) (st : State K), Settles (fun fuel => trace env rs fuel d ray st) := by
  intro d
  induction d with
  | zero =>
    intro ray st
    exact Settles.congr (fun _ => .ok (Vector3.zero, st)) _ (fun fuel => by rw [trace])
      (Settles.const _ (ok_ne_outOfFuel _))
  | succ d ih =>
    intro ray st
    rcases hq : st.scene.intersection env ray with ⟨o, sc'⟩
    cases o with
    | none =>
      exact Settles.congr (fun _ => .ok (Vector3.zero, ⟨st.calls, sc'⟩)) _
        (fun fuel => trace_succ_miss env rs fuel d ray st sc' hq)
        (Settles.const _ (ok_ne_outOfFuel _))
    | some info =>
      exact Settles.congr _ _ (fun fuel => trace_succ_hit env rs fuel d ray st info sc' hq)
        (shade_settles env rs (fun fuel => trace env rs fuel d) ih ray info ⟨st.calls, sc'⟩ h)

/-! ### The chain of nested `trace` calls -/

/-- The instrumented run computes the result of `trace`. -/
theorem trace_run_fst [FloorRing K] (env : Env K) (rs : Nat → Nat) (fuel : Nat) :
    ∀ (d : Nat) (ray : Ray K) (st : State K),
      (trace_run env rs fuel d ray st).1 = trace env rs fuel d ray st := by
  intro d
  induction d with
  | zero => intro ray st; rw [trace, trace_run]
  | succ d ih =>
    intro ray st
    rw [trace, trace_run]
    simp only []
    cases (st.scene.intersection env ray).1 with
    | none => rfl
    | some info =>
      simp only []
      rw [shade_factor]
      cases shade_prepare env rs fuel ray info ⟨st.calls, (st.scene.intersection env ray).2⟩ with
      | error e => rfl
      | ok step =>
        cases step with
        | done c s => rfl
        | bounce b c w a r s =>
          simp only [shade_finish]
          rw [ih r s]

/-- The record of a run at depth zero: the one call, without `shade`. -/
theorem trace_chain_zero [FloorRing K] (env : Env K) (rs : Nat → Nat) (fuel : Nat) (ray : Ray K)
    (st : State K) : trace_chain env rs fuel 0 ray st = [(0, false)] := by
  unfold trace_chain
  rw [trace_run]

/-- The record of a run at depth `d + 1`: the call itself, followed, when
`shade` made its recursive call, by the record of a run at depth `d`. -/
theorem trace_chain_succ [FloorRing K] (env : Env K) (rs : Nat → Nat) (fuel d : Nat)
    (ray : Ray K) (st : State K) :
    (∃ b, trace_chain env rs fuel (d + 1) ray st = [(d + 1, b)]) ∨
      ∃ r s, trace_chain env rs fuel (d + 1) ray st =
        (d + 1, true) :: trace_chain env rs fuel d r s := by
  unfold trace_chain
  rw [trace_run]
  simp only []
  cases (st.scene.intersection env ray).1 with
  | none => exact Or.inl ⟨false, rfl⟩
  | some info =>
    simp only []
    cases shade_prepare env rs fuel ray info ⟨st.calls, (st.scene.intersection env ray).2⟩ with
    | error e => exact Or.inl ⟨true, rfl⟩
    | ok step =>
      cases step with
      | done c s => exact Or.inl ⟨true, rfl⟩
      | bounce b c w a r s => exact Or.inr ⟨r, s, rfl⟩

/-- The depths `d, d - 1, ..., 0`. -/
theorem range_succ_reverse (d : Nat) :
    (List.range (d + 2)).reverse = (d + 1) :: (List.range (d + 1)).reverse := by
  rw [List.range_succ, List.reverse_append]
  rfl

/-- The depths of the nested calls of a run at depth `d` are an initial piece
of `d, d - 1, ..., 0`. -/
theorem trace_chain_initial [FloorRing K] (env : Env K) (rs : Nat → Nat) (fuel : Nat) :
    ∀ (d : Nat) (ray : Ray K) (st : State K),
      (trace_chain env rs fuel d ray st).map Prod.fst <+: (List.range (d + 1)).reverse := by
  intro d
  induction d with
  | zero =>
    intro ray st
    rw [trace_chain_zero]
    exact List.prefix_refl _
  | succ d ih =>
    intro ray st
    rw [range_succ_reverse]
    rcases trace_chain_succ env rs fuel d ray st with ⟨b, hb⟩ | ⟨r, s, hrs⟩
    · rw [hb]
      exact (List.prefix_cons_inj (d + 1)).mpr (List.nil_prefix)
    · rw [hrs]
      exact (List.prefix_cons_inj (d + 1)).mpr (ih r s)

/-- A run at depth `d` invokes `shade` at most `d` times. -/
theorem trace_chain_shades [FloorRing K] (env : Env K) (rs : Nat → Nat) (fuel : Nat) :
    ∀ (d : Nat) (ray : Ray K) (st : State K),
      (trace_chain env rs fuel d ray st).countP (fun e => e.2) ≤ d := by
  intro d
  induction d with
  | zero =>
    intro ray st
    rw [trace_chain_zero]
    exact le_refl 0
  | succ d ih =>
    intro ray st
    rcases trace_chain_succ env rs fuel d ray st with ⟨b, hb⟩ | ⟨r, s, hrs⟩
    · rw [hb]
      exact le_trans (List.countP_le_length _) (Nat.succ_le_succ (Nat.zero_le d))
    · rw [hrs, List.countP_cons_of_pos _ _ rfl]
      exact Nat.succ_le_succ (ih r s)

/-- A run at depth `d` makes at most `d + 1` nested `trace` calls. -/
theorem trace_chain_length [FloorRing K] (env : Env K) (rs : Nat → Nat) (fuel d : Nat)
    (ray : Ray K) (st : State K) : (trace_chain env rs fuel d ray st).length ≤ d + 1 := by
  have h := (trace_chain_initial env rs fuel d ray st).length_le
  rw [List.length_map, List.length_reverse, List.length_range] at h
  exact h

/-! ### A stream on which the rejection loops finish -/

/-- The loops finish when every first round accepts. -/
theorem loops_terminate_of_first_round (env : Env K) (rs : Nat → Nat)
    (h1 : ∀ calls, ¬ frand env rs calls + frand env rs (calls + 1) + frand env rs (calls + 2) > 1)
    (h2 : ∀ calls, ¬ env.sqrt
      ((2 * (rs calls : K) / (env.RAND_MAX : K) - 1) * (2 * (rs calls : K) / (env.RAND_MAX : K) - 1) +
        (2 * (rs (calls + 1) : K) / (env.RAND_MAX : K) - 1) *
          (2 * (rs (calls + 1) : K) / (env.RAND_MAX : K) - 1) +
        (2 * (rs (calls + 2) : K) / (env.RAND_MAX : K) - 1) *
          (2 * (rs (calls + 2) : K) / (env.RAND_MAX : K) - 1)) > 1) :
    loops_terminate env rs := by
  refine ⟨fun calls => ⟨1, ?_⟩, fun calls => ⟨1, ?_⟩⟩
  · rw [Face.sample_tri_loop_accept env rs 0 calls (h1 calls)]
    exact ok_ne_outOfFuel _
  · rw [sample_lambert_loop, if_neg (h2 calls)]
    exact ok_ne_outOfFuel _

/-- The square root of `envQ` is at most 1 on arguments that are at most 1. -/
theorem sqrtQ_le_one (q : ℚ) (h : q ≤ 1) : sqrtQ q ≤ 1 := by
  have hden : (0 : ℚ) < (q.den : ℚ) := by exact_mod_cast q.den_pos
  have hnd : (q.num : ℚ) ≤ (q.den : ℚ) := by
    have := Rat.num_div_den q
    rw [← this] at h
    exact (div_le_one hden).mp h
  have hnd' : q.num ≤ (q.den : ℤ) := by exact_mod_cast hnd
  have hle : q.num.toNat ≤ q.den := Int.toNat_le.mpr hnd'
  have hs : Nat.sqrt q.num.toNat ≤ Nat.sqrt q.den := Nat.sqrt_le_sqrt hle
  have hpos : 0 < Nat.sqrt q.den := Nat.sqrt_pos.mpr q.den_pos
  unfold sqrtQ
  rw [div_le_one (by exact_mod_cast hpos)]
  exact_mod_cast hs

/-- With every draw equal to `644245094` (about `0.3 · RAND_MAX`) both
rejection loops accept in their first round. -/
theorem loops_terminate_const : loops_terminate envQ (fun _ => 644245094) := by
  refine loops_terminate_of_first_round envQ _ ?_ ?_
  · intro calls
    show ¬ (((644245094 : ℕ) : ℚ) / ((2147483647 : ℕ) : ℚ) +
      ((644245094 : ℕ) : ℚ) / ((2147483647 : ℕ) : ℚ) +
      ((644245094 : ℕ) : ℚ) / ((2147483647 : ℕ) : ℚ) > 1)
    norm_num
  · intro calls
    refine not_lt.mpr (sqrtQ_le_one _ ?_)
    show (2 * ((644245094 : ℕ) : ℚ) / ((2147483647 : ℕ) : ℚ) - 1) *
        (2 * ((644245094 : ℕ) : ℚ) / ((2147483647 : ℕ) : ℚ) - 1) +
      (2 * ((644245094 : ℕ) : ℚ) / ((2147483647 : ℕ) : ℚ) - 1) *
        (2 * ((644245094 : ℕ) : ℚ) / ((2147483647 : ℕ) : ℚ) - 1) +
      (2 * ((644245094 : ℕ) : ℚ) / ((2147483647 : ℕ) : ℚ) - 1) *
        (2 * ((644245094 : ℕ) : ℚ) / ((2147483647 : ℕ) : ℚ) - 1) ≤ 1
    norm_num

/-! ### The mesh loader -/

/-- The vertex that `face.v[i]` was just assigned, for `i < 4`. -/
theorem Face.set_v_same {F : Type} (f : Face F) (i : Nat) (p nn : Vector3 F) (hi : i ≤ 3) :
    (f.set_v i p nn).v i = ⟨p, nn⟩ := by
  rcases i with _ | _ | _ | _ | i
  · rfl
  · rfl
  · rfl
  · rfl
  · omega

/-- The assignments to `face.v[i]` leave the vertices below `i` unchanged. -/
theorem Face.set_v_other {F : Type} (f : Face F) (i j : Nat) (p nn : Vector3 F) (hj : j < i)
    (hi : i ≤ 3) : (f.set_v i p nn).v j = f.v j := by
  rcases i with _ | _ | _ | i
  · omega
  · rcases j with _ | j
    · rfl
    · omega
  · rcases j with _ | _ | j
    · rfl
    · rfl
    · omega
  · rcases j with _ | _ | _ | j
    · rfl
    · rfl
    · rfl
    · omega

/-- The method `Face::calc_normal` leaves the vertices unchanged. -/
theorem Face.calc_normal_v (env : Env K) (f : Face K) (j : Nat) :
    (f.calc_normal env).v j = f.v j := by
  rcases j with _ | _ | _ | j <;> rfl

/-- The loop of an `f` line stores, at every index it visits, a position of
`verts` and a normal of `normals`, and leaves the lower indices unchanged. -/
theorem load_face_loop_spec {F : Type} (verts normals : List (Vector3 F)) :
    ∀ (idx : List (Int × Int)) (i : Nat) (face face' : Face F), i + idx.length ≤ 4 →
      load_face_loop verts normals idx i face = .ok face' →
      (∀ j, i ≤ j → j < i + idx.length →
        (face'.v j).pos ∈ verts ∧ (face'.v j).norm ∈ normals) ∧
      ∀ j, j < i → face'.v j = face.v j := by
  intro idx
  induction idx with
  | nil =>
    intro i face face' _ h
    rw [load_face_loop] at h
    cases h
    exact ⟨fun j h1 h2 => by simp at h2; omega, fun j _ => rfl⟩
  | cons a rest ih =>
    intro i face face' hlen h
    obtain ⟨vi, ni⟩ := a
    rw [load_face_loop] at h
    split_ifs at h with hneg
    cases hv : verts[(vi - 1).toNat]? with
    | none => rw [hv] at h; cases h
    | some p =>
      cases hn : normals[(ni - 1).toNat]? with
      | none => rw [hv, hn] at h; cases h
      | some nn =>
        rw [hv, hn] at h
        simp only [List.length_cons] at hlen ⊢
        obtain ⟨h1, h2⟩ := ih (i + 1) (face.set_v i p nn) face' (by omega) h
        refine ⟨fun j hij hj => ?_, fun j hj => ?_⟩
        · by_cases hji : j = i
          · rw [hji, h2 i (Nat.lt_succ_self i), Face.set_v_same face i p nn (by omega)]
            exact ⟨List.getElem?_mem hv, List.getElem?_mem hn⟩
          · exact h1 j (by omega) (by omega)
        · rw [h2 j (by omega)]
          exact Face.set_v_other face i j p nn hj (by omega)

/-- After `goto err` or a failure the remaining lines change nothing. -/
theorem load_mesh_line_foldl_stuck (env : Env K) (prim : MeshPrim) (pos : Vector3 K)
    (rot : Matrix4x4 K) (scale : Vector3 K) (l : List (MeshLine K))
    (acc : Except Err (Option (MeshData K))) (h : ∀ st, acc ≠ .ok (some st)) :
    l.foldl (load_mesh_line env prim pos rot scale) acc = acc := by
  induction l with
  | nil => rfl
  | cons a l ih =>
    rw [List.foldl_cons]
    have e : load_mesh_line env prim pos rot scale acc a = acc := by
      rcases acc with e | _ | st
      · rfl
      · rfl
      · exact absurd rfl (h st)
    rw [e]
    exact ih

/-- One round of the loop of `load_mesh_data` keeps: every stored position and
normal comes from a `v` or `n` line through the instancing transform, and so
does every vertex of every face added. -/
theorem load_mesh_line_inv (env : Env K) (prim : MeshPrim) (pos : Vector3 K)
    (rot : Matrix4x4 K) (scale : Vector3 K) (lines : List (MeshLine K)) (st st' : MeshData K)
    (line : MeshLine K) (hmem : line ∈ lines)
    (hv : ∀ p ∈ st.verts, is_loaded_pos env lines pos rot scale p)
    (hn : ∀ nn ∈ st.normals, is_loaded_norm env lines rot nn)
    (hf : ∀ face ∈ st.faces, ∀ j, j < prim.toNat →
      is_loaded_pos env lines pos rot scale (face.v j).pos ∧
        is_loaded_norm env lines rot (face.v j).norm)
    (h : load_mesh_line env prim pos rot scale (.ok (some st)) line = .ok (some st')) :
    (∀ p ∈ st'.verts, is_loaded_pos env lines pos rot scale p) ∧
      (∀ nn ∈ st'.normals, is_loaded_norm env lines rot nn) ∧
      ∀ face ∈ st'.faces, ∀ j, j < prim.toNat →
        is_loaded_pos env lines pos rot scale (face.v j).pos ∧
          is_loaded_norm env lines rot (face.v j).norm := by
  cases line with
  | skip =>
    have e : st' = st := by
      have h' : (Except.ok (some st) : Except Err (Option (MeshData K))) = .ok (some st') := h
      cases h'
      rfl
    rw [e]
    exact ⟨hv, hn, hf⟩
  | other => cases h
  | v xyz =>
    cases xyz with
    | none => cases h
    | some t =>
      obtain ⟨x, y, z⟩ := t
      have h' : (Except.ok (some { st with verts := st.verts ++
          [loaded_pos env pos rot scale x y z] }) : Except Err (Option (MeshData K))) =
          .ok (some st') := h
      cases h'
      refine ⟨fun p hp => ?_, hn, hf⟩
      rcases List.mem_append.mp hp with hp | hp
      · exact hv p hp
      · rw [List.mem_singleton] at hp
        exact ⟨x, y, z, hmem, hp⟩
  | n xyz =>
    cases xyz with
    | none => cases h
    | some t =>
      obtain ⟨x, y, z⟩ := t
      have h' : (Except.ok (some { st with normals := st.normals ++
          [loaded_norm env rot x y z] }) : Except Err (Option (MeshData K))) =
          .ok (some st') := h
      cases h'
      refine ⟨hv, fun p hp => ?_, hf⟩
      rcases List.mem_append.mp hp with hp | hp
      · exact hn p hp
      · rw [List.mem_singleton] at hp
        exact ⟨x, y, z, hmem, hp⟩
  | f idx dangling =>
    unfold load_mesh_line at h
    simp only [] at h
    by_cases hres : 2 * idx.length + (if dangling = true then 1 else 0) = prim.toNat * 2
    swap
    · rw [if_pos hres] at h
      cases h
    rw [if_neg (not_not.mpr hres)] at h
    cases hl : load_face_loop st.verts st.normals idx 0 st.face with
    | error e => rw [hl] at h; cases h
    | ok face =>
      rw [hl] at h
      have h' : (Except.ok (some ⟨st.verts, st.normals, face.calc_normal env,
          st.faces ++ [face.calc_normal env]⟩) :
          Except Err (Option (MeshData K))) = .ok (some st') := h
      cases h'
      have hlen : idx.length = prim.toNat := by
        cases dangling
        · simp only [Bool.false_eq_true, if_false] at hres
          omega
        · simp only [if_true] at hres
          omega
      have hp4 : prim.toNat ≤ 4 := by cases prim <;> decide
      obtain ⟨h1, _⟩ := load_face_loop_spec st.verts st.normals idx 0 st.face face
        (by omega) hl
      refine ⟨hv, hn, fun fc hfc j hj => ?_⟩
      rcases List.mem_append.mp hfc with hfc | hfc
      · exact hf fc hfc j hj
      · rw [List.mem_singleton] at hfc
        rw [hfc, Face.calc_normal_v]
        obtain ⟨hp, hnn⟩ := h1 j (Nat.zero_le j) (by omega)
        exact ⟨hv _ hp, hn _ hnn⟩

/-- The loop of `load_mesh_data` keeps the same. -/
theorem load_mesh_line_foldl_inv (env : Env K) (prim : MeshPrim) (pos : Vector3 K)
    (rot : Matrix4x4 K) (scale : Vector3 K) (lines : List (MeshLine K)) :
    ∀ (l : List (MeshLine K)), (∀ line ∈ l, line ∈ lines) → ∀ (st st' : MeshData K),
      (∀ p ∈ st.verts, is_loaded_pos env lines pos rot scale p) →
      (∀ nn ∈ st.normals, is_loaded_norm env lines rot nn) →
      (∀ face ∈ st.faces, ∀ j, j < prim.toNat →
        is_loaded_pos env lines pos rot scale (face.v j).pos ∧
          is_loaded_norm env lines rot (face.v j).norm) →
      l.foldl (load_mesh_line env prim pos rot scale) (.ok (some st)) = .ok (some st') →
      ∀ face ∈ st'.faces, ∀ j, j < prim.toNat →
        is_loaded_pos env lines pos rot scale (face.v j).pos ∧
          is_loaded_norm env lines rot (face.v j).norm := by
  intro l
  induction l with
  | nil =>
    intro _ st st' _ _ hf h
    have h' : (Except.ok (some st) : Except Err (Option (MeshData K))) = .ok (some st') := h
    cases h'
    exact hf
  | cons a l ih =>
    intro hsub st st' hv hn hf h
    rw [List.foldl_cons] at h
    cases hs : load_mesh_line env prim pos rot scale (.ok (some st)) a with
    | error e =>
      rw [hs, load_mesh_line_foldl_stuck env prim pos rot scale l _
        (by intro s hh; cases hh)] at h
      cases h
    | ok o =>
      cases o with
      | none =>
        rw [hs, load_mesh_line_foldl_stuck env prim pos rot scale l _
          (by intro s hh; cases hh)] at h
        cases h
      | some st1 =>
        rw [hs] at h
        obtain ⟨hv1, hn1, hf1⟩ := load_mesh_line_inv env prim pos rot scale lines st st1 a
          (hsub a (List.mem_cons_self a l)) hv hn hf hs
        exact ih (fun line hl => hsub line (List.mem_cons_of_mem a hl)) st1 st' hv1 hn1 hf1 h

/-! ### The sample coordinates of `avg_color` -/

/-- The coordinates of the one leaf of a run at depth zero. -/
theorem avg_color_zero_leaf [FloorRing K] (env : Env K) (rs : Nat → Nat) (fuel : Nat)
    (rp : Int) (w h x y : K) (st : State K) (c : Color K) (st' : State K) (ls : List (Leaf K))
    (hr : avg_color env rs fuel rp 0 w h x y st = .ok (c, st', ls)) :
    ∃ e : Leaf K, ls = [e] ∧
      e.x = (if rp > 1 then x + (frand env rs st.calls * w - w / 2) else x) ∧
      e.y = (if rp > 1 then y + (frand env rs (st.calls + 1) * h - h / 2) else y) := by
  rw [avg_color] at hr
  unfold avg_color_leaf at hr
  simp only [] at hr
  split at hr
  · cases hr
  · simp only [Except.ok.injEq, Prod.mk.injEq] at hr
    obtain ⟨_, _, h3⟩ := hr
    subst h3
    exact ⟨_, rfl, rfl, rfl⟩

/-- A run at depth `d + 1` is four runs at depth `d` on the quadrants, and its
leaves are theirs, in this order. -/
theorem avg_color_succ_split [FloorRing K] (env : Env K) (rs : Nat → Nat) (fuel : Nat)
    (rp : Int) (d : Nat) (w h x y : K) (st : State K) (c : Color K) (st' : State K)
    (ls : List (Leaf K)) (hr : avg_color env rs fuel rp (d + 1) w h x y st = .ok (c, st', ls)) :
    ∃ c1 s1 l1 c2 s2 l2 c3 s3 l3 c4 l4,
      avg_color env rs fuel rp d (w / 2) (h / 2) (x + w / 4) (y + h / 4) st = .ok (c1, s1, l1) ∧
      avg_color env rs fuel rp d (w / 2) (h / 2) (x + w / 4) (y - h / 4) s1 = .ok (c2, s2, l2) ∧
      avg_color env rs fuel rp d (w / 2) (h / 2) (x - w / 4) (y + h / 4) s2 = .ok (c3, s3, l3) ∧
      avg_color env rs fuel rp d (w / 2) (h / 2) (x - w / 4) (y - h / 4) s3 = .ok (c4, st', l4) ∧
      ls = l1 ++ l2 ++ l3 ++ l4 := by
  rw [avg_color] at hr
  simp only [] at hr
  split at hr
  · cases hr
  · rename_i c1 st1 l1 h1
    split at hr
    · cases hr
    · rename_i c2 st2 l2 h2
      split at hr
      · cases hr
      · rename_i c3 st3 l3 h3
        split at hr
        · cases hr
        · rename_i c4 st4 l4 h4
          simp only [Except.ok.injEq, Prod.mk.injEq] at hr
          obtain ⟨_, hs, hl⟩ := hr
          subst hs
          exact ⟨c1, st1, l1, c2, st2, l2, c3, st3, l3, c4, l4, h1, h2, h3, h4, hl.symm⟩

/-- Induction over the subdivision: a property of footprints and leaf lists
that holds for the single leaf of depth zero and passes from the four
quadrants to the whole holds for every run of `avg_color`. -/
theorem avg_color_leaves_induct [FloorRing K] (env : Env K) (rs : Nat → Nat) (fuel : Nat)
    (rp : Int) (P : Nat → K → K → K → K → List (Leaf K) → Prop)
    (h0 : ∀ (w h x y : K) (e : Leaf K) (i : Nat),
      e.x = (if rp > 1 then x + (frand env rs i * w - w / 2) else x) →
      e.y = (if rp > 1 then y + (frand env rs (i + 1) * h - h / 2) else y) → P 0 w h x y [e])
    (hs : ∀ (d : Nat) (w h x y : K) (l1 l2 l3 l4 : List (Leaf K)),
      P d (w / 2) (h / 2) (x + w / 4) (y + h / 4) l1 →
      P d (w / 2) (h / 2) (x + w / 4) (y - h / 4) l2 →
      P d (w / 2) (h / 2) (x - w / 4) (y + h / 4) l3 →
      P d (w / 2) (h / 2) (x - w / 4) (y - h / 4) l4 →
      P (d + 1) w h x y (l1 ++ l2 ++ l3 ++ l4)) :
    ∀ (d : Nat) (w h x y : K) (st : State K) (c : Color K) (st' : State K)
      (ls : List (Leaf K)),
      avg_color env rs fuel rp d w h x y st = .ok (c, st', ls) → P d w h x y ls := by
  intro d
  induction d with
  | zero =>
    intro w h x y st c st' ls hr
    obtain ⟨e, rfl, hx, hy⟩ := avg_color_zero_leaf env rs fuel rp w h x y st c st' ls hr
    exact h0 w h x y e st.calls hx hy
  | succ d ih =>
    intro w h x y st c st' ls hr
    obtain ⟨c1, s1, l1, c2, s2, l2, c3, s3, l3, c4, l4, h1, h2, h3, h4, rfl⟩ :=
      avg_color_succ_split env rs fuel rp d w h x y st c st' ls hr
    exact hs d w h x y l1 l2 l3 l4 (ih _ _ _ _ _ _ _ _ h1) (ih _ _ _ _ _ _ _ _ h2)
      (ih _ _ _ _ _ _ _ _ h3) (ih _ _ _ _ _ _ _ _ h4)

/-- The quotient `(double) rand() / RAND_MAX` is at most 1 for a draw within
`[0, RAND_MAX]`. -/
theorem frand_le_one (env : Env K) (rs : Nat → Nat) (i : Nat) (h : rs i ≤ env.RAND_MAX) :
    frand env rs i ≤ 1 := by
  unfold frand
  by_cases hz : (env.RAND_MAX : K) = 0
  · rw [hz, div_zero]
    exact zero_le_one
  · have hpos : (0 : K) < (env.RAND_MAX : K) :=
      lt_of_le_of_ne (Nat.cast_nonneg _) (Ne.symm hz)
    rw [div_le_one hpos]
    exact_mod_cast h

/-- Every sample coordinate of a run of `avg_color` lies in the footprint. -/
theorem avg_color_contained [FloorRing K] (env : Env K) (rs : Nat → Nat) (fuel : Nat)
    (rp : Int) (hrs : ∀ i, rs i ≤ env.RAND_MAX) :
    ∀ (d : Nat) (w h x y : K) (st : State K) (c : Color K) (st' : State K)
      (ls : List (Leaf K)),
      avg_color env rs fuel rp d w h x y st = .ok (c, st', ls) → 0 ≤ w → 0 ≤ h →
      ∀ e ∈ ls, x - w / 2 ≤ e.x ∧ e.x ≤ x + w / 2 ∧ y - h / 2 ≤ e.y ∧ e.y ≤ y + h / 2 := by
  refine avg_color_leaves_induct env rs fuel rp
    (fun _ w h x y ls => 0 ≤ w → 0 ≤ h →
      ∀ e ∈ ls, x - w / 2 ≤ e.x ∧ e.x ≤ x + w / 2 ∧ y - h / 2 ≤ e.y ∧ e.y ≤ y + h / 2) ?_ ?_
  · intro w h x y e i hx hy hw hh e' he'
    rw [List.mem_singleton] at he'
    subst he'
    rw [hx, hy]
    have a0 := mul_nonneg (frand_nonneg env rs i) hw
    have a1 := mul_le_of_le_one_left hw (frand_le_one env rs i (hrs i))
    have b0 := mul_nonneg (frand_nonneg env rs (i + 1)) hh
    have b1 := mul_le_of_le_one_left hh (frand_le_one env rs (i + 1) (hrs (i + 1)))
    split_ifs
    · refine ⟨?_, ?_, ?_, ?_⟩ <;> linarith
    · refine ⟨?_, ?_, ?_, ?_⟩ <;> linarith
  · intro d w h x y l1 l2 l3 l4 p1 p2 p3 p4 hw hh e he
    have hw2 : 0 ≤ w / 2 := by linarith
    have hh2 : 0 ≤ h / 2 := by linarith
    simp only [List.mem_append] at he
    rcases he with ((he | he) | he) | he
    · obtain ⟨a, b, c, d'⟩ := p1 hw2 hh2 e he
      refine ⟨?_, ?_, ?_, ?_⟩ <;> linarith
    · obtain ⟨a, b, c, d'⟩ := p2 hw2 hh2 e he
      refine ⟨?_, ?_, ?_, ?_⟩ <;> linarith
    · obtain ⟨a, b, c, d'⟩ := p3 hw2 hh2 e he
      refine ⟨?_, ?_, ?_, ?_⟩ <;> linarith
    · obtain ⟨a, b, c, d'⟩ := p4 hw2 hh2 e he
      refine ⟨?_, ?_, ?_, ?_⟩ <;> linarith

/-- The only cell centre at depth zero is the centre of the interval. -/
theorem grid_centre_zero (c w : K) : grid_centre c w 0 0 = c := by
  unfold grid_centre
  norm_num

/-- The cell centres of the upper half of an interval. -/
theorem grid_centre_hi (c w : K) (d i : Nat) :
    grid_centre (c + w / 4) (w / 2) d i = grid_centre c w (d + 1) (i + 2 ^ d) := by
  unfold grid_centre
  have hp : ((2 : K) ^ d) ≠ 0 := pow_ne_zero _ (by norm_num)
  push_cast
  rw [pow_succ, pow_succ]
  field_simp
  ring

/-- The cell centres of the lower half of an interval. -/
theorem grid_centre_lo (c w : K) (d i : Nat) :
    grid_centre (c - w / 4) (w / 2) d i = grid_centre c w (d + 1) i := by
  unfold grid_centre
  have hp : ((2 : K) ^ d) ≠ 0 := pow_ne_zero _ (by norm_num)
  rw [pow_succ, pow_succ]
  field_simp
  ring

/-- Without jitter every leaf of a run of `avg_color` is a node of the grid. -/
theorem avg_color_on_grid [FloorRing K] (env : Env K) (rs : Nat → Nat) (fuel : Nat)
    (rp : Int) (hrp : rp ≤ 1) :
    ∀ (d : Nat) (w h x y : K) (st : State K) (c : Color K) (st' : State K)
      (ls : List (Leaf K)),
      avg_color env rs fuel rp d w h x y st = .ok (c, st', ls) →
      ∀ e ∈ ls, ∃ i j, i < 2 ^ d ∧ j < 2 ^ d ∧
        e.x = grid_centre x w d i ∧ e.y = grid_centre y h d j := by
  have hn : ¬ rp > 1 := not_lt.mpr hrp
  refine avg_color_leaves_induct env rs fuel rp
    (fun d w h x y ls => ∀ e ∈ ls, ∃ i j, i < 2 ^ d ∧ j < 2 ^ d ∧
        e.x = grid_centre x w d i ∧ e.y = grid_centre y h d j) ?_ ?_
  · intro w h x y e i hx hy e' he'
    rw [List.mem_singleton] at he'
    subst he'
    rw [if_neg hn] at hx hy
    exact ⟨0, 0, Nat.one_pos, Nat.one_pos, by rw [grid_centre_zero, hx],
      by rw [grid_centre_zero, hy]⟩
  · intro d w h x y l1 l2 l3 l4 p1 p2 p3 p4 e he
    have hlt : ∀ i, i < 2 ^ d → i + 2 ^ d < 2 ^ (d + 1) := fun i hi => by
      rw [pow_succ]; omega
    have hlt' : ∀ i, i < 2 ^ d → i < 2 ^ (d + 1) := fun i hi => by
      rw [pow_succ]; omega
    simp only [List.mem_append] at he
    rcases he with ((he | he) | he) | he
    · obtain ⟨i, j, hi, hj, ex, ey⟩ := p1 e he
      exact ⟨i + 2 ^ d, j + 2 ^ d, hlt i hi, hlt j hj, by rw [ex, grid_centre_hi],
        by rw [ey, grid_centre_hi]⟩
    · obtain ⟨i, j, hi, hj, ex, ey⟩ := p2 e he
      exact ⟨i + 2 ^ d, j, hlt i hi, hlt' j hj, by rw [ex, grid_centre_hi],
        by rw [ey, grid_centre_lo]⟩
    · obtain ⟨i, j, hi, hj, ex, ey⟩ := p3 e he
      exact ⟨i, j + 2 ^ d, hlt' i hi, hlt j hj, by rw [ex, grid_centre_lo],
        by rw [ey, grid_centre_hi]⟩
    · obtain ⟨i, j, hi, hj, ex, ey⟩ := p4 e he
      exact ⟨i, j, hlt' i hi, hlt' j hj, by rw [ex, grid_centre_lo],
        by rw [ey, grid_centre_lo]⟩

/-- Without jitter every node of the grid is a leaf of the run of `avg_color`. -/
theorem avg_color_grid_full [FloorRing K] (env : Env K) (rs : Nat → Nat) (fuel : Nat)
    (rp : Int) (hrp : rp ≤ 1) :
    ∀ (d : Nat) (w h x y : K) (st : State K) (c : Color K) (st' : State K)
      (ls : List (Leaf K)),
      avg_color env rs fuel rp d w h x y st = .ok (c, st', ls) →
      ∀ i j, i < 2 ^ d → j < 2 ^ d →
        ∃ e ∈ ls, e.x = grid_centre x w d i ∧ e.y = grid_centre y h d j := by
  have hn : ¬ rp > 1 := not_lt.mpr hrp
  refine avg_color_leaves_induct env rs fuel rp
    (fun d w h x y ls => ∀ i j, i < 2 ^ d → j < 2 ^ d →
        ∃ e ∈ ls, e.x = grid_centre x w d i ∧ e.y = grid_centre y h d j) ?_ ?_
  · intro w h x y e k hx hy i j hi hj
    rw [if_neg hn] at hx hy
    have hi0 : i = 0 := by simpa using hi
    have hj0 : j = 0 := by simpa using hj
    subst hi0 hj0
    exact ⟨e, List.mem_singleton_self e, by rw [grid_centre_zero, hx],
      by rw [grid_centre_zero, hy]⟩
  · intro d w h x y l1 l2 l3 l4 p1 p2 p3 p4 i j hi hj
    rw [pow_succ] at hi hj
    by_cases hi' : i < 2 ^ d
    · by_cases hj' : j < 2 ^ d
      · obtain ⟨e, he, ex, ey⟩ := p4 i j hi' hj'
        refine ⟨e, ?_, by rw [ex, grid_centre_lo], by rw [ey, grid_centre_lo]⟩
        simp only [List.mem_append]
        exact Or.inr he
      · obtain ⟨e, he, ex, ey⟩ := p3 i (j - 2 ^ d) hi' (by omega)
        have ej : j - 2 ^ d + 2 ^ d = j := by omega
        refine ⟨e, ?_, by rw [ex, grid_centre_lo], by rw [ey, grid_centre_hi, ej]⟩
        simp only [List.mem_append]
        exact Or.inl (Or.inr he)
    · have ei : i - 2 ^ d + 2 ^ d = i := by omega
      by_cases hj' : j < 2 ^ d
      · obtain ⟨e, he, ex, ey⟩ := p2 (i - 2 ^ d) j (by omega) hj'
        refine ⟨e, ?_, by rw [ex, grid_centre_hi, ei], by rw [ey, grid_centre_lo]⟩
        simp only [List.mem_append]
        exact Or.inl (Or.inl (Or.inr he))
      · obtain ⟨e, he, ex, ey⟩ := p1 (i - 2 ^ d) (j - 2 ^ d) (by omega) (by omega)
        have ej : j - 2 ^ d + 2 ^ d = j := by omega
        refine ⟨e, ?_, by rw [ex, grid_centre_hi, ei], by rw [ey, grid_centre_hi, ej]⟩
        simp only [List.mem_append]
        exact Or.inl (Or.inl (Or.inl he))

/-- The cell size of a quadrant at depth `d` is that of the whole at depth
`d + 1`. -/
theorem cell_half (w : K) (d : Nat) : w / 2 / 2 ^ d = w / 2 ^ (d + 1) := by
  rw [pow_succ, div_div, mul_comm]

/-- Without jitter the closed leaf footprints of a run of `avg_color` cover the
footprint. -/
theorem avg_color_cover [FloorRing K] (env : Env K) (rs : Nat → Nat) (fuel : Nat)
    (rp : Int) (hrp : rp ≤ 1) :
    ∀ (d : Nat) (w h x y : K) (st : State K) (c : Color K) (st' : State K)
      (ls : List (Leaf K)),
      avg_color env rs fuel rp d w h x y st = .ok (c, st', ls) →
      ∀ u v, x - w / 2 ≤ u → u ≤ x + w / 2 → y - h / 2 ≤ v → v ≤ y + h / 2 →
        ∃ e ∈ ls, e.covers (w / 2 ^ d) (h / 2 ^ d) u v := by
  have hn : ¬ rp > 1 := not_lt.mpr hrp
  refine avg_color_leaves_induct env rs fuel rp
    (fun d w h x y ls => ∀ u v, x - w / 2 ≤ u → u ≤ x + w / 2 → y - h / 2 ≤ v →
      v ≤ y + h / 2 → ∃ e ∈ ls, e.covers (w / 2 ^ d) (h / 2 ^ d) u v) ?_ ?_
  · intro w h x y e k hx hy u v hu1 hu2 hv1 hv2
    rw [if_neg hn] at hx hy
    refine ⟨e, List.mem_singleton_self e, ?_, ?_⟩
    · rw [hx, pow_zero, div_one, abs_le]
      constructor <;> linarith
    · rw [hy, pow_zero, div_one, abs_le]
      constructor <;> linarith
  · intro d w h x y l1 l2 l3 l4 p1 p2 p3 p4 u v hu1 hu2 hv1 hv2
    simp only [← cell_half w d, ← cell_half h d, List.mem_append]
    rcases le_total x u with hxu | hxu
    · rcases le_total y v with hyv | hyv
      · obtain ⟨e, he, hc⟩ := p1 u v (by linarith) (by linarith) (by linarith) (by linarith)
        exact ⟨e, Or.inl (Or.inl (Or.inl he)), hc⟩
      · obtain ⟨e, he, hc⟩ := p2 u v (by linarith) (by linarith) (by linarith) (by linarith)
        exact ⟨e, Or.inl (Or.inl (Or.inr he)), hc⟩
    · rcases le_total y v with hyv | hyv
      · obtain ⟨e, he, hc⟩ := p3 u v (by linarith) (by linarith) (by linarith) (by linarith)
        exact ⟨e, Or.inl (Or.inr he), hc⟩
      · obtain ⟨e, he, hc⟩ := p4 u v (by linarith) (by linarith) (by linarith) (by linarith)
        exact ⟨e, Or.inr he, hc⟩

/-- Leaves whose closed footprints lie in boxes that meet at most in their
boundary have open footprints without a common point: the case where a
vertical line separates the boxes. -/
theorem Leaf.no_overlap_x (wc hc m : K) (e e' : Leaf K) (h1 : m ≤ e.x - wc / 2)
    (h2 : e'.x + wc / 2 ≤ m) : ¬ Leaf.overlap wc hc e e' ∧ ¬ Leaf.overlap wc hc e' e := by
  constructor
  · rintro ⟨u, v, a, _, b, _⟩
    rw [abs_lt] at a b
    linarith [a.1, b.2]
  · rintro ⟨u, v, a, _, b, _⟩
    rw [abs_lt] at a b
    linarith [a.2, b.1]

/-- The case where a horizontal line separates the boxes. -/
theorem Leaf.no_overlap_y (wc hc m : K) (e e' : Leaf K) (h1 : m ≤ e.y - hc / 2)
    (h2 : e'.y + hc / 2 ≤ m) : ¬ Leaf.overlap wc hc e e' ∧ ¬ Leaf.overlap wc hc e' e := by
  constructor
  · rintro ⟨u, v, _, a, _, b⟩
    rw [abs_lt] at a b
    linarith [a.1, b.2]
  · rintro ⟨u, v, _, a, _, b⟩
    rw [abs_lt] at a b
    linarith [a.2, b.1]

/-- Without jitter the closed leaf footprints of a run of `avg_color` lie in
the footprint and the open leaf footprints are pairwise without a common
point. -/
theorem avg_color_disjoint [FloorRing K] (env : Env K) (rs : Nat → Nat) (fuel : Nat)
    (rp : Int) (hrp : rp ≤ 1) :
    ∀ (d : Nat) (w h x y : K) (st : State K) (c : Color K) (st' : State K)
      (ls : List (Leaf K)),
      avg_color env rs fuel rp d w h x y st = .ok (c, st', ls) → 0 ≤ w → 0 ≤ h →
      (∀ e ∈ ls, x - w / 2 ≤ e.x - w / 2 ^ d / 2 ∧ e.x + w / 2 ^ d / 2 ≤ x + w / 2 ∧
        y - h / 2 ≤ e.y - h / 2 ^ d / 2 ∧ e.y + h / 2 ^ d / 2 ≤ y + h / 2) ∧
      ls.Pairwise (fun e e' => ¬ Leaf.overlap (w / 2 ^ d) (h / 2 ^ d) e e') := by
  have hn : ¬ rp > 1 := not_lt.mpr hrp
  refine avg_color_leaves_induct env rs fuel rp
    (fun d w h x y ls => 0 ≤ w → 0 ≤ h →
      (∀ e ∈ ls, x - w / 2 ≤ e.x - w / 2 ^ d / 2 ∧ e.x + w / 2 ^ d / 2 ≤ x + w / 2 ∧
        y - h / 2 ≤ e.y - h / 2 ^ d / 2 ∧ e.y + h / 2 ^ d / 2 ≤ y + h / 2) ∧
      ls.Pairwise (fun e e' => ¬ Leaf.overlap (w / 2 ^ d) (h / 2 ^ d) e e')) ?_ ?_
  · intro w h x y e k hx hy _ _
    rw [if_neg hn] at hx hy
    refine ⟨fun e' he' => ?_, List.pairwise_singleton _ _⟩
    rw [List.mem_singleton] at he'
    subst he'
    rw [hx, hy, pow_zero, div_one, div_one]
    exact ⟨le_refl _, le_refl _, le_refl _, le_refl _⟩
  · intro d w h x y l1 l2 l3 l4 p1 p2 p3 p4 hw hh
    have hw2 : 0 ≤ w / 2 := by linarith
    have hh2 : 0 ≤ h / 2 := by linarith
    obtain ⟨b1, q1⟩ := p1 hw2 hh2
    obtain ⟨b2, q2⟩ := p2 hw2 hh2
    obtain ⟨b3, q3⟩ := p3 hw2 hh2
    obtain ⟨b4, q4⟩ := p4 hw2 hh2
    simp only [cell_half] at b1 b2 b3 b4 q1 q2 q3 q4
    refine ⟨fun e he => ?_, ?_⟩
    · simp only [List.mem_append] at he
      rcases he with ((he | he) | he) | he
      · obtain ⟨a, b, c, d'⟩ := b1 e he
        exact ⟨by linarith only [a, hw], by linarith only [b, hw], by linarith only [c, hh],
          by linarith only [d', hh]⟩
      · obtain ⟨a, b, c, d'⟩ := b2 e he
        exact ⟨by linarith only [a, hw], by linarith only [b, hw], by linarith only [c, hh],
          by linarith only [d', hh]⟩
      · obtain ⟨a, b, c, d'⟩ := b3 e he
        exact ⟨by linarith only [a, hw], by linarith only [b, hw], by linarith only [c, hh],
          by linarith only [d', hh]⟩
      · obtain ⟨a, b, c, d'⟩ := b4 e he
        exact ⟨by linarith only [a, hw], by linarith only [b, hw], by linarith only [c, hh],
          by linarith only [d', hh]⟩
    · rw [List.pairwise_append, List.pairwise_append, List.pairwise_append]
      refine ⟨⟨⟨q1, q2, ?_⟩, q3, ?_⟩, q4, ?_⟩
      · intro e he e' he'
        obtain ⟨_, _, c, _⟩ := b1 e he
        obtain ⟨_, _, _, d'⟩ := b2 e' he'
        exact (Leaf.no_overlap_y (w / 2 ^ (d + 1)) (h / 2 ^ (d + 1)) y e e'
          (by linarith only [c]) (by linarith only [d'])).1
      · intro e he e' he'
        obtain ⟨_, b', _, _⟩ := b3 e' he'
        simp only [List.mem_append] at he
        rcases he with he | he
        · obtain ⟨a, _, _, _⟩ := b1 e he
          exact (Leaf.no_overlap_x (w / 2 ^ (d + 1)) (h / 2 ^ (d + 1)) x e e'
            (by linarith only [a]) (by linarith only [b'])).1
        · obtain ⟨a, _, _, _⟩ := b2 e he
          exact (Leaf.no_overlap_x (w / 2 ^ (d + 1)) (h / 2 ^ (d + 1)) x e e'
            (by linarith only [a]) (by linarith only [b'])).1
      · intro e he e' he'
        obtain ⟨_, b', _, d'⟩ := b4 e' he'
        simp only [List.mem_append] at he
        rcases he with (he | he) | he
        · obtain ⟨a, _, _, _⟩ := b1 e he
          exact (Leaf.no_overlap_x (w / 2 ^ (d + 1)) (h / 2 ^ (d + 1)) x e e'
            (by linarith only [a]) (by linarith only [b'])).1
        · obtain ⟨a, _, _, _⟩ := b2 e he
          exact (Leaf.no_overlap_x (w / 2 ^ (d + 1)) (h / 2 ^ (d + 1)) x e e'
            (by linarith only [a]) (by linarith only [b'])).1
        · obtain ⟨_, _, c, _⟩ := b3 e he
          exact (Leaf.no_overlap_y (w / 2 ^ (d + 1)) (h / 2 ^ (d + 1)) y e e'
            (by linarith only [c]) (by linarith only [d'])).1

/-- Without jitter and with a footprint of positive size the leaf centres of a
run of `avg_color` are pairwise distinct. -/
theorem avg_color_distinct [FloorRing K] (env : Env K) (rs : Nat → Nat) (fuel : Nat)
    (rp : Int) (hrp : rp ≤ 1) (d : Nat) (w h x y : K) (st : State K) (c : Color K)
    (st' : State K) (ls : List (Leaf K))
    (hr : avg_color env rs fuel rp d w h x y st = .ok (c, st', ls)) (hw : 0 < w) (hh : 0 < h) :
    ls.Pairwise (fun e e' => ¬ (e.x = e'.x ∧ e.y = e'.y)) := by
  have hp : (0 : K) < 2 ^ d := pow_pos (by norm_num) d
  have hwc : 0 < w / 2 ^ d / 2 := by positivity
  have hhc : 0 < h / 2 ^ d / 2 := by positivity
  refine (avg_color_disjoint env rs fuel rp hrp d w h x y st c st' ls hr (le_of_lt hw)
    (le_of_lt hh)).2.imp ?_
  intro e e' hno heq
  apply hno
  refine ⟨e.x, e.y, ?_, ?_, ?_, ?_⟩
  · rw [sub_self, abs_zero]; exact hwc
  · rw [sub_self, abs_zero]; exact hhc
  · rw [heq.1, sub_self, abs_zero]; exact hwc
  · rw [heq.2, sub_self, abs_zero]; exact hhc

/-! ### Runs through an object that reflects nothing -/

/-- The face loop of `Mesh::intersection` for a mesh of one triangle that is
not hit. -/
theorem Mesh.intersection_single_miss (env : Env K) (self : Nat) (bbox : BBox K) (f : Face K)
    (ray : Ray K) (hU : env.USE_BBOX = false) (hh : ¬ tri_hits env f ray) :
    Mesh.intersection env self false bbox ⟨.MESH_PRIM_TRI, [f]⟩ ray = none := by
  have hstep : Mesh.intersection_step env .MESH_PRIM_TRI ray (false, IntInfo.init) f =
      (false, IntInfo.init) := by
    unfold Mesh.intersection_step
    simp only [face_intersection, tri_intersection_none_of_not_hits env f ray hh]
  unfold Mesh.intersection
  simp only [hU, Bool.false_and, Bool.false_eq_true, if_false, List.foldl_cons, List.foldl_nil,
    hstep, Bool.not_false, if_true]

/-- With `kd = ks = 0` an iteration of the light loop leaves the colour
unchanged. -/
theorem shade_light_dark [FloorRing K] (env : Env K) (rs : Nat → Nat) (fuel : Nat)
    (p n v : Vector3 K) (mat : Material K) (color : Color K) (st : State K) (light : Nat)
    (lobj : Object K) (smp : Vector3 K) (calls : Nat)
    (hkd : mat.kd = ⟨0, 0, 0⟩) (hks : mat.ks = ⟨0, 0, 0⟩)
    (hl : (st.scene.set_ignore light true).heap[light]? = some lobj)
    (hs : lobj.sample env rs fuel st.calls = .ok (smp, calls)) :
    shade_light env rs fuel p n v mat (.ok (color, st)) light =
      .ok (color, ⟨calls, Scene.set_ignore
        ((st.scene.set_ignore light true).intersection env ⟨p, smp.sub p⟩).2 light false⟩) := by
  obtain ⟨c', hc'⟩ := shade_light_returns env rs fuel p n v mat color st light lobj smp calls hl hs
  obtain ⟨lobj', smp', calls', hl', hs', -, hcol⟩ :=
    shade_light_ok env rs fuel p n v mat color st light c' _ hc'
  have hc : c' = color := by
    rcases hcol with h | ⟨d, lr, -, -, h⟩
    · exact h
    · rw [h, hkd, hks]
      apply Vector3.eq_of_components <;>
        simp [Vector3.add, Vector3.smul, Vector3.mul]
  rw [hc'] 
  rw [hc]

/-- When the single light of the scene can be sampled and the hit object has
`kd = ks = 0`, `trace` returns `ambient * kd + ke` of the hit object. -/
theorem trace_single_light_dark [FloorRing K] (env : Env K) (rs : Nat → Nat) (fuel d : Nat)
    (ray : Ray K) (st : State K) (info : IntInfo K) (sc' : Scene K) (obj lobj : Object K)
    (l : Nat) (smp : Vector3 K) (calls : Nat)
    (hq : st.scene.intersection env ray = (some info, sc'))
    (hobj : info.object.bind (fun i => sc'.heap[i]?) = some obj)
    (hl : sc'.lights = [l])
    (hlo : (sc'.set_ignore l true).heap[l]? = some lobj)
    (hs : lobj.sample env rs fuel st.calls = .ok (smp, calls))
    (hkd : obj.material.kd = ⟨0, 0, 0⟩) (hks : obj.material.ks = ⟨0, 0, 0⟩) :
    trace env rs fuel (d + 1) ray st =
      .ok ((sc'.ambient.mul obj.material.kd).add obj.material.ke,
        ⟨calls + 1, Scene.set_ignore
          ((sc'.set_ignore l true).intersection env
            ⟨info.i_point, smp.sub info.i_point⟩).2 l false⟩) := by
  have hd : avg_diff obj.material = 0 := by
    unfold avg_diff
    rw [hkd]
    norm_num
  have hsp : avg_spec obj.material = 0 := by
    unfold avg_spec
    rw [hks]
    norm_num
  rw [trace_succ_hit env rs fuel d ray st info sc' hq, shade_factor,
    shade_prepare_obj env rs fuel ray info ⟨st.calls, sc'⟩ obj hobj,
    shade_lights_single env rs fuel ray info obj.material ⟨st.calls, sc'⟩ l hl,
    shade_light_dark env rs fuel _ _ _ obj.material _ ⟨st.calls, sc'⟩ l lobj smp calls hkd hks
      hlo hs]
  simp only []
  rw [shade_roulette_stop env rs fuel ray _ _ obj.material _ _ hd hsp]
  rfl

/-- The leaf of `avg_color` without jitter. -/
theorem avg_color_leaf_plain [FloorRing K] (env : Env K) (rs : Nat → Nat) (fuel : Nat)
    (rp : Int) (hrp : ¬ rp > 1) (w h x y : K) (st : State K) (c : Color K) (st' : State K)
    (ht : trace env rs fuel env.MAX_DEPTH (env.get_primary_ray x y) st = .ok (c, st')) :
    avg_color env rs fuel rp 0 w h x y st = .ok (clamp1 c, st', [⟨x, y, c⟩]) := by
  rw [avg_color]
  unfold avg_color_leaf
  simp only [if_neg hrp, ht]

/-- A run of `avg_color` at depth `d + 1` from its four quadrant runs. -/
theorem avg_color_succ_of_quadrants [FloorRing K] (env : Env K) (rs : Nat → Nat) (fuel : Nat)
    (rp : Int) (d : Nat) (w h x y : K) (st s1 s2 s3 s4 : State K) (c1 c2 c3 c4 : Color K)
    (l1 l2 l3 l4 : List (Leaf K))
    (h1 : avg_color env rs fuel rp d (w / 2) (h / 2) (x + w / 4) (y + h / 4) st =
      .ok (c1, s1, l1))
    (h2 : avg_color env rs fuel rp d (w / 2) (h / 2) (x + w / 4) (y - h / 4) s1 =
      .ok (c2, s2, l2))
    (h3 : avg_color env rs fuel rp d (w / 2) (h / 2) (x - w / 4) (y + h / 4) s2 =
      .ok (c3, s3, l3))
    (h4 : avg_color env rs fuel rp d (w / 2) (h / 2) (x - w / 4) (y - h / 4) s3 =
      .ok (c4, s4, l4)) :
    avg_color env rs fuel rp (d + 1) w h x y st =
      .ok (((((Vector3.zero.add c1).add c2).add c3).add c4).sdiv 4, s4, l1 ++ l2 ++ l3 ++ l4) := by
  rw [avg_color]
  simp only [h1, h2, h3, h4]

/-- A run of `avg_color` at depth `d + 1` that returns: its four quadrant runs
returned, one after the other, its colour is a quarter of the sum of theirs and
its leaves are theirs. -/
theorem avg_color_succ_mean [FloorRing K] (env : Env K) (rs : Nat → Nat) (fuel : Nat)
    (rp : Int) (d : Nat) (w h x y : K) (st : State K) (c : Color K) (st' : State K)
    (ls : List (Leaf K)) (hr : avg_color env rs fuel rp (d + 1) w h x y st = .ok (c, st', ls)) :
    ∃ c1 s1 l1 c2 s2 l2 c3 s3 l3 c4 l4,
      avg_color env rs fuel rp d (w / 2) (h / 2) (x + w / 4) (y + h / 4) st = .ok (c1, s1, l1) ∧
      avg_color env rs fuel rp d (w / 2) (h / 2) (x + w / 4) (y - h / 4) s1 = .ok (c2, s2, l2) ∧
      avg_color env rs fuel rp d (w / 2) (h / 2) (x - w / 4) (y + h / 4) s2 = .ok (c3, s3, l3) ∧
      avg_color env rs fuel rp d (w / 2) (h / 2) (x - w / 4) (y - h / 4) s3 = .ok (c4, st', l4) ∧
      c = ⟨(c1.x + c2.x + c3.x + c4.x) / 4, (c1.y + c2.y + c3.y + c4.y) / 4,
        (c1.z + c2.z + c3.z + c4.z) / 4⟩ ∧
      ls = l1 ++ l2 ++ l3 ++ l4 := by
  obtain ⟨c1, s1, l1, c2, s2, l2, c3, s3, l3, c4, l4, h1, h2, h3, h4, hl⟩ :=
    avg_color_succ_split env rs fuel rp d w h x y st c st' ls hr
  refine ⟨c1, s1, l1, c2, s2, l2, c3, s3, l3, c4, l4, h1, h2, h3, h4, ?_, hl⟩
  rw [avg_color_succ_of_quadrants env rs fuel rp d w h x y st s1 s2 s3 st' c1 c2 c3 c4
    l1 l2 l3 l4 h1 h2 h3 h4] at hr
  simp only [Except.ok.injEq, Prod.mk.injEq] at hr
  rw [← hr.1]
  apply Vector3.eq_of_components <;>
    simp [Vector3.sdiv, Vector3.add, Vector3.zero]

/-- A run of `avg_color` at depth zero that returns: the one leaf is the result
of `trace(ray, MAX_DEPTH)` on the primary ray through the (jittered) centre,
started after the draws of the jitter, and the colour is that result clamped. -/
theorem avg_color_zero_exact [FloorRing K] (env : Env K) (rs : Nat → Nat) (fuel : Nat)
    (rp : Int) (w h x y : K) (st : State K) (c : Color K) (st' : State K) (ls : List (Leaf K))
    (hr : avg_color env rs fuel rp 0 w h x y st = .ok (c, st', ls)) :
    ∃ e : Leaf K, ls = [e] ∧ c = ⟨min e.traced.x 1, min e.traced.y 1, min e.traced.z 1⟩ ∧
      e.x = (if rp > 1 then x + (frand env rs st.calls * w - w / 2) else x) ∧
      e.y = (if rp > 1 then y + (frand env rs (st.calls + 1) * h - h / 2) else y) ∧
      trace env rs fuel env.MAX_DEPTH (env.get_primary_ray e.x e.y)
        (if rp > 1 then ⟨st.calls + 2, st.scene⟩ else st) = .ok (e.traced, st') := by
  rw [avg_color] at hr
  unfold avg_color_leaf at hr
  simp only [] at hr
  split at hr
  · cases hr
  · rename_i c0 st0 heq
    simp only [Except.ok.injEq, Prod.mk.injEq] at hr
    obtain ⟨h1, h2, h3⟩ := hr
    subst h1 h2 h3
    exact ⟨_, rfl, clamp1_eq_min _, rfl, rfl, heq⟩

/-! ### Runs on `brightScene` -/

/-- On a scene whose index is built and holds one mesh of one triangle, `trace`
returns black for a ray that misses the triangle, and leaves the state as it
is. -/
theorem trace_built_single_miss [FloorRing K] (env : Env K) (rs : Nat → Nat) (fuel d : Nat)
    (ray : Ray K) (st : State K) (box bb : BBox K) (mat : Material K) (f : Face K)
    (hU : env.USE_BBOX = false) (hb : env.bbox_intersection box ray = true)
    (hroot : st.scene.bbroot = some ⟨box, [0]⟩)
    (hheap : st.scene.heap = [⟨false, mat, bb, .mesh ⟨.MESH_PRIM_TRI, [f]⟩⟩])
    (hh : ¬ tri_hits env f ray) :
    trace env rs fuel (d + 1) ray st = .ok (Vector3.zero, st) := by
  have hm : Object.intersection env 0 ⟨false, mat, bb, .mesh ⟨.MESH_PRIM_TRI, [f]⟩⟩ ray = none :=
    Mesh.intersection_single_miss env 0 bb f ray hU hh
  have hq : st.scene.intersection env ray = (none, st.scene) := by
    rw [Scene.intersection_built env st.scene ray _ hroot, hheap,
      BBoxNode.intersection_one_member env _ box ray hb, hm]
  exact trace_succ_miss env rs fuel d ray st st.scene hq

/-- The object store of `brightBuilt`. -/
theorem brightBuilt_heap :
    brightBuilt.heap = [⟨false, brightTri.material, Mesh.calc_bbox ⟨.MESH_PRIM_TRI, [deepTri]⟩,
      .mesh ⟨.MESH_PRIM_TRI, [deepTri]⟩⟩] := rfl

/-- The primary ray through `(1/2, 1/2)` hits `deepTri`. -/
theorem deepTri_hit :
    tri_hits envQ deepTri (envQ.get_primary_ray (0 + 2 / 4) (0 + 2 / 4)) := by
  simp [tri_hits, deepTri, vtx, envQ, plane_t, dot, bc_sum, bary_coords, bary_area,
    cross, Vector3.sub, Vector3.add, Vector3.smul, Ray.at, TINY, Vector3.zero]
  norm_num [abs_div]

/-- The primary rays through the other three quadrant centres miss `deepTri`. -/
theorem deepTri_miss :
    ¬ tri_hits envQ deepTri (envQ.get_primary_ray (0 + 2 / 4) (0 - 2 / 4)) ∧
      ¬ tri_hits envQ deepTri (envQ.get_primary_ray (0 - 2 / 4) (0 + 2 / 4)) ∧
      ¬ tri_hits envQ deepTri (envQ.get_primary_ray (0 - 2 / 4) (0 - 2 / 4)) := by
  refine ⟨?_, ?_, ?_⟩ <;>
  · simp [tri_hits, deepTri, vtx, envQ, plane_t, dot, bc_sum, bary_coords, bary_area,
      cross, Vector3.sub, Vector3.add, Vector3.smul, Ray.at, TINY, Vector3.zero]
    norm_num [abs_div]

/-- The first leaf of the run on `brightState`: the primary ray through
`(1/2, 1/2)` hits `brightTri`, whose emission `(2, 2, 2)` is returned. -/
theorem bright_trace_hit :
    trace envQ (fun _ => 0) 1 envQ.MAX_DEPTH (envQ.get_primary_ray (0 + 2 / 4) (0 + 2 / 4))
      brightState = .ok (⟨2, 2, 2⟩, ⟨5, brightBuilt⟩) := by
  have hhit : Object.intersection envQ 0
      ⟨false, brightTri.material, Mesh.calc_bbox ⟨.MESH_PRIM_TRI, [deepTri]⟩,
        .mesh ⟨.MESH_PRIM_TRI, [deepTri]⟩⟩ (envQ.get_primary_ray (0 + 2 / 4) (0 + 2 / 4)) =
      some { tri_info envQ deepTri (envQ.get_primary_ray (0 + 2 / 4) (0 + 2 / 4)) with
        object := some 0 } :=
    Mesh.intersection_single envQ 0 _ deepTri _ rfl deepTri_hit
  have hroot : brightBuilt.bbroot =
      some ⟨⟨(⟨envQ.RAY_MAG, envQ.RAY_MAG, envQ.RAY_MAG⟩ : Vector3 ℚ).neg,
        ⟨envQ.RAY_MAG, envQ.RAY_MAG, envQ.RAY_MAG⟩⟩, [0]⟩ := rfl
  have hq : brightState.scene.intersection envQ (envQ.get_primary_ray (0 + 2 / 4) (0 + 2 / 4)) =
      (some { tri_info envQ deepTri (envQ.get_primary_ray (0 + 2 / 4) (0 + 2 / 4)) with
        object := some 0 }, brightBuilt) := by
    show brightScene.intersection envQ _ = _
    rw [Scene.intersection_unbuilt envQ brightScene _ rfl]
    show brightBuilt.intersection envQ _ = _
    rw [Scene.intersection_built envQ brightBuilt _ _ hroot, brightBuilt_heap,
      BBoxNode.intersection_one_member envQ _ _ _ rfl, hhit]
  have ht := trace_single_light_dark envQ (fun _ => 0) 1 4
    (envQ.get_primary_ray (0 + 2 / 4) (0 + 2 / 4)) brightState _ brightBuilt
    ⟨false, brightTri.material, Mesh.calc_bbox ⟨.MESH_PRIM_TRI, [deepTri]⟩,
      .mesh ⟨.MESH_PRIM_TRI, [deepTri]⟩⟩
    ⟨true, brightTri.material, Mesh.calc_bbox ⟨.MESH_PRIM_TRI, [deepTri]⟩,
      .mesh ⟨.MESH_PRIM_TRI, [deepTri]⟩⟩ 0 _ _ hq rfl rfl rfl
    (Object.sample_single_tri_zero envQ 0 _ _ _ _ _) rfl rfl
  have hsc : ∀ r : Ray ℚ, Scene.set_ignore
      ((brightBuilt.set_ignore 0 true).intersection envQ r).2 0 false = brightBuilt := by
    intro r
    have hroot' : (brightBuilt.set_ignore 0 true).bbroot =
        some ⟨⟨(⟨envQ.RAY_MAG, envQ.RAY_MAG, envQ.RAY_MAG⟩ : Vector3 ℚ).neg,
          ⟨envQ.RAY_MAG, envQ.RAY_MAG, envQ.RAY_MAG⟩⟩, [0]⟩ := rfl
    rw [Scene.intersection_built envQ _ r _ hroot']
    rfl
  rw [hsc] at ht
  have hcol : ((brightBuilt.ambient.mul brightTri.material.kd).add brightTri.material.ke) =
      (⟨2, 2, 2⟩ : Color ℚ) := by
    show ((⟨0, 0, 0⟩ : Color ℚ).mul ⟨0, 0, 0⟩).add ⟨2, 2, 2⟩ = _
    apply Vector3.eq_of_components <;> norm_num [Vector3.add, Vector3.mul]
  rw [← hcol]
  exact ht

/-- The other three leaves of the run on `brightState`: the primary rays
through the other quadrant centres miss and `trace` returns black. -/
theorem bright_trace_miss (x y : ℚ)
    (hh : ¬ tri_hits envQ deepTri (envQ.get_primary_ray x y)) :
    trace envQ (fun _ => 0) 1 envQ.MAX_DEPTH (envQ.get_primary_ray x y) ⟨5, brightBuilt⟩ =
      .ok (Vector3.zero, ⟨5, brightBuilt⟩) :=
  trace_built_single_miss envQ (fun _ => 0) 1 4 (envQ.get_primary_ray x y) ⟨5, brightBuilt⟩
    _ _ brightTri.material deepTri rfl rfl rfl brightBuilt_heap hh

/-- The run of `avg_color` at depth 1 without jitter on `brightState`, for the
footprint of size `(2, 2)` centred at the origin: one leaf is `(2, 2, 2)`, which
is clamped to `(1, 1, 1)`, and three are black. -/
theorem bright_avg_color :
    avg_color envQ (fun _ => 0) 1 1 1 2 2 0 0 brightState =
      .ok (⟨1 / 4, 1 / 4, 1 / 4⟩, ⟨5, brightBuilt⟩,
        [⟨0 + 2 / 4, 0 + 2 / 4, ⟨2, 2, 2⟩⟩, ⟨0 + 2 / 4, 0 - 2 / 4, Vector3.zero⟩,
          ⟨0 - 2 / 4, 0 + 2 / 4, Vector3.zero⟩, ⟨0 - 2 / 4, 0 - 2 / 4, Vector3.zero⟩]) := by
  have hn : ¬ (1 : Int) > 1 := by decide
  rw [avg_color_succ_of_quadrants envQ (fun _ => 0) 1 1 0 2 2 0 0 brightState _ _ _ _ _ _ _ _
    _ _ _ _
    (avg_color_leaf_plain envQ _ 1 1 hn _ _ _ _ _ _ _ bright_trace_hit)
    (avg_color_leaf_plain envQ _ 1 1 hn _ _ _ _ _ _ _ (bright_trace_miss _ _ deepTri_miss.1))
    (avg_color_leaf_plain envQ _ 1 1 hn _ _ _ _ _ _ _ (bright_trace_miss _ _ deepTri_miss.2.1))
    (avg_color_leaf_plain envQ _ 1 1 hn _ _ _ _ _ _ _ (bright_trace_miss _ _ deepTri_miss.2.2))]
  have hc : ((((Vector3.zero.add (clamp1 (⟨2, 2, 2⟩ : Color ℚ))).add
      (clamp1 Vector3.zero)).add (clamp1 Vector3.zero)).add (clamp1 Vector3.zero)).sdiv 4 =
      (⟨1 / 4, 1 / 4, 1 / 4⟩ : Color ℚ) := by
    apply Vector3.eq_of_components <;>
      norm_num [Vector3.sdiv, Vector3.add, Vector3.zero, clamp1]
  rw [hc]
  rfl

/-! ### C9: the mean of the leaves -/

/-- C9: for every subdivision depth `d ≥ 0`, a run of `avg_color` that returns
performed `4 ^ d` leaf evaluations (at least one), and the colour it returns is
the unweighted arithmetic mean of their colours (their sum divided by their
number `4 ^ d`), where each leaf colour is the result of `trace(ray, MAX_DEPTH)`
on the primary ray of the leaf with every channel clamped to at most 1
(`min(c, 1)`); consequently every channel of the result is at most 1.  At depth
zero the run is one leaf: `trace` on the primary ray through the (jittered)
centre, started after the draws of the jitter, and the colour is its result
clamped.  At depth `n + 1` the run is the four runs of depth `n` on the
quadrants, one after the other, and the colour is a quarter of the sum of
theirs.  The run returns whenever the calls of `trace` do. -/
theorem avg_color_mean [FloorRing K] (env : Env K) (rs : Nat → Nat) (fuel : Nat)
    (rays_ppxl : Int) (d : Nat) (w h x y : K) (st : State K) :
    (∀ (c : Color K) (st' : State K) (ls : List (Leaf K)),
        avg_color env rs fuel rays_ppxl d w h x y st = .ok (c, st', ls) →
        ls.length = 4 ^ d ∧ ls ≠ [] ∧
          c = (Vector3.sum (ls.map
            (fun e => (⟨min e.traced.x 1, min e.traced.y 1, min e.traced.z 1⟩ : Color K)))).sdiv
              (ls.length : K) ∧
          c = (Vector3.sum (ls.map
            (fun e => (⟨min e.traced.x 1, min e.traced.y 1, min e.traced.z 1⟩ : Color K)))).sdiv
              ((4 : K) ^ d) ∧
          (∀ e ∈ ls, ∃ sa sb,
            trace env rs fuel env.MAX_DEPTH (env.get_primary_ray e.x e.y) sa =
              .ok (e.traced, sb)) ∧
          c.x ≤ 1 ∧ c.y ≤ 1 ∧ c.z ≤ 1) ∧
      (∀ (w h x y : K) (st : State K) (c : Color K) (st' : State K) (ls : List (Leaf K)),
        avg_color env rs fuel rays_ppxl 0 w h x y st = .ok (c, st', ls) →
        ∃ e : Leaf K, ls = [e] ∧
          c = ⟨min e.traced.x 1, min e.traced.y 1, min e.traced.z 1⟩ ∧
          e.x = (if rays_ppxl > 1 then x + (frand env rs st.calls * w - w / 2) else x) ∧
          e.y = (if rays_ppxl > 1 then y + (frand env rs (st.calls + 1) * h - h / 2) else y) ∧
          trace env rs fuel env.MAX_DEPTH (env.get_primary_ray e.x e.y)
            (if rays_ppxl > 1 then ⟨st.calls + 2, st.scene⟩ else st) = .ok (e.traced, st')) ∧
      (∀ (n : Nat) (w h x y : K) (st : State K) (c : Color K) (st' : State K)
          (ls : List (Leaf K)),
        avg_color env rs fuel rays_ppxl (n + 1) w h x y st = .ok (c, st', ls) →
        ∃ c1 s1 l1 c2 s2 l2 c3 s3 l3 c4 l4,
          avg_color env rs fuel rays_ppxl n (w / 2) (h / 2) (x + w / 4) (y + h / 4) st =
            .ok (c1, s1, l1) ∧
          avg_color env rs fuel rays_ppxl n (w / 2) (h / 2) (x + w / 4) (y - h / 4) s1 =
            .ok (c2, s2, l2) ∧
          avg_color env rs fuel rays_ppxl n (w / 2) (h / 2) (x - w / 4) (y + h / 4) s2 =
            .ok (c3, s3, l3) ∧
          avg_color env rs fuel rays_ppxl n (w / 2) (h / 2) (x - w / 4) (y - h / 4) s3 =
            .ok (c4, st', l4) ∧
          c = ⟨(c1.x + c2.x + c3.x + c4.x) / 4, (c1.y + c2.y + c3.y + c4.y) / 4,
            (c1.z + c2.z + c3.z + c4.z) / 4⟩ ∧
          ls = l1 ++ l2 ++ l3 ++ l4) ∧
      ((∀ (ray : Ray K) (s : State K), ∃ r, trace env rs fuel env.MAX_DEPTH ray s = .ok r) →
        ∃ r, avg_color env rs fuel rays_ppxl d w h x y st = .ok r) := by
  refine ⟨?_, fun w h x y st c st' ls hr =>
      avg_color_zero_exact env rs fuel rays_ppxl w h x y st c st' ls hr,
    fun n w h x y st c st' ls hr =>
      avg_color_succ_mean env rs fuel rays_ppxl n w h x y st c st' ls hr,
    fun htr => avg_color_returns env rs fuel rays_ppxl htr d w h x y st⟩
  intro c st' ls hr
  obtain ⟨hn, hc, ht⟩ := avg_color_spec env rs fuel rays_ppxl d w h x y st c st' ls hr
  have hfun : (fun e : Leaf K =>
      (⟨min e.traced.x 1, min e.traced.y 1, min e.traced.z 1⟩ : Color K)) =
      fun e => clamp1 e.traced := by
    funext e
    exact (clamp1_eq_min e.traced).symm
  have hne : ls ≠ [] := by
    intro he
    rw [he] at hn
    exact absurd hn.symm (pow_ne_zero d (by decide))
  refine ⟨hn, hne, ?_, ?_, ht, avg_color_le_one env rs fuel rays_ppxl d w h x y st c st' ls hr⟩
  · rw [hfun, hn, hc]
    norm_num
  · rw [hfun, hc]

/-- Witness for C9: depth 1 without jitter on `brightState`, for the footprint
of size `(2, 2)` centred at the origin.  One primary ray hits the emissive
triangle and `trace` returns `(2, 2, 2)`, which is clamped to `(1, 1, 1)`; the
other three leaves are black; the result is `(1/4, 1/4, 1/4)`. -/
theorem avg_color_mean_witness :
    ∃ c st ls, avg_color envQ (fun _ => 0) 1 1 1 2 2 0 0 brightState = .ok (c, st, ls) ∧
      ls.map (fun e => e.traced) =
        [⟨2, 2, 2⟩, Vector3.zero, Vector3.zero, Vector3.zero] ∧
      c = ⟨1 / 4, 1 / 4, 1 / 4⟩ ∧
      ls.length = 4 ^ 1 ∧
      c = (Vector3.sum (ls.map
          (fun e => (⟨min e.traced.x 1, min e.traced.y 1, min e.traced.z 1⟩ : Color ℚ)))).sdiv
            (ls.length : ℚ) ∧
      c.x ≤ 1 ∧ c.y ≤ 1 ∧ c.z ≤ 1 :=
  ⟨_, _, _, bright_avg_color, rfl, rfl,
    ((avg_color_mean envQ (fun _ => 0) 1 1 1 2 2 0 0 brightState).1 _ _ _ bright_avg_color).1,
    ((avg_color_mean envQ (fun _ => 0) 1 1 1 2 2 0 0 brightState).1 _ _ _
      bright_avg_color).2.2.1,
    ((avg_color_mean envQ (fun _ => 0) 1 1 1 2 2 0 0 brightState).1 _ _ _
      bright_avg_color).2.2.2.2.2⟩

/-! ### C11: the emission floor -/

/-- C11: in a scene whose ambient term and whose material reflectances `kd`,
`ks` and emissions `ke` (of every object, lights included) are component-wise
non-negative, with a `pow` that is non-negative on non-negative bases: for
every depth `d + 1 ≥ 1`, every random stream and every ray whose nearest hit is
an object `obj`, the colour `trace(ray, d + 1)` returns is component-wise at
least `ambient·kd + ke` of `obj`, hence at least `ke`; in particular an object
with `ke = (1,1,1)` yields at least 1 in every channel, whatever the depth. -/
theorem trace_emission_floor [FloorRing K] (env : Env K) (rs : Nat → Nat) (fuel : Nat)
    (hpow : ∀ b e : K, 0 ≤ b → 0 ≤ env.pow b e) (d : Nat) (ray : Ray K) (st : State K)
    (hnn : st.scene.nonneg) (info : IntInfo K) (obj : Object K)
    (hhit : (st.scene.intersection env ray).1 = some info)
    (hobj : info.object.bind (fun i => (st.scene.intersection env ray).2.heap[i]?) = some obj)
    (c : Color K) (st' : State K) (h : trace env rs fuel (d + 1) ray st = .ok (c, st')) :
    ((st.scene.ambient.mul obj.material.kd).add obj.material.ke).le c ∧
      obj.material.ke.le c ∧
      (obj.material.ke = ⟨1, 1, 1⟩ → 1 ≤ c.x ∧ 1 ≤ c.y ∧ 1 ≤ c.z) := by
  have hf := (Scene.intersection_keeps env st.scene ray).1
  have hn1 : (st.scene.intersection env ray).2.nonneg := Scene.nonneg_of_frame hf hnn
  have hamb : (st.scene.intersection env ray).2.ambient = st.scene.ambient := hf.2.2.1
  rw [trace, hhit] at h
  simp only [] at h
  have hb := shade_bound env rs fuel hpow (trace env rs fuel d)
    (trace_nonneg env rs fuel hpow d) ray info
    ⟨st.calls, (st.scene.intersection env ray).2⟩ hn1 obj hobj c st' h
  simp only [hamb] at hb
  have hmat : obj.material.nonneg := by
    cases hi : info.object with
    | none => rw [hi] at hobj; cases hobj
    | some i =>
      rw [hi] at hobj
      exact hn1.2 i obj hobj
  have hke : obj.material.ke.le c :=
    Vector3.le_trans' (emission_le_base _ _ hnn.1 hmat) hb
  refine ⟨hb, hke, ?_⟩
  intro h1
  rw [h1] at hke
  exact hke

/-- Witness for C11: in the scene `glowScene`, whose one object `glowTri` has
`ke = (1, 1, 1)`, the call `trace(rayHalf, 1)` with a stream of zeros returns a
colour that is at least 1 in every channel. -/
theorem trace_emission_floor_witness :
    ∃ c st', trace envQ (fun _ => 0) 1 1 rayHalf glowState = .ok (c, st') ∧
      (glowState.scene.intersection envQ rayHalf).1 = some glowHit ∧
      glowTri.calc_bbox.material.ke = ⟨1, 1, 1⟩ ∧ 1 ≤ c.x ∧ 1 ≤ c.y ∧ 1 ≤ c.z := by
  obtain ⟨c, st', h⟩ := glow_trace_returns 0
  have hq : glowState.scene.intersection envQ rayHalf = (some glowHit, glowBuilt) :=
    glowScene_intersection
  have hhit : (glowState.scene.intersection envQ rayHalf).1 = some glowHit := by rw [hq]
  have hobj : glowHit.object.bind
      (fun i => (glowState.scene.intersection envQ rayHalf).2.heap[i]?) =
      some glowTri.calc_bbox := by
    rw [hq]
    exact glowHit_object
  exact ⟨c, st', h, hhit, rfl,
    (trace_emission_floor envQ (fun _ => 0) 1 envQ_pow_nonneg 0 rayHalf glowState
      glowScene_nonneg glowHit glowTri.calc_bbox hhit hobj c st' h).2.2 rfl⟩

/-! ### C12: the divisors of the russian roulette -/

/-- C12: in the russian roulette of `shade`, for every material (whatever its
reflectances) and every random draw: whenever the diffuse branch is taken
(`rnd < avg_diff`) `avg_diff` is strictly positive, and whenever the specular
branch is taken (`rnd < avg_diff + avg_spec` after the diffuse test failed)
`avg_spec` is strictly positive; so the divisor of every bounce that `shade`
prepares is strictly positive. -/
theorem roulette_divisor_pos [FloorRing K] (env : Env K) (rs : Nat → Nat) (fuel : Nat)
    (ray : Ray K) (p n : Vector3 K) (mat : Material K) (color : Color K) (st : State K) :
    (roulette_rnd env rs mat st.calls < avg_diff mat → 0 < avg_diff mat) ∧
      (¬ roulette_rnd env rs mat st.calls < avg_diff mat →
        roulette_rnd env rs mat st.calls < avg_diff mat + avg_spec mat → 0 < avg_spec mat) ∧
      ∀ (d : Bool) (c w : Color K) (a : K) (r : Ray K) (s : State K),
        shade_roulette env rs fuel ray p n mat color st = .ok (.bounce d c w a r s) →
        0 < a ∧ a = (if d then avg_diff mat else avg_spec mat) := by
  have h0 := roulette_rnd_nonneg env rs mat st.calls
  have hd : roulette_rnd env rs mat st.calls < avg_diff mat → 0 < avg_diff mat :=
    fun h => lt_of_le_of_lt h0 h
  have hs : ¬ roulette_rnd env rs mat st.calls < avg_diff mat →
      roulette_rnd env rs mat st.calls < avg_diff mat + avg_spec mat → 0 < avg_spec mat := by
    intro h1 h2
    have := not_lt.mp h1
    linarith
  refine ⟨hd, hs, ?_⟩
  intro d c w a r s h
  obtain ⟨-, -, h1 | h1⟩ := shade_roulette_bounce env rs fuel ray p n mat color st d c w a r s h
  · obtain ⟨e1, e2, -, e4⟩ := h1
    subst e1 e4
    exact ⟨hd e2, rfl⟩
  · obtain ⟨e1, e2, e3, -, e5⟩ := h1
    subst e1 e5
    exact ⟨hs e2 e3, by simp⟩

/-! ### C13: the transient exclusion of lights -/

/-- C13: light exclusion in `shade` is transient.  Given that every object's
`ignore` flag is false when `shade` is entered: each iteration of the light
loop starts with all flags false, so during the shadow query for a light
exactly that light's flag is set and no other (the query runs on the scene
`set_ignore light true`), and the iteration clears the flag again; when
`shade` returns every flag is false and materials, geometry, the light list,
the object list and the ambient term are unchanged; the same holds for `trace`,
hence through the recursive call. -/
theorem shade_ignore_transient [FloorRing K] (env : Env K) (rs : Nat → Nat) (fuel : Nat)
    (d : Nat) (ray : Ray K) (min_info : IntInfo K) (st : State K)
    (hclear : st.scene.all_clear) :
    (∀ (p n v : Vector3 K) (mat : Material K) (color0 : Color K) (pre : List Nat)
        (light : Nat) (post : List Nat) (c : Color K) (s : State K),
        st.scene.lights = pre ++ light :: post →
        pre.foldl (shade_light env rs fuel p n v mat) (.ok (color0, st)) = .ok (c, s) →
        s.scene.all_clear ∧ (s.scene.set_ignore light true).only_ignored light ∧
          ∀ (c' : Color K) (s' : State K),
            shade_light env rs fuel p n v mat (.ok (c, s)) light = .ok (c', s') →
            s'.scene.all_clear ∧
              ∃ (smp : Vector3 K) (calls : Nat), s' = ⟨calls, Scene.set_ignore
                ((s.scene.set_ignore light true).intersection env ⟨p, smp.sub p⟩).2
                light false⟩) ∧
      (∀ (c : Color K) (st' : State K),
        shade env rs fuel (trace env rs fuel d) ray min_info st = .ok (c, st') →
        st'.scene.all_clear ∧ st.scene.frame st'.scene) ∧
      (∀ (c : Color K) (st' : State K),
        trace env rs fuel d ray st = .ok (c, st') →
        st'.scene.all_clear ∧ st.scene.frame st'.scene) := by
  refine ⟨?_, ?_, ?_⟩
  · intro p n v mat color0 pre light post c s _ hfold
    have hs : s.scene.all_clear :=
      (shade_light_foldl_keeps env rs fuel p n v mat pre color0 st c s hfold).2 hclear
    refine ⟨hs, Scene.only_ignored_set s.scene light hs, ?_⟩
    intro c' s' hl
    obtain ⟨lobj, smp, calls, -, -, hst, -⟩ :=
      shade_light_ok env rs fuel p n v mat c s light c' s' hl
    exact ⟨(shade_light_keeps env rs fuel p n v mat c s light c' s' hl).2 hs,
      smp, calls, hst⟩
  · intro c st' h
    obtain ⟨hf, hg⟩ := shade_keeps env rs fuel (trace env rs fuel d)
      (trace_keeps env rs fuel d) ray min_info st c st' h
    exact ⟨hg hclear, hf⟩
  · intro c st' h
    obtain ⟨hf, hg⟩ := trace_keeps env rs fuel d ray st c st' h
    exact ⟨hg hclear, hf⟩

/-- No flag is set in `glowScene`. -/
theorem glowScene_all_clear : glowScene.all_clear := by
  intro i o ho
  cases i with
  | zero =>
    have : o = glowTri := by
      simp only [glowScene, List.getElem?_cons_zero, Option.some.injEq] at ho
      exact ho.symm
    rw [this]
    rfl
  | succ i => simp [glowScene] at ho

/-- Witness for C13: on the state over `glowScene`, whose light is its own
emissive mesh, `trace(rayHalf, 2)` with a stream of zeros returns, all flags
are false afterwards and the scene is otherwise unchanged. -/
theorem shade_ignore_transient_witness :
    glowState.scene.all_clear ∧
      ∃ (c : Color ℚ) (st' : State ℚ),
        trace envQ (fun _ => 0) 1 2 rayHalf glowState = .ok (c, st') ∧
        st'.scene.all_clear ∧ glowState.scene.frame st'.scene := by
  obtain ⟨c, st', h⟩ := glow_trace_returns 1
  exact ⟨glowScene_all_clear, c, st', h,
    (shade_ignore_transient envQ (fun _ => 0) 1 2 rayHalf
      ⟨0, ⟨0, 0, 0⟩, ⟨0, 0, 0⟩, none⟩ glowState glowScene_all_clear).2.2 c st' h⟩

/-! ### C14: sampled points and the face surface -/

/-- C14, the code at the failing inputs.  For the triangle `liftedTri` in the
plane `z = 1` and three draws `rand() = 0`, `Face::sample` accepts
`a = b = c = 0` and returns the origin, which is not in the triangle; so does
`Mesh::sample` for the mesh of that one face.  For the quad `unitSquare` and
two draws `rand() = RAND_MAX`, `Face::sample` returns `(2, 1, 0)`, which is in
neither of the triangles `{v0,v1,v2}` and `{v0,v2,v3}` that make up the quad. -/
theorem face_sample_off_surface :
    (Face.sample envQ (fun _ => 0) 1 liftedTri .MESH_PRIM_TRI 0 = .ok (⟨0, 0, 0⟩, 3) ∧
        ¬ liftedTri.inside ⟨0, 0, 0⟩ ∧
        Mesh.sample envQ (fun _ => 0) 1 ⟨.MESH_PRIM_TRI, [liftedTri]⟩ 0 = .ok (⟨0, 0, 0⟩, 4)) ∧
      (Face.sample envQ (fun _ => 2147483647) 0 unitSquare .MESH_PRIM_QUAD 0 =
          .ok (⟨2, 1, 0⟩, 2) ∧
        ¬ unitSquare.tri012.inside ⟨2, 1, 0⟩ ∧ ¬ unitSquare.tri023.inside ⟨2, 1, 0⟩) := by
  have hacc : ¬ frand envQ (fun _ => 0) 0 + frand envQ (fun _ => 0) (0 + 1) +
      frand envQ (fun _ => 0) (0 + 2) > 1 := by
    simp only [frand_zero_stream]
    norm_num
  have hacc1 : ¬ frand envQ (fun _ => 0) 1 + frand envQ (fun _ => 0) (1 + 1) +
      frand envQ (fun _ => 0) (1 + 2) > 1 := by
    simp only [frand_zero_stream]
    norm_num
  have hrm : envQ.RAND_MAX ≠ 0 := by
    show (2147483647 : Nat) ≠ 0
    norm_num
  have hzero : liftedTri.combo 0 0 0 = ⟨0, 0, 0⟩ := by
    simp [Face.combo, Vector3.add, Vector3.smul]
  refine ⟨⟨?_, ?_, ?_⟩, ?_, ?_, ?_⟩
  · rw [Face.sample_tri_accept envQ (fun _ => 0) 0 liftedTri 0 hacc]
    simp only [frand_zero_stream, hzero]
  · rintro ⟨a, b, c, ha, hb, hc, hs, he⟩
    simp only [Face.combo, liftedTri, vtx, Vector3.add, Vector3.smul, Vector3.mk.injEq] at he
    linarith [he.2.2]
  · have hm := Mesh.sample_in_range envQ (fun _ => 0) 1 ⟨.MESH_PRIM_TRI, [liftedTri]⟩ 0
      (le_refl _) (Nat.zero_le _)
    obtain ⟨-, -, face, hf, hsm⟩ := hm
    have hi : Mesh.sample_index envQ ((fun _ : Nat => 0) 0) 1 = 0 := by
      simp [Mesh.sample_index]
    have hface : face = liftedTri := by
      have h2 : (⟨.MESH_PRIM_TRI, [liftedTri]⟩ : Mesh ℚ).faces.length = 1 := rfl
      rw [h2, hi] at hf
      exact (Option.some.inj hf).symm
    rw [hsm, hface]
    show liftedTri.sample envQ (fun _ => 0) (0 + 1) .MESH_PRIM_TRI 1 = _
    rw [Face.sample_tri_accept envQ (fun _ => 0) 0 liftedTri 1 hacc1]
    simp only [frand_zero_stream, hzero]
  · show unitSquare.sample envQ (fun _ => envQ.RAND_MAX) 0 .MESH_PRIM_QUAD 0 = _
    rw [Face.sample_quad]
    simp only [frand_max_stream envQ hrm]
    norm_num [unitSquare, vtx, Vector3.add, Vector3.sub, Vector3.smul]
  · rintro ⟨a, b, c, ha, hb, hc, hs, he⟩
    simp only [Face.combo, Face.tri012, unitSquare, vtx, Vector3.add, Vector3.smul,
      Vector3.mk.injEq] at he
    linarith [he.1, he.2.1]
  · rintro ⟨a, b, c, ha, hb, hc, hs, he⟩
    simp only [Face.combo, Face.tri023, unitSquare, vtx, Vector3.add, Vector3.smul,
      Vector3.mk.injEq] at he
    linarith [he.1, he.2.1]

/-! ### C15: the order of the numbers in `rot(...)` -/

/-- C15 (amended): when a mesh directive line is loaded, the four numbers
inside `rot(...)` are interpreted in the order `angle_deg rx ry rz`: the first
is the rotation angle in degrees, which is converted to radians
(`M_PI * angle / 180`), and the last three are the rotation axis; the rotation
`set_rotation(axis, angle)` so obtained is applied to every vertex and normal
of the mesh: every vertex of every face of the loaded mesh has as position the
scaled, rotated and translated numbers of a `v` line of the data file, and as
normal the rotated and normalised numbers of an `n` line. -/
theorem load_mesh_rot_order (env : Env K) (ld : Loader K) (d : MeshDirective K)
    (obj : Object K) (h : load_mesh env ld (some d) = .ok (some obj)) :
    (scan_mesh d).angle = d.rot.1 ∧
      (scan_mesh d).rx = d.rot.2.1 ∧ (scan_mesh d).ry = d.rot.2.2.1 ∧
      (scan_mesh d).rz = d.rot.2.2.2 ∧
      load_mesh_rot env ld d = ld.set_rotation env.mat_default
        ⟨d.rot.2.1, d.rot.2.2.1, d.rot.2.2.2⟩ (env.pi * d.rot.1 / 180) ∧
      ∃ (file : MeshFile K) (mesh : Mesh K),
        ld.fopen d.fname = some file ∧ obj.shape = .mesh mesh ∧
        ∀ face ∈ mesh.faces, ∀ j, j < mesh.prim.toNat →
          is_loaded_pos env file.lines ⟨d.pos.1, d.pos.2.1, d.pos.2.2⟩
            (load_mesh_rot env ld d) ⟨d.scale.1, d.scale.2.1, d.scale.2.2⟩ (face.v j).pos ∧
          is_loaded_norm env file.lines (load_mesh_rot env ld d) (face.v j).norm := by
  refine ⟨rfl, rfl, rfl, rfl, rfl, ?_⟩
  unfold load_mesh at h
  simp only [] at h
  cases hd : load_mesh_data env ld d.fname ⟨(scan_mesh d).x, (scan_mesh d).y, (scan_mesh d).z⟩
      (load_mesh_rot env ld d) ⟨(scan_mesh d).sx, (scan_mesh d).sy, (scan_mesh d).sz⟩ with
  | error e => rw [hd] at h; cases h
  | ok o =>
    cases o with
    | none => rw [hd] at h; cases h
    | some mesh =>
      rw [hd] at h
      simp only [] at h
      have hobj : obj.shape = .mesh mesh := by
        cases h
        rfl
      unfold load_mesh_data at hd
      cases hfile : ld.fopen d.fname with
      | none => rw [hfile] at hd; cases hd
      | some file =>
        rw [hfile] at hd
        simp only [] at hd
        cases hhead : file.header with
        | none => rw [hhead] at hd; cases hd
        | some prim =>
          rw [hhead] at hd
          simp only [] at hd
          cases hfold : file.lines.foldl
              (load_mesh_line env prim ⟨(scan_mesh d).x, (scan_mesh d).y, (scan_mesh d).z⟩
                (load_mesh_rot env ld d)
                ⟨(scan_mesh d).sx, (scan_mesh d).sy, (scan_mesh d).sz⟩)
              (.ok (some ⟨[], [], ld.face_default, []⟩)) with
          | error e => rw [hfold] at hd; cases hd
          | ok o =>
            cases o with
            | none => rw [hfold] at hd; cases hd
            | some st =>
              rw [hfold] at hd
              have hm : mesh = ⟨prim, st.faces⟩ := by
                cases hd
                rfl
              refine ⟨file, mesh, rfl, hobj, ?_⟩
              rw [hm]
              exact load_mesh_line_foldl_inv env prim _ _ _ file.lines file.lines
                (fun _ hl => hl) _ st (fun _ hp => absurd hp (List.not_mem_nil _))
                (fun _ hp => absurd hp (List.not_mem_nil _))
                (fun _ hp => absurd hp (List.not_mem_nil _)) hfold

/-- Witness for C15 (amended): the directive `spinDirective` loads with the
loader `loaderQ`. -/
theorem load_mesh_rot_order_witness :
    ∃ obj, load_mesh envQ loaderQ (some spinDirective) = .ok (some obj) ∧
      (scan_mesh spinDirective).angle = 90 ∧
      ∃ mesh, obj.shape = .mesh mesh ∧ mesh.faces.length = 1 := by
  have h : ∃ obj, load_mesh envQ loaderQ (some spinDirective) = .ok (some obj) ∧
      ∃ mesh, obj.shape = .mesh mesh ∧ mesh.faces.length = 1 :=
    ⟨_, rfl, _, rfl, rfl⟩
  obtain ⟨obj, hobj, hm⟩ := h
  exact ⟨obj, hobj, (load_mesh_rot_order envQ loaderQ spinDirective obj hobj).1, hm⟩

/-- Counterexample to C15 as stated: for the line
`m tri.mesh pos(0 0 0) rot(90 0 0 1) scale(1 1 1) ...` the code takes the first
number, 90, as the angle in degrees and `(0, 0, 1)` as the axis, so for every
`set_rotation` the rotation used is `set_rotation((0,0,1), M_PI·90/180)`; read
in the order `rx ry rz angle_deg` the axis would be `(90, 0, 0)` and the angle
1 degree. -/
theorem load_mesh_rot_angle_first :
    (scan_mesh spinDirective).angle = 90 ∧
      ((⟨(scan_mesh spinDirective).rx, (scan_mesh spinDirective).ry,
        (scan_mesh spinDirective).rz⟩ : Vector3 ℚ) = ⟨0, 0, 1⟩) ∧
      ((⟨(scan_mesh spinDirective).rx, (scan_mesh spinDirective).ry,
        (scan_mesh spinDirective).rz⟩ : Vector3 ℚ) ≠ ⟨90, 0, 0⟩) ∧
      DEG_TO_RAD envQ (scan_mesh spinDirective).angle ≠ DEG_TO_RAD envQ 1 ∧
      ∀ ld : Loader ℚ, load_mesh_rot envQ ld spinDirective =
        ld.set_rotation envQ.mat_default ⟨0, 0, 1⟩ (envQ.pi * 90 / 180) := by
  refine ⟨rfl, rfl, ?_, ?_, fun ld => rfl⟩
  · intro h
    have hx : (0 : ℚ) = 90 := congrArg Vector3.x h
    norm_num at hx
  · show (355 / 113 : ℚ) * 90 / 180 ≠ 355 / 113 * 1 / 180
    norm_num

/-! ### C16: termination of `trace` and the depth of its recursion -/

/-- C16 (amended): for every random stream on which the rejection loops of
`Face::sample` and `sample_lambert` finish, every depth `d ≥ 0`, every scene
and every ray, `trace(ray, d)` terminates: for every sufficiently large bound
on the loop rounds it gives one and the same outcome, which is not the
exhaustion of the bound.  For every stream: `trace(ray, d + 1)` hands
`trace(·, d)` to `shade`, and `shade` is its preparation followed by at most
one application of it; the depths of the nested `trace` calls of a run are an
initial piece of `d, d − 1, …, 0`, so there are at most `d + 1` of them, and at
most `d` of them invoke `shade`; started with `MAX_DEPTH`, as `avg_color` does,
at most `MAX_DEPTH + 1` nested calls occur. -/
theorem trace_terminates [FloorRing K] (env : Env K) (rs : Nat → Nat)
    (hloops : loops_terminate env rs) :
    (∀ (d : Nat) (ray : Ray K) (st : State K),
        Settles (fun fuel => trace env rs fuel d ray st)) ∧
      (∀ (fuel d : Nat) (ray : Ray K) (st : State K) (info : IntInfo K) (sc' : Scene K),
        st.scene.intersection env ray = (some info, sc') →
        trace env rs fuel (d + 1) ray st =
          shade env rs fuel (trace env rs fuel d) ray info ⟨st.calls, sc'⟩) ∧
      (∀ (fuel : Nat) (tr : Ray K → State K → Except Err (Color K × State K)) (ray : Ray K)
          (info : IntInfo K) (st : State K),
        shade env rs fuel tr ray info st =
          match shade_prepare env rs fuel ray info st with
          | .error e => .error e
          | .ok step => shade_finish tr step) ∧
      (∀ (fuel d : Nat) (ray : Ray K) (st : State K),
        (trace_run env rs fuel d ray st).1 = trace env rs fuel d ray st ∧
        (trace_chain env rs fuel d ray st).map Prod.fst <+: (List.range (d + 1)).reverse ∧
        (trace_chain env rs fuel d ray st).length ≤ d + 1 ∧
        (trace_chain env rs fuel d ray st).countP (fun e => e.2) ≤ d) ∧
      ∀ (fuel : Nat) (ray : Ray K) (st : State K),
        (trace_chain env rs fuel env.MAX_DEPTH ray st).length ≤ env.MAX_DEPTH + 1 :=
  ⟨trace_settles env rs hloops,
    fun fuel d ray st info sc' hq => trace_succ_hit env rs fuel d ray st info sc' hq,
    fun fuel tr ray info st => shade_factor env rs fuel tr ray info st,
    fun fuel d ray st => ⟨trace_run_fst env rs fuel d ray st,
      trace_chain_initial env rs fuel d ray st, trace_chain_length env rs fuel d ray st,
      trace_chain_shades env rs fuel d ray st⟩,
    fun fuel ray st => trace_chain_length env rs fuel env.MAX_DEPTH ray st⟩

/-- Witness for C16 (amended): with every draw equal to `644245094` the loops
finish, and `trace(rayHalf, 1)` on `glowState` terminates with at most two
nested calls. -/
theorem trace_terminates_witness :
    loops_terminate envQ (fun _ => 644245094) ∧
      Settles (fun fuel => trace envQ (fun _ => 644245094) fuel 1 rayHalf glowState) ∧
      (trace_chain envQ (fun _ => 644245094) 1 1 rayHalf glowState).length ≤ 2 :=
  ⟨loops_terminate_const,
    (trace_terminates envQ (fun _ => 644245094) loops_terminate_const).1 1 rayHalf glowState,
    ((trace_terminates envQ (fun _ => 644245094) loops_terminate_const).2.2.2.1 1 1 rayHalf
      glowState).2.2.1⟩

/-- Counterexample to C16 as stated: in the scene `glowScene`, whose light is a
triangle mesh, with every draw of `rand()` equal to `RAND_MAX = 2147483647`
(each draw is within `[0, RAND_MAX]`), the loop of `Face::sample` rejects in
every round, so `trace(rayHalf, 1)` runs out of every bound on the loop rounds:
it does not terminate. -/
theorem trace_rejection_diverges :
    (∀ i : Nat, (fun _ : Nat => 2147483647) i ≤ envQ.RAND_MAX) ∧
      (∀ fuel, trace envQ (fun _ => 2147483647) fuel 1 rayHalf glowState =
        .error .outOfFuel) ∧
      ¬ Settles (fun fuel => trace envQ (fun _ => 2147483647) fuel 1 rayHalf glowState) := by
  refine ⟨fun _ => le_refl _, fun fuel => glow_trace_diverges fuel 0, ?_⟩
  rintro ⟨N, r, hr, hN⟩
  exact hr ((hN N (le_refl N)).symm.trans (glow_trace_diverges N 0))

/-! ### C17: the face index of `Mesh::sample` -/

/-- C17: for every mesh with at least one face and every value `r` of `rand()`
in `[0, RAND_MAX]`, the face index `floor(r / (RAND_MAX + 1) · faceCount)` of
`Mesh::sample` satisfies `0 ≤ index < faceCount`, so the assertion holds, the
face access is in range and the face found there is sampled; for a mesh with
no faces the assertion fails for every `r`. -/
theorem mesh_sample_index [FloorRing K] (env : Env K) (rs : Nat → Nat) (fuel : Nat)
    (m : Mesh K) (calls : Nat) :
    (1 ≤ m.faces.length → rs calls ≤ env.RAND_MAX →
        0 ≤ Mesh.sample_index env (rs calls) m.faces.length ∧
          Mesh.sample_index env (rs calls) m.faces.length < (m.faces.length : Int) ∧
          ∃ face, m.faces[(Mesh.sample_index env (rs calls) m.faces.length).toNat]? =
              some face ∧
            Mesh.sample env rs fuel m calls = face.sample env rs fuel m.prim (calls + 1)) ∧
      (m.faces.length = 0 →
        ¬ Mesh.sample_index env (rs calls) m.faces.length < (m.faces.length : Int) ∧
          Mesh.sample env rs fuel m calls = .error .assertFailed) := by
  exact ⟨Mesh.sample_in_range env rs fuel m calls, Mesh.sample_empty env rs fuel m calls⟩

/-- Witness for C17: the mesh `twoTris` and the largest value of `rand()`. -/
theorem mesh_sample_index_witness :
    0 ≤ Mesh.sample_index envQ 2147483647 twoTris.faces.length ∧
      Mesh.sample_index envQ 2147483647 twoTris.faces.length < (twoTris.faces.length : Int) ∧
      ∃ face, twoTris.faces[(Mesh.sample_index envQ 2147483647 twoTris.faces.length).toNat]? =
          some face ∧
        Mesh.sample envQ (fun _ => 2147483647) 1 twoTris 0 =
          face.sample envQ (fun _ => 2147483647) 1 twoTris.prim (0 + 1) :=
  (mesh_sample_index envQ (fun _ => 2147483647) 1 twoTris 0).1 (by decide)
    (le_of_eq rfl)

/-! ### C18: the sample coordinates of a pixel -/

/-- C18: for every subdivision depth `d`, every footprint `(W, H)` with
`0 ≤ W`, `0 ≤ H` centred at `(x, y)` and every random stream whose draws are
within `[0, RAND_MAX]`, every coordinate pair that a run of `avg_color` hands
to `get_primary_ray` lies in `[x − W/2, x + W/2] × [y − H/2, y + H/2]`.
Without jitter (`rays_ppxl ≤ 1`) there are `4 ^ d` leaves; they are exactly the
nodes of the regular `2 ^ d × 2 ^ d` grid of cell centres; the closed leaf
footprints of size `(W / 2 ^ d, H / 2 ^ d)` lie in the footprint, cover it, and
their interiors are pairwise without a common point; and for `W, H > 0` the
leaf centres are pairwise distinct. -/
theorem avg_color_samples_in_footprint [FloorRing K] (env : Env K) (rs : Nat → Nat)
    (fuel : Nat) (rp : Int) (d : Nat) (W H x y : K) (st : State K) (c : Color K)
    (st' : State K) (ls : List (Leaf K)) (hW : 0 ≤ W) (hH : 0 ≤ H)
    (hrs : ∀ i, rs i ≤ env.RAND_MAX)
    (hr : avg_color env rs fuel rp d W H x y st = .ok (c, st', ls)) :
    (∀ e ∈ ls, (x - W / 2 ≤ e.x ∧ e.x ≤ x + W / 2 ∧ y - H / 2 ≤ e.y ∧ e.y ≤ y + H / 2) ∧
        ∃ sa sb, trace env rs fuel env.MAX_DEPTH (env.get_primary_ray e.x e.y) sa =
          .ok (e.traced, sb)) ∧
      (rp ≤ 1 →
        ls.length = 4 ^ d ∧
        (∀ e ∈ ls, ∃ i j, i < 2 ^ d ∧ j < 2 ^ d ∧
          e.x = grid_centre x W d i ∧ e.y = grid_centre y H d j) ∧
        (∀ i j, i < 2 ^ d → j < 2 ^ d →
          ∃ e ∈ ls, e.x = grid_centre x W d i ∧ e.y = grid_centre y H d j) ∧
        (∀ u v, x - W / 2 ≤ u → u ≤ x + W / 2 → y - H / 2 ≤ v → v ≤ y + H / 2 →
          ∃ e ∈ ls, e.covers (W / 2 ^ d) (H / 2 ^ d) u v) ∧
        (∀ e ∈ ls, x - W / 2 ≤ e.x - W / 2 ^ d / 2 ∧ e.x + W / 2 ^ d / 2 ≤ x + W / 2 ∧
          y - H / 2 ≤ e.y - H / 2 ^ d / 2 ∧ e.y + H / 2 ^ d / 2 ≤ y + H / 2) ∧
        ls.Pairwise (fun e e' => ¬ Leaf.overlap (W / 2 ^ d) (H / 2 ^ d) e e') ∧
        (0 < W → 0 < H → ls.Pairwise (fun e e' => ¬ (e.x = e'.x ∧ e.y = e'.y)))) := by
  have hspec := avg_color_spec env rs fuel rp d W H x y st c st' ls hr
  refine ⟨fun e he => ⟨avg_color_contained env rs fuel rp hrs d W H x y st c st' ls hr hW hH
    e he, hspec.2.2 e he⟩, fun hrp => ?_⟩
  have hdis := avg_color_disjoint env rs fuel rp hrp d W H x y st c st' ls hr hW hH
  exact ⟨hspec.1, avg_color_on_grid env rs fuel rp hrp d W H x y st c st' ls hr,
    avg_color_grid_full env rs fuel rp hrp d W H x y st c st' ls hr,
    avg_color_cover env rs fuel rp hrp d W H x y st c st' ls hr, hdis.1, hdis.2,
    fun hw hh => avg_color_distinct env rs fuel rp hrp d W H x y st c st' ls hr hw hh⟩

/-- Witness for C18: a run of depth 1 without jitter on the empty scene, for
the footprint of size `(2, 2)` centred at the origin. -/
theorem avg_color_samples_in_footprint_witness :
    ∃ c st ls, avg_color envQ (fun _ => 0) 0 1 1 2 2 0 0 emptyState = .ok (c, st, ls) ∧
      ls.length = 4 ^ 1 ∧
      ls.Pairwise (fun e e' => ¬ (e.x = e'.x ∧ e.y = e'.y)) ∧
      ∀ e ∈ ls, (0 : ℚ) - 2 / 2 ≤ e.x ∧ e.x ≤ 0 + 2 / 2 ∧ (0 : ℚ) - 2 / 2 ≤ e.y ∧
        e.y ≤ 0 + 2 / 2 :=
  ⟨_, _, _, rfl,
    ((avg_color_samples_in_footprint envQ (fun _ => 0) 0 1 1 2 2 0 0 emptyState _ _ _
      (by norm_num) (by norm_num) (fun _ => Nat.zero_le _) rfl).2 (le_refl 1)).1,
    ((avg_color_samples_in_footprint envQ (fun _ => 0) 0 1 1 2 2 0 0 emptyState _ _ _
      (by norm_num) (by norm_num) (fun _ => Nat.zero_le _) rfl).2 (le_refl 1)).2.2.2.2.2.2
      (by norm_num) (by norm_num),
    fun e he => ((avg_color_samples_in_footprint envQ (fun _ => 0) 0 1 1 2 2 0 0 emptyState
      _ _ _ (by norm_num) (by norm_num) (fun _ => Nat.zero_le _) rfl).1 e he).1⟩

end Theorems

end PathTracer
